import Mathlib

/-!
IGMPv3 client and router elements: wire codec, checksum, client and router state machines.

Shallow embedding of `click/elements/local/igmp` (`IGMPMessages.hh`, `IGMPClient.cc`,
`IGMPRouter.cc`).  Machine integers are natural numbers with explicit truncation, time is an
integer number of milliseconds, timers are records that hold their expiry.
-/

namespace IGMP

/-! ## Interval codec (`IGMPMessages.hh`) -/

/-- Subtraction of two `uint32_t` values, wrapping modulo `2^32`. -/
def sub32 (a b : Nat) : Nat := (a + 4294967296 - b) % 4294967296

/-- `U8toU32`: bytes below 128 are literal, the others are `(mant | 0x10) << (exp + 3)`. -/
def U8toU32 (byte : Nat) : Nat :=
  if byte < 128 then byte
  else
    let exp := (byte &&& 0x70) >>> 4
    let mant := byte &&& 0x0F
    (mant ||| 0x10) <<< (exp + 3)

/-- The loop `while ((u32 & 1 << index) == 0) { --index; }` of `U32toU8`, by recursion on
`index`.  `none` is the case in which `index` would be decremented below zero, where the
shift of the next test is undefined. -/
def highBitLoop (u32 : Nat) : Nat → Option Nat
  | 0 => if u32 &&& (1 <<< 0) = 0 then none else some 0
  | index + 1 =>
    if u32 &&& (1 <<< (index + 1)) = 0 then highBitLoop u32 index else some (index + 1)

/-- `U32toU8`: values below 128 are literal; the others are clamped to 31744 and encoded from
the index of the highest set bit and the four bits below it.  The result is a `uint8_t`. -/
def U32toU8 (u32 : Nat) : Option Nat :=
  if u32 < 128 then some (u32 % 256)
  else
    let u32 := min u32 31744
    match highBitLoop u32 31 with
    | none => none
    | some index =>
      some ((0x80 ||| (((sub32 index 7) &&& 0x7) <<< 4) ||| ((u32 >>> (sub32 index 4)) &&& 0xF))
        % 256)

/-! ## Messages (`IGMPMessages.hh`) -/

/-- `RecordType::MODE_IS_INCLUDE`. -/
def MODE_IS_INCLUDE : Nat := 1

/-- `RecordType::MODE_IS_EXCLUDE`. -/
def MODE_IS_EXCLUDE : Nat := 2

/-- `RecordType::CHANGE_TO_INCLUDE_MODE`. -/
def CHANGE_TO_INCLUDE_MODE : Nat := 3

/-- `RecordType::CHANGE_TO_EXCLUDE_MODE`. -/
def CHANGE_TO_EXCLUDE_MODE : Nat := 4

/-- `MessageType::QUERY`. -/
def QUERY : Nat := 0x11

/-- `MessageType::REPORT`. -/
def REPORT : Nat := 0x22

/-- The four bytes of `RouterAlertOption`. -/
def RouterAlertOption : List Nat := [0x94, 0x04, 0x00, 0x00]

/-- The address `224.0.0.1`, as a 32-bit value with `224` in the top byte. -/
def ALL_SYSTEMS : Nat := 3758096385

/-- `struct QueryMessage` (12 bytes).  Multi-byte fields hold the value of their bytes read in
wire order. -/
structure QueryMessage where
  type : Nat
  maxRespCode : Nat
  checksum : Nat
  groupAddress : Nat
  resv_s_qrv : Nat
  qqic : Nat
  numSources : Nat
deriving DecidableEq, Repr

/-- `struct GroupRecord` (8 bytes). -/
structure GroupRecord where
  recordType : Nat
  auxDataLen : Nat
  numSources : Nat
  multicastAddress : Nat
deriving DecidableEq, Repr

/-- `struct ReportMessage` (8 bytes), the header of a report. -/
structure ReportMessage where
  type : Nat
  reserved : Nat
  checksum : Nat
  reserved2 : Nat
  NumGroupRecords : Nat
deriving DecidableEq, Repr

/-- The two bytes of a 16-bit field. -/
def bytes16 (v : Nat) : List Nat := [v / 256 % 256, v % 256]

/-- The four bytes of a 32-bit field. -/
def bytes32 (v : Nat) : List Nat :=
  [v / 16777216 % 256, v / 65536 % 256, v / 256 % 256, v % 256]

/-- Memory image of a `QueryMessage`. -/
def QueryMessage.bytes (q : QueryMessage) : List Nat :=
  [q.type % 256, q.maxRespCode % 256] ++ bytes16 q.checksum ++ bytes32 q.groupAddress ++
    [q.resv_s_qrv % 256, q.qqic % 256] ++ bytes16 q.numSources

/-- Memory image of a `GroupRecord`. -/
def GroupRecord.bytes (r : GroupRecord) : List Nat :=
  [r.recordType % 256, r.auxDataLen % 256] ++ bytes16 r.numSources ++
    bytes32 r.multicastAddress

/-- Memory image of a `ReportMessage` header. -/
def ReportMessage.bytes (h : ReportMessage) : List Nat :=
  [h.type % 256, h.reserved % 256] ++ bytes16 h.checksum ++ bytes16 h.reserved2 ++
    bytes16 h.NumGroupRecords

/-- Memory image of a list of consecutive group records. -/
def recordsBytes : List GroupRecord → List Nat
  | [] => []
  | r :: rs => r.bytes ++ recordsBytes rs

/-- Memory image of a report: the header followed by its records. -/
def reportBytes (h : ReportMessage) (records : List GroupRecord) : List Nat :=
  h.bytes ++ recordsBytes records

/-- `QueryMessage::maxRespTime`: the decoded Max Resp Code in milliseconds (`uint32_t`). -/
def QueryMessage.maxRespTime (q : QueryMessage) : Nat :=
  (U8toU32 q.maxRespCode * 100) % 4294967296

/-! ## Checksum -/

/-- Modelled from the spec: `click_in_cksum` belongs to the Click library and is not under
`src/`.  This is the sum "of the message treated as a sequence of big-endian 16-bit words"; a
trailing odd byte is the high byte of a last word. -/
def sumWords : List Nat → Nat
  | [] => 0
  | [b] => 256 * b
  | b0 :: b1 :: rest => 256 * b0 + b1 + sumWords rest

/-- Modelled from the spec: the end-around carry ("folded"), repeated until the sum fits in 16
bits; the first argument bounds the number of rounds. -/
def foldCarry : Nat → Nat → Nat
  | 0, sum => sum
  | fuel + 1, sum =>
    if sum < 65536 then sum else foldCarry fuel (sum / 65536 + sum % 65536)

/-- Modelled from the spec: the folded sum.  Every round lowers a sum of 65536 or more, so
`sum` rounds are enough (`fold16_lt`). -/
def fold16 (sum : Nat) : Nat := foldCarry sum sum

/-- Modelled from the spec: `click_in_cksum` of the Click library (not under `src/`), the
16-bit ones-complement of the folded ones-complement sum.  A message "whose checksum
(including the checksum field itself) sums to zero is valid", that is, this returns 0. -/
def click_in_cksum (data : List Nat) : Nat := 65535 - fold16 (sumWords data)

/-- Modelled from the spec: `verify_checksum`, "recompute over the full message and require
result 0". -/
def verify_checksum (data : List Nat) : Bool := click_in_cksum data == 0

/-! ## Timers -/

/-- Modelled from the spec: the Click `Timer` class is not under `src/`.  The timer facility
gives "fire once at/after duration D semantics with rescheduling and cancellation"; a timer is
kept as whether it is scheduled and its expiry (milliseconds on the steady clock). -/
structure Timer where
  scheduled : Bool
  expiry : Int
deriving DecidableEq, Repr

/-- Modelled from the spec: `Timer::schedule_after_msec(delay)` at time `now`, which
(re)schedules the timer to fire after `delay` milliseconds. -/
def Timer.schedule_after_msec (_t : Timer) (now : Int) (delay : Nat) : Timer :=
  { scheduled := true, expiry := now + (delay : Int) }

/-- Modelled from the spec: `Timer::schedule_now()` at time `now` ("fire immediately"). -/
def Timer.schedule_now (_t : Timer) (now : Int) : Timer :=
  { scheduled := true, expiry := now }

/-- Modelled from the spec: `Timer::clear()`, the cancellation; the timer is unscheduled, its
stored expiry stays. -/
def Timer.clear (t : Timer) : Timer := { t with scheduled := false }

/-- Modelled from the spec: a timer after `new Timer` and `initialize`, not yet scheduled. -/
def Timer.fresh : Timer := { scheduled := false, expiry := 0 }

/-- A configured interval in tenths of a second, as the `uint32_t` number of milliseconds
`x * 100` passed to `schedule_after_msec`. -/
def mul100 (x : Nat) : Nat := (x * 100) % 4294967296

/-- Update of one key of a finite map (`std::map` with `operator[]`, `emplace`, `erase`). -/
def setKey {β : Type} (m : Nat → Option β) (k : Nat) (v : Option β) : Nat → Option β :=
  fun j => if j = k then v else m j

/-! ## Packets -/

/-- Modelled from the spec: the Click `Packet` class is not under `src/`.  A received packet
("raw network frames carrying an IP payload") as the push handlers see it: its bytes from the
start of the IP header and the value of `ip_header_length()`. -/
structure Packet where
  data : List Nat
  ip_header_length : Nat
deriving DecidableEq, Repr

/-- The byte at an offset of a buffer; the model reads 0 past the end of the buffer. -/
def byteAt (data : List Nat) (i : Nat) : Nat := data.getD i 0

/-- The `len` bytes of a buffer from offset `off`. -/
def readBytes (data : List Nat) (off len : Nat) : List Nat :=
  (List.range len).map (fun i => byteAt data (off + i))

/-- A 16-bit field read at an offset. -/
def word16At (data : List Nat) (i : Nat) : Nat := 256 * byteAt data i + byteAt data (i + 1)

/-- A 32-bit field read at an offset. -/
def word32At (data : List Nat) (i : Nat) : Nat :=
  16777216 * byteAt data i + 65536 * byteAt data (i + 1) + 256 * byteAt data (i + 2) +
    byteAt data (i + 3)

/-- The `QueryMessage` overlaid on a buffer at an offset. -/
def queryAt (data : List Nat) (off : Nat) : QueryMessage :=
  { type := byteAt data off
    maxRespCode := byteAt data (off + 1)
    checksum := word16At data (off + 2)
    groupAddress := word32At data (off + 4)
    resv_s_qrv := byteAt data (off + 8)
    qqic := byteAt data (off + 9)
    numSources := word16At data (off + 10) }

/-- The `ReportMessage` header overlaid on a buffer at an offset. -/
def reportAt (data : List Nat) (off : Nat) : ReportMessage :=
  { type := byteAt data off
    reserved := byteAt data (off + 1)
    checksum := word16At data (off + 2)
    reserved2 := word16At data (off + 4)
    NumGroupRecords := word16At data (off + 6) }

/-- The `GroupRecord` overlaid on a buffer at an offset. -/
def recordAt (data : List Nat) (off : Nat) : GroupRecord :=
  { recordType := byteAt data off
    auxDataLen := byteAt data (off + 1)
    numSources := word16At data (off + 2)
    multicastAddress := word32At data (off + 4) }

/-- The alert-option test shared by both push handlers:
`ip_header_length() > 5 * 4` and the last four bytes of the IP header equal
`RouterAlertOption`. -/
def hasRouterAlert (p : Packet) : Bool :=
  decide (p.ip_header_length > 5 * 4) &&
    (readBytes p.data (p.ip_header_length - 4) 4 == RouterAlertOption)

/-! ## Client (`IGMPClient.cc`) -/

/-- Modelled from the spec: `IGMPClientState::addAddress` is not under `src/`.  "If not already
a member, add it": the result tells whether the address was added. -/
def addAddress (members : List Nat) (address : Nat) : Bool × List Nat :=
  if address ∈ members then (false, members) else (true, members ++ [address])

/-- Modelled from the spec: `IGMPClientState::removeAddress` is not under `src/`.  "If
currently a member, remove it": the result tells whether the address was removed. -/
def removeAddress (members : List Nat) (address : Nat) : Bool × List Nat :=
  if address ∈ members then (true, members.filter (fun a => a ≠ address)) else (false, members)

/-- A report handed to `output(0).push`: the time and the message. -/
structure SentReport where
  time : Int
  header : ReportMessage
  records : List GroupRecord
deriving DecidableEq, Repr

/-- Modelled from the spec: `ScheduledChangeReport` is declared in `IGMPClient.hh`, which is
not under `src/`: "one retransmission timer per group address currently mid-flight on an
unsolicited state-change report, carrying the owning packet and a remaining-retransmission
counter".  The packet is kept as its header and records; `freed` records that the timer object
has been deleted while the map still holds its pointer. -/
structure ChangeTimer where
  timer : Timer
  header : ReportMessage
  records : List GroupRecord
  remaining : Int
  freed : Bool
deriving DecidableEq, Repr

/-- Modelled from the spec: the class `IGMPClient` is declared in `IGMPClient.hh`, which is not
under `src/`.  Its fields are those that `IGMPClient.cc` uses: the membership set of its
`IGMPClientState`, `qrv`, `unsolicitedReportInterval`, "one general-report timer (global); one
report timer per group address currently pending a query-triggered report; one retransmission
timer per group address"; with them the clock and the reports pushed to output 0 so far. -/
structure IGMPClient where
  members : List Nat
  qrv : Nat
  unsolicitedReportInterval : Nat
  generalTimer : Timer
  groupTimers : Nat → Option Timer
  changeTimers : Nat → Option ChangeTimer
  now : Int
  sent : List SentReport

namespace IGMPClient

/-- The report built by the client functions: `memset` to zero, `type = REPORT`,
`NumGroupRecords = htons(n)`, the records, and then the checksum over
`sizeof(ReportMessage) + n * sizeof(GroupRecord)` bytes. -/
def buildReport (records : List GroupRecord) : ReportMessage :=
  let header : ReportMessage :=
    { type := REPORT, reserved := 0, checksum := 0, reserved2 := 0,
      NumGroupRecords := records.length % 65536 }
  { header with
    checksum :=
      click_in_cksum (readBytes (reportBytes header records) 0 (8 + 8 * records.length)) }

/-- A record as the client fills it in a zeroed packet: only type and address are written. -/
def mkRecord (type address : Nat) : GroupRecord :=
  { recordType := type % 256, auxDataLen := 0, numSources := 0,
    multicastAddress := address % 4294967296 }

/-- `IGMPClient::push`.  `delay` stands for the value of
`(int) (((float) rand() / (float) RAND_MAX) * query->maxRespTime())`, which the model takes as
an input. -/
def push (self : IGMPClient) (p : Packet) (delay : Nat) : IGMPClient :=
  if !hasRouterAlert p then self
  else
    let query := queryAt p.data 24
    if query.type ≠ QUERY then self
    else if click_in_cksum (readBytes p.data 24 12) ≠ 0 then self
    else
      let new_qrv := query.resv_s_qrv &&& 0x7
      let self1 := { self with qrv := if new_qrv ≠ 0 then new_qrv else 2 }
      if self1.generalTimer.scheduled &&
          decide (self1.generalTimer.expiry - self1.now < (delay : Int))
      then self1
      else if query.groupAddress = 0 then
        { self1 with generalTimer := self1.generalTimer.schedule_after_msec self1.now delay }
      else
        match self1.groupTimers query.groupAddress with
        | none =>
          { self1 with
            groupTimers := setKey self1.groupTimers query.groupAddress
              (some (Timer.fresh.schedule_after_msec self1.now delay)) }
        | some timer =>
          if timer.expiry - self1.now > (delay : Int) then
            { self1 with
              groupTimers := setKey self1.groupTimers query.groupAddress
                (some (timer.schedule_after_msec self1.now delay)) }
          else self1

/-- The first part of `IGMPClient::scheduleStateChangeMessage`, up to `output(0).push`: the
report with the single record is built in the allocated packet and a clone of it is pushed. -/
def pushStateChange (self : IGMPClient) (type address : Nat) : IGMPClient :=
  let records := [mkRecord type address]
  { self with
    sent := self.sent ++
      [({ time := self.now, header := buildReport records, records := records } : SentReport)] }

/-- `IGMPClient::scheduleStateChangeMessage`.  `alloc` tells whether `Packet::make` returned a
packet; `delay` stands for `(float) rand() / (float) RAND_MAX * unsolicitedReportInterval`.
The timer found in `changeTimers` is cleared and deleted, and the map keeps its pointer when
the function returns at `qrv <= 1`.  `none` is the case in which the timer found was deleted
by such an earlier call: `clear()` and `delete` are then applied to a deleted object, which is
undefined, after the report has been pushed. -/
def scheduleStateChangeMessage (self : IGMPClient) (alloc : Bool) (delay : Nat)
    (type address : Nat) : Option IGMPClient :=
  if !alloc then some self
  else
    let self1 := pushStateChange self type address
    let cleared : Option IGMPClient :=
      match self1.changeTimers address with
      | some old =>
        if old.freed then none
        else
          some { self1 with
            changeTimers := setKey self1.changeTimers address
              (some { old with timer := old.timer.clear, freed := true }) }
      | none => some self1
    match cleared with
    | none => none
    | some self2 =>
      if self.qrv ≤ 1 then some self2
      else
        some { self2 with
          changeTimers := setKey self2.changeTimers address
            (some { timer := Timer.fresh.schedule_after_msec self2.now delay
                    header := buildReport [mkRecord type address]
                    records := [mkRecord type address]
                    remaining := ((self.qrv - 1 : Nat) : Int), freed := false }) }

/-- `IGMPClient::handleJoin`.  `address` is the parsed argument, `none` when parsing fails. -/
def handleJoin (self : IGMPClient) (alloc : Bool) (delay : Nat) (address : Option Nat) :
    Option IGMPClient :=
  match address with
  | none => some self
  | some a =>
    let r := addAddress self.members a
    if r.1 then
      scheduleStateChangeMessage { self with members := r.2 } alloc delay
        CHANGE_TO_EXCLUDE_MODE a
    else some { self with members := r.2 }

/-- `IGMPClient::handleLeave`.  `address` is the parsed argument, `none` when parsing fails. -/
def handleLeave (self : IGMPClient) (alloc : Bool) (delay : Nat) (address : Option Nat) :
    Option IGMPClient :=
  match address with
  | none => some self
  | some a =>
    let r := removeAddress self.members a
    if r.1 then
      scheduleStateChangeMessage { self with members := r.2 } alloc delay
        CHANGE_TO_INCLUDE_MODE a
    else some { self with members := r.2 }

/-- `IGMPClient::handleChangeReport` for the retransmission timer of `address`: push a clone of
the stored packet, decrement `remaining`, and clear the timer or reschedule it. -/
def handleChangeReport (self : IGMPClient) (delay : Nat) (address : Nat) : IGMPClient :=
  match self.changeTimers address with
  | none => self
  | some report =>
    let self1 :=
      { self with
        sent := self.sent ++
          [({ time := self.now, header := report.header, records := report.records } :
            SentReport)] }
    let remaining := report.remaining - 1
    if remaining ≤ 0 then
      { self1 with
        changeTimers := setKey self1.changeTimers address
          (some { report with remaining := remaining, timer := report.timer.clear }) }
    else
      { self1 with
        changeTimers := setKey self1.changeTimers address
          (some { report with
                  remaining := remaining
                  timer := report.timer.schedule_after_msec self1.now delay }) }

/-- `IGMPClient::handleGeneralReport`. -/
def handleGeneralReport (self : IGMPClient) (alloc : Bool) : IGMPClient :=
  let self1 := { self with generalTimer := self.generalTimer.clear }
  if self1.members.isEmpty then self1
  else if !alloc then self1
  else
    let records := self1.members.map (fun address => mkRecord MODE_IS_EXCLUDE address)
    { self1 with
      sent := self1.sent ++
        [({ time := self1.now, header := buildReport records, records := records } :
          SentReport)] }

/-- `IGMPClient::handleGroupReport` for the report timer of `address`. -/
def handleGroupReport (self : IGMPClient) (alloc : Bool) (address : Nat) : IGMPClient :=
  let self1 := { self with groupTimers := setKey self.groupTimers address none }
  if !(decide (address ∈ self1.members)) || decide (address = ALL_SYSTEMS) then self1
  else if !alloc then self1
  else
    let records := [mkRecord MODE_IS_EXCLUDE address]
    { self1 with
      sent := self1.sent ++
        [({ time := self1.now, header := buildReport records, records := records } :
          SentReport)] }

/-- Modelled from the spec: the timer facility running the retransmission timer of `address`.
The timer fires only when scheduled, at its expiry (or now, if that is later), and is
unscheduled when its callback `handleChangeReport` starts. -/
def fireChangeTimer (self : IGMPClient) (delay : Nat) (address : Nat) : Option IGMPClient :=
  match self.changeTimers address with
  | none => none
  | some report =>
    if report.timer.scheduled && !report.freed then
      some (handleChangeReport
        { self with
          now := max self.now report.timer.expiry
          changeTimers := setKey self.changeTimers address
            (some { report with timer := report.timer.clear }) }
        delay address)
    else none

/-- Modelled from the spec: the timer facility running the retransmission timer of `address`
again and again until it is no longer scheduled, at most `fuel` times; the `k`-th firing takes
its fresh random delay from `delays k`.  The result holds the state and the number of
firings. -/
def runChangeTimer (delays : Nat → Nat) (address : Nat) :
    Nat → IGMPClient → Nat → IGMPClient × Nat
  | 0, self, fired => (self, fired)
  | fuel + 1, self, fired =>
    match fireChangeTimer self (delays fired) address with
    | none => (self, fired)
    | some self1 => runChangeTimer delays address fuel self1 (fired + 1)

end IGMPClient

/-! ## Router (`IGMPRouter.cc`) -/

/-- Modelled from the spec: `IPAddress::is_multicast` belongs to the Click library and is not
under `src/`.  The spec's "valid multicast address" is taken as the IPv4 multicast range
`224.0.0.0/4`, on a 32-bit address with its first byte on top. -/
def is_multicast (address : Nat) : Bool := address / 268435456 % 16 == 14

/-- Modelled from the spec: `TimerData` is declared in `IGMPRouter.hh`, which is not under
`src/`.  The callback of a router timer together with the data it was created with:
`std::pair<Groups*, IPAddress>` for `groupExpire`, `TimerData{ self, interface, address,
numResends, first }` for `handleSpecificResend` (a `uint32_t` counter and the flag of the
first firing), `std::pair<IGMPRouter*, uint32_t>` for `handleGeneralResend`. -/
inductive Callback where
  | groupExpire (interface address : Nat)
  | handleSpecificResend (interface address numResends : Nat) (first : Bool)
  | handleGeneralResend (count : Nat)
deriving DecidableEq, Repr

/-- A timer object allocated by the router. -/
structure RouterTimer where
  timer : Timer
  callback : Callback
deriving DecidableEq, Repr

/-- Modelled from the spec: `GroupData` is declared in a header that is not under `src/`;
"group state `{ exclude: bool, groupTimer, sendTimer? }`", built in the source as
`GroupData{ timer, nullptr, false }`.  The timer pointers are indices into the list of timers
the router has allocated. -/
structure GroupData where
  groupTimer : Nat
  sendTimer : Option Nat
  isExclude : Bool
deriving DecidableEq, Repr

/-- A query handed to `output(port).push`. -/
structure SentQuery where
  time : Int
  port : Nat
  msg : QueryMessage
deriving DecidableEq, Repr

/-- Modelled from the spec: `IGMPRouter` and `IGMPRouterState` are declared in headers that are
not under `src/`.  The fields are those that `IGMPRouter.cc` reads: "robustness, general query
interval, query-response interval, startup query interval/count, last-member query
interval/count, last-member query time, group-membership interval" (taken as `uint32_t`, the
intervals in tenths of a second) and the "mapping from interface id to a mapping from
multicast address to group state"; with them every timer the router has allocated, the number
of outputs, the clock and the queries pushed so far. -/
structure IGMPRouter where
  robustness : Nat
  queryInterval : Nat
  queryResponseInterval : Nat
  startupQueryInterval : Nat
  startupQueryCount : Nat
  lastMemberQueryInterval : Nat
  lastMemberQueryCount : Nat
  lastMemberQueryTime : Nat
  groupMembershipInterval : Nat
  interfaces : Nat → Option (Nat → Option GroupData)
  timers : List RouterTimer
  noutputs : Nat
  now : Int
  sent : List SentQuery

namespace IGMPRouter

/-- The timer object behind a pointer; pointers stored in the tables always come from an
allocation, the default is never read. -/
def timerAt (self : IGMPRouter) (id : Nat) : Timer :=
  match self.timers[id]? with
  | some t => t.timer
  | none => Timer.fresh

/-- Apply a `Timer` method to the timer object behind a pointer. -/
def updateTimer (self : IGMPRouter) (id : Nat) (f : Timer → Timer) : IGMPRouter :=
  match self.timers[id]? with
  | some t => { self with timers := self.timers.set id { t with timer := f t.timer } }
  | none => self

/-- Overwrite the data of the timer object behind a pointer. -/
def updateCallback (self : IGMPRouter) (id : Nat) (c : Callback) : IGMPRouter :=
  match self.timers[id]? with
  | some t => { self with timers := self.timers.set id { t with callback := c } }
  | none => self

/-- `new Timer(callback, data)` followed by `initialize` and a first scheduling: the timer
object is added to the allocated timers, its pointer is the index it gets. -/
def allocTimer (self : IGMPRouter) (t : RouterTimer) : IGMPRouter :=
  { self with timers := self.timers ++ [t] }

/-- The table `state->interfaces[interface]`, empty when the interface is not there. -/
def groups (self : IGMPRouter) (interface : Nat) : Nat → Option GroupData :=
  match self.interfaces interface with
  | some g => g
  | none => fun _ => none

/-- Write `state->interfaces[interface][address]`. -/
def setGroup (self : IGMPRouter) (interface address : Nat) (g : Option GroupData) :
    IGMPRouter :=
  { self with
    interfaces := setKey self.interfaces interface
      (some (setKey (self.groups interface) address g)) }

/-- The block "create the group if it doesn't exist" of the loop of `processReport`: a new
entry gets a `groupExpire` timer scheduled `groupMembershipInterval * 100` ms from now, no send
timer and `isExclude = false`. -/
def createGroup (self : IGMPRouter) (interface address : Nat) : IGMPRouter :=
  match self.groups interface address with
  | some _ => self
  | none =>
    let timer : RouterTimer :=
      { timer := Timer.fresh.schedule_after_msec self.now (mul100 self.groupMembershipInterval)
        callback := Callback.groupExpire interface address }
    setGroup (self.allocTimer timer) interface address
      (some { groupTimer := self.timers.length, sendTimer := none, isExclude := false })

/-- The branch on the record type in the loop of `processReport`, on
`group = state->interfaces[interface][address]`. -/
def updateGroup (self : IGMPRouter) (interface : Nat) (record : GroupRecord) : IGMPRouter :=
  let address := record.multicastAddress
  match self.groups interface address with
  | none => self
  | some group =>
    if record.recordType = MODE_IS_EXCLUDE ∨ record.recordType = CHANGE_TO_EXCLUDE_MODE then
      let self1 := setGroup self interface address (some { group with isExclude := true })
      self1.updateTimer group.groupTimer
        (fun t => t.schedule_after_msec self1.now (mul100 self1.groupMembershipInterval))
    else if group.isExclude then
      let self1 :=
        match group.sendTimer with
        | some old => self.updateTimer old Timer.clear
        | none => self
      let timer : RouterTimer :=
        { timer := Timer.fresh.schedule_now self1.now
          callback :=
            Callback.handleSpecificResend interface address self1.lastMemberQueryCount true }
      setGroup (self1.allocTimer timer) interface address
        (some { group with sendTimer := some self1.timers.length })
    else self

/-- One iteration of the loop of `IGMPRouter::processReport`. -/
def processRecord (interface : Nat) (self : IGMPRouter) (record : GroupRecord) : IGMPRouter :=
  let address := record.multicastAddress
  if !is_multicast address || decide (address = ALL_SYSTEMS) then self
  else updateGroup (createGroup self interface address) interface record

/-- The pointers of the group tables are sound: the `groupTimer` of the entry of
`(interface, address)` is an allocated timer created with callback `groupExpire` for that
interface table and address, and its `sendTimer`, when set, is an allocated timer created with
callback `handleSpecificResend` for that interface and address. -/
def WF (self : IGMPRouter) : Prop :=
  ∀ interface address group, self.groups interface address = some group →
    (∃ t, self.timers[group.groupTimer]? = some t ∧
      t.callback = Callback.groupExpire interface address) ∧
    (∀ id, group.sendTimer = some id → ∃ t n first, self.timers[id]? = some t ∧
      t.callback = Callback.handleSpecificResend interface address n first)

/-- The entry of `(interface, address)` exists with `isExclude = true` and its expiry timer is
scheduled `groupMembershipInterval * 100` ms from now. -/
def confirmedListener (self : IGMPRouter) (interface address : Nat) : Prop :=
  ∃ group t, self.groups interface address = some group ∧ group.isExclude = true ∧
    self.timers[group.groupTimer]? = some t ∧
    t.timer =
      { scheduled := true, expiry := self.now + (mul100 self.groupMembershipInterval : Nat) }

/-- `IGMPRouter::processReport` on the records of a report. -/
def processReport (self : IGMPRouter) (records : List GroupRecord) (interface : Nat) :
    IGMPRouter :=
  let self1 :=
    match self.interfaces interface with
    | some _ => self
    | none => { self with interfaces := setKey self.interfaces interface (some (fun _ => none)) }
  records.foldl (processRecord interface) self1

/-- `IGMPRouter::push`. -/
def push (self : IGMPRouter) (input : Int) (packet : Packet) : IGMPRouter :=
  let report := reportAt packet.data packet.ip_header_length
  if input < 0 then self
  else if !hasRouterAlert packet then self
  else
    let length := 8 + report.NumGroupRecords * 8
    if click_in_cksum (readBytes packet.data packet.ip_header_length length) ≠ 0 then self
    else if report.type ≠ REPORT then self
    else
      processReport self
        ((List.range report.NumGroupRecords).map
          (fun i => recordAt packet.data (packet.ip_header_length + 8 + 8 * i)))
        (input.toNat % 4294967296)

/-- `IGMPRouter::groupExpire`. -/
def groupExpire (self : IGMPRouter) (interface address : Nat) : IGMPRouter :=
  setGroup self interface address none

/-- The `QueryMessage` of `sendGroupSpecificQuery`, checksum included; `s` is the suppress
flag. -/
def groupSpecificQuery (self : IGMPRouter) (s : Nat) (address : Nat) : Option QueryMessage :=
  match U32toU8 self.lastMemberQueryInterval, U32toU8 self.queryInterval with
  | some maxRespCode, some qqic =>
    let msg : QueryMessage :=
      { type := QUERY, maxRespCode := maxRespCode, checksum := 0,
        groupAddress := address % 4294967296
        resv_s_qrv := ((s <<< 3) + min self.robustness 7) % 256, qqic := qqic, numSources := 0 }
    some { msg with checksum := click_in_cksum (readBytes msg.bytes 0 12) }
  | _, _ => none

/-- `IGMPRouter::sendGroupSpecificQuery`. -/
def sendGroupSpecificQuery (self : IGMPRouter) (interface address : Nat) : Option IGMPRouter :=
  match self.interfaces interface with
  | none => some self
  | some network =>
    match network address with
    | none => some self
    | some group =>
      let duration := (self.timerAt group.groupTimer).expiry - self.now
      let s : Nat := if duration > ((mul100 self.lastMemberQueryTime : Nat) : Int) then 1 else 0
      match groupSpecificQuery self s address with
      | none => none
      | some msg =>
        some { self with
          sent := self.sent ++ [{ time := self.now, port := interface, msg := msg }] }

/-- The `QueryMessage` of `sendGeneralQueries`, checksum included. -/
def generalQuery (self : IGMPRouter) : Option QueryMessage :=
  match U32toU8 self.queryResponseInterval, U32toU8 self.queryInterval with
  | some maxRespCode, some qqic =>
    let msg : QueryMessage :=
      { type := QUERY, maxRespCode := maxRespCode, checksum := 0, groupAddress := 0,
        resv_s_qrv := (min self.robustness 7) % 256, qqic := qqic, numSources := 0 }
    some { msg with checksum := click_in_cksum (readBytes msg.bytes 0 12) }
  | _, _ => none

/-- `IGMPRouter::sendGeneralQueries`: one clone on every output. -/
def sendGeneralQueries (self : IGMPRouter) : Option IGMPRouter :=
  match generalQuery self with
  | none => none
  | some msg =>
    some { self with
      sent := self.sent ++
        (List.range self.noutputs).map
          (fun i => ({ time := self.now, port := i, msg := msg } : SentQuery)) }

/-- `IGMPRouter::handleSpecificResend` for the timer `id` with its `TimerData`. -/
def handleSpecificResend (self : IGMPRouter) (id : Nat) : Option IGMPRouter :=
  match self.timers[id]? with
  | some { timer := _
           callback := Callback.handleSpecificResend interface address numResends first } =>
    let numResends1 := sub32 numResends 1
    let self1 :=
      self.updateCallback id (Callback.handleSpecificResend interface address numResends1 first)
    if numResends1 = 0 then some self1
    else
      match sendGroupSpecificQuery self1 interface address with
      | none => none
      | some self2 =>
        let self3 :=
          self2.updateTimer id
            (fun t => t.schedule_after_msec self2.now (mul100 self2.lastMemberQueryInterval))
        if first then
          match self3.interfaces interface with
          | none => some self3
          | some network =>
            match network address with
            | none => some self3
            | some group =>
              let self4 :=
                self3.updateTimer group.groupTimer
                  (fun t => t.schedule_after_msec self3.now (mul100 self3.lastMemberQueryTime))
              some (self4.updateCallback id
                (Callback.handleSpecificResend interface address numResends1 false))
        else some self3
  | _ => some self

/-- `IGMPRouter::handleGeneralResend` for the timer `id` with its counter. -/
def handleGeneralResend (self : IGMPRouter) (id : Nat) : Option IGMPRouter :=
  match self.timers[id]? with
  | some { timer := _, callback := Callback.handleGeneralResend count } =>
    match sendGeneralQueries self with
    | none => none
    | some self1 =>
      if count > 0 then
        some ((self1.updateCallback id (Callback.handleGeneralResend (count - 1))).updateTimer id
          (fun t => t.schedule_after_msec self1.now (mul100 self1.startupQueryInterval)))
      else
        some (self1.updateTimer id
          (fun t => t.schedule_after_msec self1.now (mul100 self1.queryInterval)))
  | _ => some self

/-- Modelled from the spec: the timer facility running timer `id`.  The timer fires only when
scheduled, at its expiry (or now, if that is later), and is unscheduled when its callback
starts.  `none` when the timer is not scheduled or the callback does not return a state. -/
def fireTimer (self : IGMPRouter) (id : Nat) : Option IGMPRouter :=
  match self.timers[id]? with
  | none => none
  | some t =>
    if t.timer.scheduled then
      let self1 := { self with now := max self.now t.timer.expiry }.updateTimer id Timer.clear
      match t.callback with
      | Callback.groupExpire interface address => some (groupExpire self1 interface address)
      | Callback.handleSpecificResend _ _ _ _ => handleSpecificResend self1 id
      | Callback.handleGeneralResend _ => handleGeneralResend self1 id
    else none

/-- Modelled from the spec: the timer facility running timer `id` again and again until it is
no longer scheduled, at most `fuel` times.  The result holds the state and the number of
firings; `none` when a callback does not return a state. -/
def runTimer (id : Nat) : Nat → IGMPRouter → Nat → Option (IGMPRouter × Nat)
  | 0, self, fired => some (self, fired)
  | fuel + 1, self, fired =>
    match self.timers[id]? with
    | none => some (self, fired)
    | some t =>
      if t.timer.scheduled then
        match fireTimer self id with
        | none => none
        | some self1 => runTimer id fuel self1 (fired + 1)
      else some (self, fired)

end IGMPRouter

/-! ## Sample states -/

/-- A client that has joined nothing, has learned `qrv = 3`, and has no timer running. -/
def sampleClient : IGMPClient :=
  { members := [], qrv := 3, unsolicitedReportInterval := 1000
    generalTimer := Timer.fresh, groupTimers := fun _ => none, changeTimers := fun _ => none
    now := 0, sent := [] }

/-- The address `239.1.1.1`. -/
def sampleGroup : Nat := 4009820417

/-- A router with the default configuration of RFC 3376 (robustness 2, query interval 125 s,
last member query count 2) that has just started: no interface table, no timer. -/
def sampleRouter : IGMPRouter :=
  { robustness := 2, queryInterval := 1250, queryResponseInterval := 100
    startupQueryInterval := 312, startupQueryCount := 2
    lastMemberQueryInterval := 10, lastMemberQueryCount := 2, lastMemberQueryTime := 20
    groupMembershipInterval := 2600
    interfaces := fun _ => none, timers := [], noutputs := 2, now := 0, sent := [] }

/-- A record of the given type for `sampleGroup`, without sources. -/
def sampleRecord (type : Nat) : GroupRecord :=
  { recordType := type, auxDataLen := 0, numSources := 0, multicastAddress := sampleGroup }

/-- The sample router after a report `{IS_EXCLUDE, sampleGroup}` on interface 1 followed, 5 s
later, by a report `{CHANGE_TO_INCLUDE, sampleGroup}` on the same interface, with
`lastMemberQueryCount = n`. -/
def probingRouter (n : Nat) : IGMPRouter :=
  let r1 := IGMPRouter.processReport { sampleRouter with lastMemberQueryCount := n }
    [sampleRecord MODE_IS_EXCLUDE] 1
  IGMPRouter.processReport { r1 with now := 5000 } [sampleRecord CHANGE_TO_INCLUDE_MODE] 1

/-- A packet carrying the General Query of the sample router behind a 24-byte IP header that
ends with the Router Alert option. -/
def sampleGeneralQueryPacket : Packet :=
  { data := List.replicate 20 0 ++ RouterAlertOption ++
      (match sampleRouter.generalQuery with
        | some q => q.bytes
        | none => [])
    ip_header_length := 24 }

/-- A packet carrying a Group-Specific Query of the sample router for `sampleGroup` behind a
24-byte IP header that ends with the Router Alert option. -/
def sampleGroupQueryPacket : Packet :=
  { data := List.replicate 20 0 ++ RouterAlertOption ++
      (match sampleRouter.groupSpecificQuery 0 sampleGroup with
        | some q => q.bytes
        | none => [])
    ip_header_length := 24 }

/-- The sample client with a general report already pending, due 100 ms from now. -/
def busyClient : IGMPClient :=
  { sampleClient with generalTimer := { scheduled := true, expiry := 100 } }

/-- The address `239.1.1.2`. -/
def otherGroup : Nat := 4009820418

/-- The sample client after joining `sampleGroup` and `otherGroup`, with the general report
pending in 700 ms and a report for `sampleGroup` pending in 300 ms. -/
def joinedClient : IGMPClient :=
  { sampleClient with
    members := [sampleGroup, otherGroup]
    generalTimer := { scheduled := true, expiry := 700 }
    groupTimers := setKey (fun _ => none) sampleGroup (some { scheduled := true, expiry := 300 }) }

/-- The probing sample router with `lastMemberQueryCount = 3` after the first firing of its
probe timer (timer 1) and, 500 ms later, a report `{IS_EXCLUDE, sampleGroup}` on interface
1. -/
def refreshedProbe : Option IGMPRouter :=
  (IGMPRouter.fireTimer (probingRouter 3) 1).map
    (fun r => IGMPRouter.processReport { r with now := 5500 } [sampleRecord MODE_IS_EXCLUDE] 1)

/-- The sample router after a report `{IS_EXCLUDE, sampleGroup}` on interface 1 at time 0 and a
report `{CHANGE_TO_INCLUDE, sampleGroup}` on the same interface at 260001 ms, when the expiry
timer of the group (timer 0, due at 260000 ms) is due but has not run yet; the probe timer is
timer 1. -/
def overdueProbe : IGMPRouter :=
  let r1 := IGMPRouter.processReport sampleRouter [sampleRecord MODE_IS_EXCLUDE] 1
  IGMPRouter.processReport { r1 with now := 260001 } [sampleRecord CHANGE_TO_INCLUDE_MODE] 1

/-- The router `overdueProbe` after its due expiry timer (timer 0) has fired. -/
def expiredProbe : Option IGMPRouter := IGMPRouter.fireTimer overdueProbe 0

/-- The router `expiredProbe` after a new report `{IS_EXCLUDE, sampleGroup}` on interface 1. -/
def recreatedGroup : Option IGMPRouter :=
  expiredProbe.map (fun r => IGMPRouter.processReport r [sampleRecord MODE_IS_EXCLUDE] 1)

namespace IGMPRouter

/-- `IGMPRouter::configure` once the `STATE` argument has been read: the general-query timer is
created with the counter `startupQueryCount` and scheduled now. -/
def configure (self : IGMPRouter) : IGMPRouter :=
  self.allocTimer
    { timer := Timer.fresh.schedule_now self.now
      callback := Callback.handleGeneralResend self.startupQueryCount }

end IGMPRouter

/-- The sample router after `configure`: its general-query timer is timer 0. -/
def startedRouter : IGMPRouter := sampleRouter.configure

/-- The sample client with `qrv = 2` right after joining `sampleGroup`: the `CHANGE_TO_EXCLUDE`
report has been transmitted once and its retransmission timer is pending in 200 ms. -/
def pendingJoin : IGMPClient :=
  match IGMPClient.handleJoin { sampleClient with qrv := 2 } true 200 (some sampleGroup) with
  | some joined => joined
  | none => sampleClient

/-- A packet carrying the General Query of the sample router configured with the given
robustness, behind a 24-byte IP header that ends with the Router Alert option. -/
def queryPacket (robustness : Nat) : Packet :=
  { data := List.replicate 20 0 ++ RouterAlertOption ++
      (match IGMPRouter.generalQuery { sampleRouter with robustness := robustness } with
        | some q => q.bytes
        | none => [])
    ip_header_length := 24 }

/-- The run join, query with QRV 1, leave, query with QRV 3 for `sampleGroup` on the sample
client with `qrv = 2`: the leave runs with `qrv = 1`, so it deletes the retransmission timer
of the join and leaves its pointer in the map. -/
def staleClient : Option IGMPClient :=
  ((IGMPClient.handleJoin { sampleClient with qrv := 2 } true 200 (some sampleGroup)).bind
    (fun c => IGMPClient.handleLeave (c.push (queryPacket 1) 50) true 300 (some sampleGroup))).map
    (fun c => c.push (queryPacket 3) 50)

/-- The run join, leave, query with QRV 1, join for `sampleGroup` on the sample client with
`qrv = 2`: the second join runs with `qrv = 1`, so it deletes the retransmission timer of the
leave and leaves its pointer in the map, with `sampleGroup` a member. -/
def staleMember : Option IGMPClient :=
  ((IGMPClient.handleJoin { sampleClient with qrv := 2 } true 200 (some sampleGroup)).bind
    (fun c => IGMPClient.handleLeave c true 300 (some sampleGroup))).bind
    (fun c => IGMPClient.handleJoin (c.push (queryPacket 1) 50) true 200 (some sampleGroup))

/-! ### Codec lemmas -/

theorem and_two_pow_eq_zero_iff (x i : Nat) : x &&& (1 <<< i) = 0 ↔ x.testBit i = false := by
  rw [Nat.one_shiftLeft]
  constructor
  · intro h
    have h1 : (x &&& 2 ^ i).testBit i = false := by rw [h]; simp
    simpa [Nat.testBit_and, Nat.testBit_two_pow_self] using h1
  · intro h
    apply Nat.eq_of_testBit_eq
    intro j
    by_cases hij : i = j
    · subst hij
      simp [Nat.testBit_and, h]
    · simp [Nat.testBit_and, Nat.testBit_two_pow, hij]

theorem testBit_top (x k : Nat) (hlo : 2 ^ k ≤ x) (hhi : x < 2 ^ (k + 1)) :
    x.testBit k = true := by
  rw [Nat.testBit_to_div_mod]
  have h1 : x / 2 ^ k = 1 := by
    apply Nat.div_eq_of_lt_le
    · simpa using hlo
    · rw [pow_succ] at hhi
      omega
  simp [h1]

/-- The loop stops at the index of the highest set bit. -/
theorem highBitLoop_eq (x k : Nat) (hlo : 2 ^ k ≤ x) (hhi : x < 2 ^ (k + 1)) :
    ∀ n, k ≤ n → highBitLoop x n = some k := by
  intro n
  induction n with
  | zero =>
    intro hk
    have hk0 : k = 0 := by omega
    subst hk0
    have hb := testBit_top x 0 hlo hhi
    have hne : ¬ (x &&& (1 <<< 0) = 0) := by
      rw [and_two_pow_eq_zero_iff]; simp [hb]
    rw [highBitLoop, if_neg hne]
  | succ n ih =>
    intro hk
    by_cases hkn : k = n + 1
    · subst hkn
      have hb := testBit_top x (n + 1) hlo hhi
      have hne : ¬ (x &&& (1 <<< (n + 1)) = 0) := by
        rw [and_two_pow_eq_zero_iff]; simp [hb]
      rw [highBitLoop, if_neg hne]
    · have hlt : x < 2 ^ (n + 1) :=
        lt_of_lt_of_le hhi (Nat.pow_le_pow_right (by decide) (by omega))
      have hz : x &&& (1 <<< (n + 1)) = 0 := by
        rw [and_two_pow_eq_zero_iff]; exact Nat.testBit_lt_two_pow hlt
      rw [highBitLoop, if_pos hz]
      exact ih (by omega)

/-- Every value in the encoded range has its highest set bit at an index from 7 to 14. -/
theorem exists_top_index (x : Nat) (h128 : 128 ≤ x) (hx : x ≤ 31744) :
    ∃ k, 7 ≤ k ∧ k ≤ 14 ∧ 2 ^ k ≤ x ∧ x < 2 ^ (k + 1) := by
  by_cases h8 : x < 256
  · exact ⟨7, by omega, by omega, by norm_num; omega, by norm_num; omega⟩
  by_cases h9 : x < 512
  · exact ⟨8, by omega, by omega, by norm_num; omega, by norm_num; omega⟩
  by_cases h10 : x < 1024
  · exact ⟨9, by omega, by omega, by norm_num; omega, by norm_num; omega⟩
  by_cases h11 : x < 2048
  · exact ⟨10, by omega, by omega, by norm_num; omega, by norm_num; omega⟩
  by_cases h12 : x < 4096
  · exact ⟨11, by omega, by omega, by norm_num; omega, by norm_num; omega⟩
  by_cases h13 : x < 8192
  · exact ⟨12, by omega, by omega, by norm_num; omega, by norm_num; omega⟩
  by_cases h14 : x < 16384
  · exact ⟨13, by omega, by omega, by norm_num; omega, by norm_num; omega⟩
  · exact ⟨14, by omega, by omega, by norm_num; omega, by norm_num; omega⟩

/-- The byte assembled from exponent `k - 7` and the five leading bits `m` decodes to `m`
shifted back into place. -/
theorem decode_assembled (k m : Nat) (hk7 : 7 ≤ k) (hk14 : k ≤ 14) (hm16 : 16 ≤ m)
    (hm31 : m ≤ 31) :
    U8toU32 ((0x80 ||| (((sub32 k 7) &&& 0x7) <<< 4) ||| (m &&& 0xF)) % 256) = m * 2 ^ (k - 4)
      ∧ 128 ≤ (0x80 ||| (((sub32 k 7) &&& 0x7) <<< 4) ||| (m &&& 0xF)) % 256 := by
  interval_cases k <;> interval_cases m <;> exact ⟨by rfl, by decide⟩

/-- Shape of the encoder on the floating range: the byte decodes to the five leading bits of
the input, the bits below them cleared. -/
theorem U32toU8_mid (x : Nat) (h128 : 128 ≤ x) (hx : x ≤ 31744) :
    ∃ k b, 7 ≤ k ∧ k ≤ 14 ∧ 2 ^ k ≤ x ∧ x < 2 ^ (k + 1) ∧ U32toU8 x = some b ∧ b < 256 ∧
      128 ≤ b ∧ U8toU32 b = x / 2 ^ (k - 4) * 2 ^ (k - 4) := by
  obtain ⟨k, hk7, hk14, hlo, hhi⟩ := exists_top_index x h128 hx
  have hloop := highBitLoop_eq x k hlo hhi 31 (by omega)
  have hmin : min x 31744 = x := Nat.min_eq_left hx
  have hs4 : sub32 k 4 = k - 4 := by unfold sub32; omega
  have hm16 : 16 ≤ x / 2 ^ (k - 4) := by
    rw [Nat.le_div_iff_mul_le (Nat.pos_pow_of_pos _ (by decide))]
    have h2 : 2 ^ k = 16 * 2 ^ (k - 4) := by
      have : k = 4 + (k - 4) := by omega
      conv_lhs => rw [this, pow_add]
      norm_num
    omega
  have hm31 : x / 2 ^ (k - 4) ≤ 31 := by
    have h3 : x / 2 ^ (k - 4) < 32 := by
      rw [Nat.div_lt_iff_lt_mul (Nat.pos_pow_of_pos _ (by decide))]
      have h2 : 2 ^ (k + 1) = 32 * 2 ^ (k - 4) := by
        have : k + 1 = 5 + (k - 4) := by omega
        conv_lhs => rw [this, pow_add]
        norm_num
      omega
    omega
  obtain ⟨hdec, hge⟩ := decode_assembled k (x / 2 ^ (k - 4)) hk7 hk14 hm16 hm31
  refine ⟨k, (0x80 ||| (((sub32 k 7) &&& 0x7) <<< 4) ||| ((x / 2 ^ (k - 4)) &&& 0xF)) % 256,
    hk7, hk14, hlo, hhi, ?_, Nat.mod_lt _ (by decide), hge, hdec⟩
  unfold U32toU8
  rw [if_neg (by omega)]
  simp only [hmin, hloop, hs4, Nat.shiftRight_eq_div_pow]

/-- Decoding of a byte of the floating range, in arithmetic form. -/
theorem U8toU32_high (c : Nat) (h128 : 128 ≤ c) (h256 : c < 256) :
    U8toU32 c = (16 + c % 16) * 2 ^ ((c - 128) / 16 + 3) := by
  interval_cases c <;> rfl

/-- A value that some byte of the floating range decodes to is a multiple of the weight of its
fifth leading bit. -/
theorem representable_div_mul (x k c : Nat) (hk7 : 7 ≤ k) (hlo : 2 ^ k ≤ x)
    (hhi : x < 2 ^ (k + 1)) (h128 : 128 ≤ c) (h256 : c < 256) (hc : U8toU32 c = x) :
    x / 2 ^ (k - 4) * 2 ^ (k - 4) = x := by
  rw [U8toU32_high c h128 h256] at hc
  have hm : 16 ≤ 16 + c % 16 ∧ 16 + c % 16 ≤ 31 := by omega
  generalize 16 + c % 16 = m at hc hm
  generalize (c - 128) / 16 = e at hc
  have hpos : 0 < 2 ^ (e + 3) := Nat.pos_pow_of_pos _ (by decide)
  have h7 : 2 ^ (e + 7) = 16 * 2 ^ (e + 3) := by
    have : e + 7 = 4 + (e + 3) := by omega
    rw [this, pow_add]; norm_num
  have h8 : 2 ^ (e + 8) = 32 * 2 ^ (e + 3) := by
    have : e + 8 = 5 + (e + 3) := by omega
    rw [this, pow_add]; norm_num
  have hxlo : 2 ^ (e + 7) ≤ x := by
    rw [h7, ← hc]; exact Nat.mul_le_mul_right _ hm.1
  have hxhi : x < 2 ^ (e + 8) := by
    rw [h8, ← hc]; exact Nat.mul_lt_mul_of_pos_right (by omega) hpos
  have hke : k = e + 7 := by
    by_contra hne
    rcases Nat.lt_or_gt_of_ne hne with h | h
    · have : 2 ^ (k + 1) ≤ 2 ^ (e + 7) := Nat.pow_le_pow_right (by decide) (by omega)
      omega
    · have : 2 ^ (e + 8) ≤ 2 ^ k := Nat.pow_le_pow_right (by decide) (by omega)
      omega
  have hk4 : k - 4 = e + 3 := by omega
  rw [hk4, ← hc, Nat.mul_div_cancel _ hpos]

/-! ### Checksum lemmas -/

theorem readBytes_zero_length (l : List Nat) (n : Nat) (h : n = l.length) :
    readBytes l 0 n = l := by
  subst h
  apply List.ext_getElem
  · simp [readBytes]
  · intro i h1 h2
    simp [readBytes, byteAt, List.getD_eq_getElem?_getD, h2]

theorem byteAt_append (ip l : List Nat) (k : Nat) :
    byteAt (ip ++ l) (ip.length + k) = byteAt l k := by
  unfold byteAt
  rw [List.getD_eq_getElem?_getD, List.getD_eq_getElem?_getD,
    List.getElem?_append_right (by omega)]
  simp

theorem readBytes_append (ip l : List Nat) (n : Nat) :
    readBytes (ip ++ l) ip.length n = readBytes l 0 n := by
  unfold readBytes
  apply List.map_congr_left
  intro i _
  rw [byteAt_append, Nat.zero_add]

theorem word16At_append (ip l : List Nat) (k : Nat) :
    word16At (ip ++ l) (ip.length + k) = word16At l k := by
  unfold word16At
  rw [byteAt_append, Nat.add_assoc, byteAt_append]

theorem foldCarry_spec : ∀ fuel s, s ≤ fuel →
    foldCarry fuel s < 65536 ∧ foldCarry fuel s % 65535 = s % 65535 ∧ foldCarry fuel s ≤ s ∧
      (0 < s → 0 < foldCarry fuel s) := by
  intro fuel
  induction fuel with
  | zero =>
    intro s hs
    have : s = 0 := by omega
    subst this
    simp [foldCarry]
  | succ n ih =>
    intro s hs
    by_cases h : s < 65536
    · simp [foldCarry, h]
    · rw [foldCarry, if_neg h]
      obtain ⟨h1, h2, h3, h4⟩ := ih (s / 65536 + s % 65536) (by omega)
      refine ⟨h1, ?_, ?_, ?_⟩
      · rw [h2]; omega
      · omega
      · intro _; apply h4; omega

/-- The fold ends below `2^16`: the fuel of `fold16` is enough. -/
theorem fold16_lt (S : Nat) : fold16 S < 65536 := (foldCarry_spec S S (le_refl _)).1

/-- Adding the complement of the folded sum gives a sum that folds to `0xFFFF`. -/
theorem fold16_complement (S : Nat) : fold16 (S + (65535 - fold16 S)) = 65535 := by
  obtain ⟨h1, h2, h3, _⟩ := foldCarry_spec S S (le_refl _)
  have hr : fold16 S = foldCarry S S := rfl
  rw [← hr] at h1 h2 h3
  obtain ⟨t1, t2, _, t4⟩ :=
    foldCarry_spec (S + (65535 - fold16 S)) (S + (65535 - fold16 S)) (le_refl _)
  have ht : fold16 (S + (65535 - fold16 S)) =
      foldCarry (S + (65535 - fold16 S)) (S + (65535 - fold16 S)) := rfl
  rw [← ht] at t1 t2 t4
  have hpos : 0 < S + (65535 - fold16 S) := by omega
  have := t4 hpos
  omega

/-- Storing the checksum of a message, computed with the checksum field zero, in that field
(bytes 2 and 3) makes the checksum of the whole message zero. -/
theorem cksum_store (b0 b1 : Nat) (rest : List Nat) :
    click_in_cksum
      (b0 :: b1 :: (bytes16 (click_in_cksum (b0 :: b1 :: 0 :: 0 :: rest)) ++ rest)) = 0 := by
  have hc : click_in_cksum (b0 :: b1 :: 0 :: 0 :: rest) ≤ 65535 := by
    unfold click_in_cksum; omega
  generalize hcdef : click_in_cksum (b0 :: b1 :: 0 :: 0 :: rest) = c at hc
  have hcat : bytes16 c ++ rest = c / 256 % 256 :: c % 256 :: rest := rfl
  have hsum : sumWords (b0 :: b1 :: (bytes16 c ++ rest)) =
      sumWords (b0 :: b1 :: 0 :: 0 :: rest) + c := by
    rw [hcat]
    simp only [sumWords]
    omega
  have hcv : c = 65535 - fold16 (sumWords (b0 :: b1 :: 0 :: 0 :: rest)) := by
    rw [← hcdef]; rfl
  unfold click_in_cksum
  rw [hsum, hcv, fold16_complement]

theorem recordsBytes_length (records : List GroupRecord) :
    (recordsBytes records).length = 8 * records.length := by
  induction records with
  | nil => rfl
  | cons r rs ih =>
    simp only [recordsBytes, List.length_append, ih, GroupRecord.bytes, bytes16, bytes32,
      List.length_cons, List.length_nil]
    omega

theorem reportBytes_length (h : ReportMessage) (records : List GroupRecord) :
    (reportBytes h records).length = 8 + 8 * records.length := by
  simp only [reportBytes, List.length_append, recordsBytes_length, ReportMessage.bytes, bytes16,
    List.length_cons, List.length_nil]

/-- A report built by the client verifies over its whole length. -/
theorem buildReport_verifies (records : List GroupRecord) :
    click_in_cksum (reportBytes (IGMPClient.buildReport records) records) = 0 := by
  have hzero : ∀ n : Nat, reportBytes
      { type := REPORT, reserved := 0, checksum := 0, reserved2 := 0, NumGroupRecords := n }
      records = REPORT % 256 :: 0 % 256 :: 0 :: 0 ::
        (bytes16 0 ++ bytes16 n ++ recordsBytes records) := by
    intro n
    simp [reportBytes, ReportMessage.bytes, bytes16]
  have hset : ∀ c n : Nat, reportBytes
      { type := REPORT, reserved := 0, checksum := c, reserved2 := 0, NumGroupRecords := n }
      records = REPORT % 256 :: 0 % 256 ::
        (bytes16 c ++ (bytes16 0 ++ bytes16 n ++ recordsBytes records)) := by
    intro c n
    simp [reportBytes, ReportMessage.bytes]
  simp only [IGMPClient.buildReport]
  rw [readBytes_zero_length _ _ (reportBytes_length _ _).symm, hset, hzero]
  exact cksum_store _ _ _

/-- The record count that the receiver reads back from a report built by the client. -/
theorem buildReport_count (ip : List Nat) (records : List GroupRecord)
    (hn : records.length < 65536) :
    (reportAt (ip ++ reportBytes (IGMPClient.buildReport records) records)
      ip.length).NumGroupRecords = records.length := by
  have h6 : (reportAt (ip ++ reportBytes (IGMPClient.buildReport records) records)
      ip.length).NumGroupRecords =
        word16At (reportBytes (IGMPClient.buildReport records) records) 6 :=
    word16At_append ip _ 6
  rw [h6]
  simp only [IGMPClient.buildReport, reportBytes, ReportMessage.bytes, bytes16, word16At, byteAt,
    List.cons_append, List.nil_append, List.getD_cons_succ, List.getD_cons_zero]
  omega

/-- The receive check of the router, taken at the message behind any IP header, accepts a
report built by the client whose record count fits the 16-bit field. -/
theorem buildReport_accepted (ip : List Nat) (records : List GroupRecord)
    (hn : records.length < 65536) :
    click_in_cksum
      (readBytes (ip ++ reportBytes (IGMPClient.buildReport records) records) ip.length
        (8 + (reportAt (ip ++ reportBytes (IGMPClient.buildReport records) records)
          ip.length).NumGroupRecords * 8)) = 0 := by
  rw [buildReport_count ip records hn, readBytes_append,
    readBytes_zero_length _ _ (by rw [reportBytes_length]; omega)]
  exact buildReport_verifies records

/-- A query whose checksum field holds the checksum of its image with that field zero
verifies. -/
theorem query_verifies (msg : QueryMessage) (h0 : msg.checksum = 0) :
    click_in_cksum
      ({ msg with checksum := click_in_cksum (readBytes msg.bytes 0 12) } : QueryMessage).bytes
      = 0 := by
  rw [readBytes_zero_length _ _ (by simp [QueryMessage.bytes, bytes16, bytes32])]
  have hb : msg.bytes = msg.type % 256 :: msg.maxRespCode % 256 :: 0 :: 0 ::
      (bytes32 msg.groupAddress ++ [msg.resv_s_qrv % 256, msg.qqic % 256] ++
        bytes16 msg.numSources) := by
    simp [QueryMessage.bytes, h0, bytes16]
  have hset : ∀ c : Nat, ({ msg with checksum := c } : QueryMessage).bytes =
      msg.type % 256 :: msg.maxRespCode % 256 :: (bytes16 c ++
        (bytes32 msg.groupAddress ++ [msg.resv_s_qrv % 256, msg.qqic % 256] ++
          bytes16 msg.numSources)) := by
    intro c
    simp [QueryMessage.bytes]
  rw [hset, hb]
  exact cksum_store _ _ _

/-- The encoder returns a byte on every input. -/
theorem U32toU8_total (x : Nat) : ∃ b, U32toU8 x = some b ∧ b < 256 := by
  by_cases h1 : x < 128
  · exact ⟨x % 256, by simp [U32toU8, h1], Nat.mod_lt _ (by decide)⟩
  by_cases h2 : x ≤ 31744
  · obtain ⟨_, b, _, _, _, _, henc, hb, _, _⟩ := U32toU8_mid x (by omega) h2
    exact ⟨b, henc, hb⟩
  · refine ⟨255, ?_, by decide⟩
    have hmin : min x 31744 = 31744 := Nat.min_eq_right (by omega)
    unfold U32toU8
    rw [if_neg h1]
    simp only [hmin]
    rfl

/-- C1: for every `x` with `0 ≤ x ≤ 127`, decoding the encoded interval returns `x` exactly:
`U8toU32 (U32toU8 x) = x`. -/
theorem C1_roundtrip_below_128 (x : Nat) (hx : x ≤ 127) :
    (U32toU8 x).map U8toU32 = some x := by
  have h1 : x < 128 := by omega
  have h2 : x % 256 = x := Nat.mod_eq_of_lt (by omega)
  simp [U32toU8, U8toU32, h1, h2]

theorem C1_roundtrip_below_128_witness : (U32toU8 100).map U8toU32 = some 100 :=
  C1_roundtrip_below_128 100 (by decide)

/-- C2 (as stated, refuted): at `x = 129` the encoder yields the byte `0x80`, which decodes to
`128`, below the requested value. -/
theorem C2_counterexample :
    (U32toU8 129).map U8toU32 = some 128 ∧
      ¬ (∃ b, U32toU8 129 = some b ∧ 129 ≤ U8toU32 b) := by
  have h : U32toU8 129 = some 128 := by rfl
  refine ⟨by rw [h]; rfl, ?_⟩
  rintro ⟨b, hb, hle⟩
  rw [h] at hb
  cases hb
  exact absurd hle (by decide)

/-- C2 (amended): for every `x` with `128 ≤ x ≤ 31744` the encoder returns a byte whose decoded
value is at or below `x` (it truncates), and the decoded value reaches `x` exactly when `x` is
itself the decoding of some byte. -/
theorem C2_decode_encode_le (x : Nat) (h128 : 128 ≤ x) (hx : x ≤ 31744) :
    ∃ b, U32toU8 x = some b ∧ U8toU32 b ≤ x ∧
      (x ≤ U8toU32 b ↔ ∃ c, c < 256 ∧ U8toU32 c = x) := by
  obtain ⟨k, b, hk7, _, hlo, hhi, henc, hb256, _, hdec⟩ := U32toU8_mid x h128 hx
  refine ⟨b, henc, ?_, ?_⟩
  · rw [hdec]; exact Nat.div_mul_le_self x _
  · constructor
    · intro hle
      refine ⟨b, hb256, ?_⟩
      have : U8toU32 b ≤ x := by rw [hdec]; exact Nat.div_mul_le_self x _
      omega
    · rintro ⟨c, hc256, hc⟩
      have hc128 : 128 ≤ c := by
        by_contra hlt
        have : U8toU32 c = c := by simp [U8toU32, show c < 128 by omega]
        omega
      rw [hdec, representable_div_mul x k c hk7 hlo hhi hc128 hc256 hc]

theorem C2_decode_encode_le_witness :
    ∃ b, U32toU8 1000 = some b ∧ U8toU32 b ≤ 1000 ∧
      (1000 ≤ U8toU32 b ↔ ∃ c, c < 256 ∧ U8toU32 c = 1000) :=
  C2_decode_encode_le 1000 (by decide) (by decide)

/-- C3: the encoder saturates.  Every 32-bit `x` above `31744` is encoded like `31744`, as the
byte `0xFF`, which decodes to `31744`, the largest value any byte decodes to. -/
theorem C3_encode_saturates (x : Nat) (hx : 31744 < x) (h32 : x < 4294967296) :
    U32toU8 x = U32toU8 31744 ∧ U32toU8 x = some 255 ∧ U8toU32 255 = 31744 ∧
      ∀ b, b < 256 → U8toU32 b ≤ 31744 := by
  have hmin : min x 31744 = 31744 := Nat.min_eq_right (by omega)
  have henc : U32toU8 x = some 255 := by
    unfold U32toU8
    rw [if_neg (by omega)]
    simp only [hmin]
    rfl
  refine ⟨by rw [henc]; rfl, henc, by rfl, ?_⟩
  intro b hb
  interval_cases b <;> decide

theorem C3_encode_saturates_witness :
    U32toU8 40000 = U32toU8 31744 ∧ U32toU8 40000 = some 255 ∧ U8toU32 255 = 31744 ∧
      ∀ b, b < 256 → U8toU32 b ≤ 31744 :=
  C3_encode_saturates 40000 (by decide) (by decide)

/-- The query of `sendGeneralQueries` is always built and verifies. -/
theorem generalQuery_verifies (self : IGMPRouter) :
    ∃ msg, self.generalQuery = some msg ∧ click_in_cksum msg.bytes = 0 := by
  obtain ⟨b1, h1, _⟩ := U32toU8_total self.queryResponseInterval
  obtain ⟨b2, h2, _⟩ := U32toU8_total self.queryInterval
  have hq : self.generalQuery = some
      { (⟨QUERY, b1, 0, 0, (min self.robustness 7) % 256, b2, 0⟩ : QueryMessage) with
        checksum := click_in_cksum (readBytes
          (⟨QUERY, b1, 0, 0, (min self.robustness 7) % 256, b2, 0⟩ : QueryMessage).bytes
          0 12) } := by
    simp only [IGMPRouter.generalQuery, h1, h2]
  exact ⟨_, hq, query_verifies _ rfl⟩

/-- The query of `sendGroupSpecificQuery` is always built and verifies. -/
theorem groupSpecificQuery_verifies (self : IGMPRouter) (s address : Nat) :
    ∃ msg, self.groupSpecificQuery s address = some msg ∧ click_in_cksum msg.bytes = 0 := by
  obtain ⟨b1, h1, _⟩ := U32toU8_total self.lastMemberQueryInterval
  obtain ⟨b2, h2, _⟩ := U32toU8_total self.queryInterval
  have hq : self.groupSpecificQuery s address = some
      { (⟨QUERY, b1, 0, address % 4294967296, ((s <<< 3) + min self.robustness 7) % 256, b2,
          0⟩ : QueryMessage) with
        checksum := click_in_cksum (readBytes
          (⟨QUERY, b1, 0, address % 4294967296, ((s <<< 3) + min self.robustness 7) % 256, b2,
            0⟩ : QueryMessage).bytes 0 12) } := by
    simp only [IGMPRouter.groupSpecificQuery, h1, h2]
  exact ⟨_, hq, query_verifies _ rfl⟩

/-- The state that `scheduleStateChangeMessage` returns has transmitted what its first part
pushed, or nothing when the packet was not allocated. -/
theorem scheduleStateChangeMessage_sent (self : IGMPClient) (alloc : Bool)
    (delay type A : Nat) (next : IGMPClient)
    (h : self.scheduleStateChangeMessage alloc delay type A = some next) :
    next.sent = self.sent ∨ next.sent = (self.pushStateChange type A).sent := by
  unfold IGMPClient.scheduleStateChangeMessage at h
  cases alloc with
  | false =>
    simp only [Bool.not_false, if_true, Option.some.injEq] at h
    exact Or.inl (by rw [← h])
  | true =>
    right
    simp only [Bool.not_true, Bool.false_eq_true, if_false] at h
    split at h
    · cases h
    · rename_i self2 hcl
      have h2 : self2.sent = (self.pushStateChange type A).sent := by
        split at hcl
        · split at hcl
          · cases hcl
          · cases hcl
            rfl
        · cases hcl
          rfl
      split at h
      · cases h
        exact h2
      · cases h
        exact h2

/-- C4: every message the code constructs verifies.  The General Query and the
Group-Specific Query of the router are always built, and recomputing the checksum over their
12 bytes, checksum field included, gives 0, also in the form of the receive check of the
client (12 bytes behind the IP header); every Report built by the client for any list of
records gives 0 over its whole length, and the receive check of the router (over the length
it derives from the record count) accepts it when the record count fits its 16-bit field; and
every message that `sendGeneralQueries`, `sendGroupSpecificQuery`,
`scheduleStateChangeMessage` (in its first part, which pushes the report in every case, and in
the state it returns), `handleGeneralReport` and `handleGroupReport` add to the transmitted
messages verifies. -/
theorem C4_constructed_messages_verify :
    (∀ (self : IGMPRouter) (ip : List Nat), ∃ msg, self.generalQuery = some msg ∧
        verify_checksum msg.bytes = true ∧
        click_in_cksum (readBytes (ip ++ msg.bytes) ip.length 12) = 0) ∧
    (∀ (self : IGMPRouter) (s address : Nat) (ip : List Nat), ∃ msg,
        self.groupSpecificQuery s address = some msg ∧ verify_checksum msg.bytes = true ∧
        click_in_cksum (readBytes (ip ++ msg.bytes) ip.length 12) = 0) ∧
    (∀ records : List GroupRecord,
        verify_checksum (reportBytes (IGMPClient.buildReport records) records) = true) ∧
    (∀ (records : List GroupRecord) (ip : List Nat), records.length < 65536 →
        click_in_cksum
          (readBytes (ip ++ reportBytes (IGMPClient.buildReport records) records) ip.length
            (8 + (reportAt (ip ++ reportBytes (IGMPClient.buildReport records) records)
              ip.length).NumGroupRecords * 8)) = 0) ∧
    (∀ self : IGMPRouter, ∃ self1, self.sendGeneralQueries = some self1 ∧
        ∀ q ∈ self1.sent, q ∈ self.sent ∨ verify_checksum q.msg.bytes = true) ∧
    (∀ (self : IGMPRouter) (interface address : Nat), ∃ self1,
        self.sendGroupSpecificQuery interface address = some self1 ∧
        ∀ q ∈ self1.sent, q ∈ self.sent ∨ verify_checksum q.msg.bytes = true) ∧
    (∀ (self : IGMPClient) (type address : Nat),
        ∀ m ∈ (self.pushStateChange type address).sent,
          m ∈ self.sent ∨ verify_checksum (reportBytes m.header m.records) = true) ∧
    (∀ (self : IGMPClient) (alloc : Bool) (delay type address : Nat) (next : IGMPClient),
        self.scheduleStateChangeMessage alloc delay type address = some next →
        ∀ m ∈ next.sent,
          m ∈ self.sent ∨ verify_checksum (reportBytes m.header m.records) = true) ∧
    (∀ (self : IGMPClient) (alloc : Bool),
        ∀ m ∈ (self.handleGeneralReport alloc).sent,
          m ∈ self.sent ∨ verify_checksum (reportBytes m.header m.records) = true) ∧
    (∀ (self : IGMPClient) (alloc : Bool) (address : Nat),
        ∀ m ∈ (self.handleGroupReport alloc address).sent,
          m ∈ self.sent ∨ verify_checksum (reportBytes m.header m.records) = true) := by
  have hrep : ∀ records : List GroupRecord,
      verify_checksum (reportBytes (IGMPClient.buildReport records) records) = true := by
    intro records
    simp [verify_checksum, buildReport_verifies]
  have hquery : ∀ (msg : QueryMessage) (ip : List Nat), click_in_cksum msg.bytes = 0 →
      click_in_cksum (readBytes (ip ++ msg.bytes) ip.length 12) = 0 := by
    intro msg ip h
    rw [readBytes_append,
      readBytes_zero_length _ _ (by simp [QueryMessage.bytes, bytes16, bytes32])]
    exact h
  have hpush : ∀ (self : IGMPClient) (type address : Nat),
      ∀ m ∈ (self.pushStateChange type address).sent,
        m ∈ self.sent ∨ verify_checksum (reportBytes m.header m.records) = true := by
    intro self type address m hm
    simp only [IGMPClient.pushStateChange, List.mem_append, List.mem_singleton] at hm
    rcases hm with hm | rfl
    · exact Or.inl hm
    · exact Or.inr (hrep _)
  refine ⟨?_, ?_, hrep, fun records ip hn => buildReport_accepted ip records hn,
    ?_, ?_, hpush, ?_, ?_, ?_⟩
  · intro self ip
    obtain ⟨msg, h1, h2⟩ := generalQuery_verifies self
    exact ⟨msg, h1, by simp [verify_checksum, h2], hquery msg ip h2⟩
  · intro self s address ip
    obtain ⟨msg, h1, h2⟩ := groupSpecificQuery_verifies self s address
    exact ⟨msg, h1, by simp [verify_checksum, h2], hquery msg ip h2⟩
  · intro self
    obtain ⟨msg, h1, h2⟩ := generalQuery_verifies self
    refine ⟨_, by rw [IGMPRouter.sendGeneralQueries, h1], ?_⟩
    intro q hq
    simp only [List.mem_append, List.mem_map] at hq
    rcases hq with hq | ⟨i, _, rfl⟩
    · exact Or.inl hq
    · exact Or.inr (by simp [verify_checksum, h2])
  · intro self interface address
    unfold IGMPRouter.sendGroupSpecificQuery
    cases hi : self.interfaces interface with
    | none => exact ⟨self, rfl, fun q hq => Or.inl hq⟩
    | some network =>
      simp only []
      cases hg : network address with
      | none => exact ⟨self, rfl, fun q hq => Or.inl hq⟩
      | some group =>
        simp only []
        obtain ⟨msg, h1, h2⟩ := groupSpecificQuery_verifies self
          (if (self.timerAt group.groupTimer).expiry - self.now >
            ((mul100 self.lastMemberQueryTime : Nat) : Int) then 1 else 0) address
        rw [h1]
        refine ⟨_, rfl, ?_⟩
        intro q hq
        simp only [List.mem_append, List.mem_singleton] at hq
        rcases hq with hq | rfl
        · exact Or.inl hq
        · exact Or.inr (by simp [verify_checksum, h2])
  · intro self alloc delay type address next hnext m hm
    rcases scheduleStateChangeMessage_sent self alloc delay type address next hnext with h | h
    · rw [h] at hm
      exact Or.inl hm
    · rw [h] at hm
      exact hpush self type address m hm
  · intro self alloc m hm
    unfold IGMPClient.handleGeneralReport at hm
    by_cases he : self.members.isEmpty = true
    · exact Or.inl (by simpa [he] using hm)
    · cases alloc with
      | false => exact Or.inl (by simpa [he] using hm)
      | true =>
        simp only [he, Bool.false_eq_true, if_false, Bool.not_true, List.mem_append,
          List.mem_singleton] at hm
        rcases hm with hm | rfl
        · exact Or.inl hm
        · exact Or.inr (hrep _)
  · intro self alloc address m hm
    unfold IGMPClient.handleGroupReport at hm
    by_cases hcond : (!(decide (address ∈ self.members)) || decide (address = ALL_SYSTEMS)) = true
    · exact Or.inl (by simpa [hcond] using hm)
    · cases alloc with
      | false => exact Or.inl (by simpa [hcond] using hm)
      | true =>
        simp only [hcond, Bool.false_eq_true, if_false, Bool.not_true, List.mem_append,
          List.mem_singleton] at hm
        rcases hm with hm | rfl
        · exact Or.inl hm
        · exact Or.inr (hrep _)

theorem C4_constructed_messages_verify_witness :
    click_in_cksum
      (readBytes
        (List.replicate 20 0 ++ RouterAlertOption ++
          reportBytes (IGMPClient.buildReport [IGMPClient.mkRecord MODE_IS_EXCLUDE sampleGroup])
            [IGMPClient.mkRecord MODE_IS_EXCLUDE sampleGroup])
        (List.replicate 20 0 ++ RouterAlertOption).length
        (8 + (reportAt
          (List.replicate 20 0 ++ RouterAlertOption ++
            reportBytes (IGMPClient.buildReport [IGMPClient.mkRecord MODE_IS_EXCLUDE sampleGroup])
              [IGMPClient.mkRecord MODE_IS_EXCLUDE sampleGroup])
          (List.replicate 20 0 ++ RouterAlertOption).length).NumGroupRecords * 8)) = 0 :=
  C4_constructed_messages_verify.2.2.2.1 [IGMPClient.mkRecord MODE_IS_EXCLUDE sampleGroup]
    (List.replicate 20 0 ++ RouterAlertOption) (by decide)

/-! ### Client lemmas -/

theorem setKey_same {β : Type} (m : Nat → Option β) (k : Nat) (v : Option β) :
    setKey m k v k = v := by
  simp [setKey]

theorem setKey_other {β : Type} (m : Nat → Option β) (k j : Nat) (v : Option β) (h : j ≠ k) :
    setKey m k v j = m j := by
  simp [setKey, h]

/-- One firing of a scheduled retransmission timer: the stored report is transmitted once
more, the counter goes down by one, and the timer stays scheduled exactly when the counter is
still positive. -/
theorem fireChangeTimer_step (self : IGMPClient) (delay A : Nat) (ct : ChangeTimer)
    (h : self.changeTimers A = some ct) (hs : ct.timer.scheduled = true)
    (hf : ct.freed = false) :
    ∃ next ct1, self.fireChangeTimer delay A = some next ∧
      next.sent = self.sent ++
        [({ time := max self.now ct.timer.expiry, header := ct.header, records := ct.records } :
          SentReport)] ∧
      next.changeTimers A = some ct1 ∧ ct1.header = ct.header ∧ ct1.records = ct.records ∧
      ct1.freed = false ∧ ct1.remaining = ct.remaining - 1 ∧
      (ct.remaining - 1 ≤ 0 → ct1.timer.scheduled = false) ∧
      (¬ ct.remaining - 1 ≤ 0 → ct1.timer.scheduled = true) ∧
      next.members = self.members ∧ next.qrv = self.qrv := by
  by_cases hr : ct.remaining - 1 ≤ 0
  · refine ⟨_, ⟨ct.timer.clear.clear, ct.header, ct.records, ct.remaining - 1, ct.freed⟩,
      by simp only [IGMPClient.fireChangeTimer, h, hs, hf]; rfl, ?_⟩
    simp [IGMPClient.handleChangeReport, setKey_same, hr, Timer.clear, hf]
  · refine ⟨_, ⟨ct.timer.clear.schedule_after_msec (max self.now ct.timer.expiry) delay,
      ct.header, ct.records, ct.remaining - 1, ct.freed⟩,
      by simp only [IGMPClient.fireChangeTimer, h, hs, hf]; rfl, ?_⟩
    simp [IGMPClient.handleChangeReport, setKey_same, hr, Timer.clear, hf,
      Timer.schedule_after_msec]

/-- A retransmission timer with counter `n + 1` fires exactly `n + 1` times, transmits the
stored report each time, and ends unscheduled. -/
theorem runChangeTimer_counts (delays : Nat → Nat) (A : Nat) :
    ∀ (n fuel : Nat) (self : IGMPClient) (fired : Nat) (ct : ChangeTimer),
      n + 1 ≤ fuel →
      self.changeTimers A = some ct → ct.timer.scheduled = true → ct.freed = false →
      ct.remaining = ((n + 1 : Nat) : Int) →
      ∃ final ct1,
        IGMPClient.runChangeTimer delays A fuel self fired = (final, fired + (n + 1)) ∧
        final.sent.map (fun m => (m.header, m.records)) =
          self.sent.map (fun m => (m.header, m.records)) ++
            List.replicate (n + 1) (ct.header, ct.records) ∧
        final.changeTimers A = some ct1 ∧ ct1.timer.scheduled = false ∧
        final.members = self.members ∧ final.qrv = self.qrv := by
  intro n
  induction n with
  | zero =>
    intro fuel self fired ct hfuel h hs hf hrem
    obtain ⟨next, ct1, hfire, hsent, hct1, _, _, _, _, hstop, _, hmem, hqrv⟩ :=
      fireChangeTimer_step self (delays fired) A ct h hs hf
    have hsched : ct1.timer.scheduled = false := hstop (by rw [hrem]; simp)
    obtain ⟨f1, rfl⟩ : ∃ f1, fuel = f1 + 1 := ⟨fuel - 1, by omega⟩
    refine ⟨next, ct1, ?_, ?_, hct1, hsched, hmem, hqrv⟩
    · rw [IGMPClient.runChangeTimer, hfire]
      simp only []
      cases f1 with
      | zero => rfl
      | succ f2 =>
        rw [IGMPClient.runChangeTimer]
        simp [IGMPClient.fireChangeTimer, hct1, hsched]
    · rw [hsent]; simp
  | succ n ih =>
    intro fuel self fired ct hfuel h hs hf hrem
    obtain ⟨next, ct1, hfire, hsent, hct1, hh, hr, hf1, hrem1, _, hgo, hmem, hqrv⟩ :=
      fireChangeTimer_step self (delays fired) A ct h hs hf
    have hpos : ¬ ct.remaining - 1 ≤ 0 := by rw [hrem]; push_cast; omega
    obtain ⟨f1, rfl⟩ : ∃ f1, fuel = f1 + 1 := ⟨fuel - 1, by omega⟩
    obtain ⟨final, ct2, hrun, hsent2, hct2, hsched2, hmem2, hqrv2⟩ :=
      ih f1 next (fired + 1) ct1 (by omega) hct1 (hgo hpos) hf1
        (by rw [hrem1, hrem]; push_cast; omega)
    refine ⟨final, ct2, ?_, ?_, hct2, hsched2, by rw [hmem2, hmem], by rw [hqrv2, hqrv]⟩
    · rw [IGMPClient.runChangeTimer, hfire]
      simp only []
      rw [hrun]
      congr 1
      omega
    · rw [hsent2, hsent, hh, hr]
      simp [List.replicate_succ]

/-- Effect of `scheduleStateChangeMessage` when the packet is allocated and the map holds no
deleted timer for the address: the call returns. -/
theorem scheduleStateChangeMessage_effect (self : IGMPClient) (delay type A : Nat)
    (hlive : ∀ ct, self.changeTimers A = some ct → ct.freed = false) :
    ∃ next, self.scheduleStateChangeMessage true delay type A = some next ∧
      next.sent = self.sent ++
        [({ time := self.now, header := IGMPClient.buildReport [IGMPClient.mkRecord type A],
            records := [IGMPClient.mkRecord type A] } : SentReport)] ∧
      next.members = self.members ∧ next.qrv = self.qrv ∧
      (self.qrv ≤ 1 → ∀ ct, next.changeTimers A = some ct → ct.timer.scheduled = false) ∧
      (¬ self.qrv ≤ 1 →
        next.changeTimers A = some
          { timer := Timer.fresh.schedule_after_msec self.now delay
            header := IGMPClient.buildReport [IGMPClient.mkRecord type A]
            records := [IGMPClient.mkRecord type A]
            remaining := ((self.qrv - 1 : Nat) : Int), freed := false }) ∧
      (∀ B, B ≠ A → next.changeTimers B = self.changeTimers B) := by
  rcases Option.eq_none_or_eq_some (self.scheduleStateChangeMessage true delay type A) with
    hres | ⟨next, hres⟩
  · exfalso
    rcases Option.eq_none_or_eq_some (self.changeTimers A) with hc | ⟨old, hc⟩
    · by_cases hq : self.qrv ≤ 1 <;>
        simp [IGMPClient.scheduleStateChangeMessage, IGMPClient.pushStateChange, hc, hq] at hres
    · have hf := hlive old hc
      by_cases hq : self.qrv ≤ 1 <;>
        simp [IGMPClient.scheduleStateChangeMessage, IGMPClient.pushStateChange, hc, hq, hf]
          at hres
  · refine ⟨next, hres, ?_⟩
    rcases Option.eq_none_or_eq_some (self.changeTimers A) with hc | ⟨old, hc⟩
    · by_cases hq : self.qrv ≤ 1
      · simp only [IGMPClient.scheduleStateChangeMessage, IGMPClient.pushStateChange, hc, hq,
          Bool.not_true, Bool.false_eq_true, if_false, if_true, Option.some.injEq] at hres
        subst hres
        refine ⟨rfl, rfl, rfl, ?_, fun h => absurd hq h, fun B _ => rfl⟩
        intro _ ct hct
        rw [hc] at hct
        cases hct
      · simp only [IGMPClient.scheduleStateChangeMessage, IGMPClient.pushStateChange, hc, hq,
          Bool.not_true, Bool.false_eq_true, if_false, Option.some.injEq] at hres
        subst hres
        refine ⟨rfl, rfl, rfl, fun h => absurd h hq, ?_, ?_⟩
        · intro _
          simp [setKey_same]
        · intro B hB
          simp [setKey, hB]
    · have hf := hlive old hc
      by_cases hq : self.qrv ≤ 1
      · simp only [IGMPClient.scheduleStateChangeMessage, IGMPClient.pushStateChange, hc, hq,
          hf, Bool.not_true, Bool.false_eq_true, if_false, if_true, Option.some.injEq] at hres
        subst hres
        refine ⟨rfl, rfl, rfl, ?_, fun h => absurd hq h, ?_⟩
        · intro _ ct hct
          simp only [setKey_same, Option.some.injEq] at hct
          rw [← hct]
          rfl
        · intro B hB
          simp [setKey, hB]
      · simp only [IGMPClient.scheduleStateChangeMessage, IGMPClient.pushStateChange, hc, hq,
          hf, Bool.not_true, Bool.false_eq_true, if_false, Option.some.injEq] at hres
        subst hres
        refine ⟨rfl, rfl, rfl, fun h => absurd h hq, ?_, ?_⟩
        · intro _
          simp [setKey_same]
        · intro B hB
          simp [setKey, hB]

/-- When the map holds a deleted timer for the address, `scheduleStateChangeMessage` with an
allocated packet does not return a state. -/
theorem scheduleStateChangeMessage_stale (self : IGMPClient) (delay type A : Nat)
    (ct : ChangeTimer) (hc : self.changeTimers A = some ct) (hf : ct.freed = true) :
    self.scheduleStateChangeMessage true delay type A = none := by
  simp [IGMPClient.scheduleStateChangeMessage, IGMPClient.pushStateChange, hc, hf]

/-- Effect of `handleJoin` for an address that is not yet a member. -/
theorem handleJoin_new (self : IGMPClient) (delay A : Nat) (hnew : A ∉ self.members) :
    self.handleJoin true delay (some A) =
      IGMPClient.scheduleStateChangeMessage { self with members := self.members ++ [A] } true
        delay CHANGE_TO_EXCLUDE_MODE A := by
  simp [IGMPClient.handleJoin, addAddress, hnew]

/-- Effect of `handleLeave` for an address that is a member. -/
theorem handleLeave_member (self : IGMPClient) (delay A : Nat) (hmem : A ∈ self.members) :
    self.handleLeave true delay (some A) =
      IGMPClient.scheduleStateChangeMessage
        { self with members := self.members.filter (fun a => a ≠ A) } true delay
        CHANGE_TO_INCLUDE_MODE A := by
  simp [IGMPClient.handleLeave, removeAddress, hmem]

/-- C5 (code bug): a join of a new address does not always lead to `qrv` transmissions.  In
the run join, query with QRV 1, leave, query with QRV 3 on `sampleGroup` the leave runs with
`qrv = 1`: it deletes the retransmission timer of the join and returns with its pointer still
in the map.  The state reached has `qrv = 3`, `sampleGroup` is not a member, and the next join
pushes its report (the third transmission of the run) and then applies `clear()` and `delete`
to the deleted timer: it returns no state.  The same holds for any state whose map holds a
deleted timer for the address.  For every state without one, a join of a new address `A` with
`qrv ≥ 1` (its packet being allocated) returns and transmits the same single-record report
exactly `qrv` times in total: once by `scheduleStateChangeMessage`, which starts the counter at
`qrv - 1` when `qrv ≥ 2`, and `qrv - 1` times by `handleChangeReport`, after which the timer
fires no more and is not scheduled. -/
theorem C5_join_aborts_on_deleted_timer :
    staleClient.map (fun c =>
      (c.qrv, c.members,
        (c.changeTimers sampleGroup).map (fun t => (t.timer.scheduled, t.freed)),
        c.sent.map (fun m => m.records.map (fun r => r.recordType)))) =
      some (3, [], some (false, true), [[CHANGE_TO_EXCLUDE_MODE], [CHANGE_TO_INCLUDE_MODE]]) ∧
    staleClient.map (fun c =>
      ((c.handleJoin true 200 (some sampleGroup)).isSome,
        (c.pushStateChange CHANGE_TO_EXCLUDE_MODE sampleGroup).sent.length)) =
      some (false, 3) ∧
    (∀ (self : IGMPClient) (A delay : Nat) (ct : ChangeTimer), A ∉ self.members →
      self.changeTimers A = some ct → ct.freed = true →
      self.handleJoin true delay (some A) = none) ∧
    (∀ (self : IGMPClient) (A delay fuel : Nat) (delays : Nat → Nat), 1 ≤ self.qrv →
      A ∉ self.members → self.qrv ≤ fuel →
      (∀ ct, self.changeTimers A = some ct → ct.freed = false) →
      ∃ joined final,
        self.handleJoin true delay (some A) = some joined ∧
        IGMPClient.runChangeTimer delays A fuel joined 0 = (final, self.qrv - 1) ∧
        joined.sent.map (fun m => (m.header, m.records)) =
          self.sent.map (fun m => (m.header, m.records)) ++
            [(IGMPClient.buildReport [IGMPClient.mkRecord CHANGE_TO_EXCLUDE_MODE A],
              [IGMPClient.mkRecord CHANGE_TO_EXCLUDE_MODE A])] ∧
        (2 ≤ self.qrv → ∃ ct, joined.changeTimers A = some ct ∧
          ct.remaining = ((self.qrv - 1 : Nat) : Int) ∧ ct.timer.scheduled = true) ∧
        final.sent.map (fun m => (m.header, m.records)) =
          self.sent.map (fun m => (m.header, m.records)) ++
            List.replicate self.qrv
              (IGMPClient.buildReport [IGMPClient.mkRecord CHANGE_TO_EXCLUDE_MODE A],
                [IGMPClient.mkRecord CHANGE_TO_EXCLUDE_MODE A]) ∧
        (IGMPClient.buildReport [IGMPClient.mkRecord CHANGE_TO_EXCLUDE_MODE A]).NumGroupRecords
          = 1 ∧
        (∀ ct, final.changeTimers A = some ct → ct.timer.scheduled = false)) := by
  refine ⟨by decide, by decide, ?_, ?_⟩
  · intro self A delay ct hnew hc hf
    rw [handleJoin_new self delay A hnew]
    exact scheduleStateChangeMessage_stale _ delay _ A ct hc hf
  intro self A delay fuel delays hq1 hnew hfuel hlive
  rw [handleJoin_new self delay A hnew]
  obtain ⟨joined, hjoin, hsent, _, _, hone, hmany, _⟩ :=
    scheduleStateChangeMessage_effect { self with members := self.members ++ [A] } delay
      CHANGE_TO_EXCLUDE_MODE A hlive
  simp only [] at hsent hone hmany
  have hjsent : joined.sent.map (fun m => (m.header, m.records)) =
      self.sent.map (fun m => (m.header, m.records)) ++
        [(IGMPClient.buildReport [IGMPClient.mkRecord CHANGE_TO_EXCLUDE_MODE A],
          [IGMPClient.mkRecord CHANGE_TO_EXCLUDE_MODE A])] := by
    rw [hsent]; simp
  by_cases hq : self.qrv ≤ 1
  · have hq1 : self.qrv = 1 := by omega
    have hidle := hone hq
    have hnofire : ∀ d, joined.fireChangeTimer d A = none := by
      intro d
      unfold IGMPClient.fireChangeTimer
      cases hc : joined.changeTimers A with
      | none => rfl
      | some ct => simp [hidle ct hc]
    refine ⟨joined, joined, hjoin, ?_, hjsent, fun h => absurd h (by omega), ?_, rfl, hidle⟩
    · obtain ⟨f1, rfl⟩ : ∃ f1, fuel = f1 + 1 := ⟨fuel - 1, by omega⟩
      rw [IGMPClient.runChangeTimer, hnofire, hq1]
    · rw [hjsent, hq1]; rfl
  · have hct := hmany hq
    obtain ⟨final, ct1, hrun, hfsent, hct1, hsched, _, _⟩ :=
      runChangeTimer_counts delays A (self.qrv - 2) fuel joined 0 _ (by omega) hct rfl rfl
        (by simp only []; congr 1; omega)
    refine ⟨joined, final, hjoin, ?_, hjsent, fun _ => ⟨_, hct, rfl, rfl⟩, ?_, rfl, ?_⟩
    · rw [hrun]; congr 1; omega
    · rw [hfsent, hjsent, List.append_assoc]
      congr 1
      have hk : self.qrv = (self.qrv - 2 + 1) + 1 := by omega
      conv_rhs => rw [hk, List.replicate_succ]
      rfl
    · intro ct hc
      rw [hct1] at hc
      cases hc
      exact hsched

theorem C5_join_aborts_on_deleted_timer_witness :
    ∃ joined final,
      sampleClient.handleJoin true 200 (some sampleGroup) = some joined ∧
      IGMPClient.runChangeTimer (fun _ => 500) sampleGroup 10 joined 0 = (final, 2) ∧
      final.sent.length = 3 := by
  obtain ⟨joined, final, hjoin, hrun, _, _, hsent, _, _⟩ :=
    C5_join_aborts_on_deleted_timer.2.2.2 sampleClient sampleGroup 200 10 (fun _ => 500)
      (by decide) (by decide) (by decide) (by intro ct h; cases h)
  refine ⟨joined, final, hjoin, hrun, ?_⟩
  have := congrArg List.length hsent
  simpa using this

/-- C6 (code bug): join and leave are no-ops when they do not change membership, in every
state: `join(A)` returns the state untouched when `A` is a member and `leave(A)` when it is
not.  When membership changes, `join(A)` is `scheduleStateChangeMessage` with
`CHANGE_TO_EXCLUDE_MODE` on the state with `A` added and `leave(A)` is the same with
`CHANGE_TO_INCLUDE_MODE` on the state with `A` removed.  But that call does not always
return: in the state reached by join, query with QRV 1, leave, query with QRV 3 (where
`sampleGroup` is not a member) the join of `sampleGroup` returns no state, and in the state
reached by join, leave, query with QRV 1, join (where `sampleGroup` is a member and
`qrv = 1`) the leave of `sampleGroup` returns no state: in both the map holds a timer that
`scheduleStateChangeMessage` deleted when it returned at `qrv ≤ 1`.  For every state whose map
holds no deleted timer for `A` the calls return, with `A` added (removed) and one report
transmitted, and a second `join(A)` then changes nothing at all. -/
theorem C6_join_leave_abort_on_deleted_timer :
    staleClient.map (fun c =>
      (decide (sampleGroup ∈ c.members),
        (c.handleJoin true 200 (some sampleGroup)).isSome)) = some (false, false) ∧
    staleMember.map (fun c =>
      (decide (sampleGroup ∈ c.members), c.qrv,
        (c.changeTimers sampleGroup).map (fun t => (t.timer.scheduled, t.freed)),
        (c.handleLeave true 300 (some sampleGroup)).isSome)) =
      some (true, 1, some (false, true), false) ∧
    (∀ (self : IGMPClient) (A d : Nat) (alloc : Bool), A ∈ self.members →
      self.handleJoin alloc d (some A) = some self) ∧
    (∀ (self : IGMPClient) (A d : Nat) (alloc : Bool), A ∉ self.members →
      self.handleLeave alloc d (some A) = some self) ∧
    (∀ (self : IGMPClient) (A d : Nat), A ∉ self.members →
      self.handleJoin true d (some A) =
        IGMPClient.scheduleStateChangeMessage { self with members := self.members ++ [A] } true
          d CHANGE_TO_EXCLUDE_MODE A) ∧
    (∀ (self : IGMPClient) (A d : Nat), A ∈ self.members →
      self.handleLeave true d (some A) =
        IGMPClient.scheduleStateChangeMessage
          { self with members := self.members.filter (fun a => a ≠ A) } true d
          CHANGE_TO_INCLUDE_MODE A) ∧
    (∀ (self : IGMPClient) (A d1 d2 : Nat) (alloc : Bool), A ∉ self.members →
      (∀ ct, self.changeTimers A = some ct → ct.freed = false) →
      ∃ joined, self.handleJoin true d1 (some A) = some joined ∧
        A ∈ joined.members ∧
        joined.sent = self.sent ++
          [({ time := self.now
              header := IGMPClient.buildReport [IGMPClient.mkRecord CHANGE_TO_EXCLUDE_MODE A]
              records := [IGMPClient.mkRecord CHANGE_TO_EXCLUDE_MODE A] } : SentReport)] ∧
        joined.handleJoin alloc d2 (some A) = some joined) ∧
    (∀ (self : IGMPClient) (A d1 : Nat), A ∈ self.members →
      (∀ ct, self.changeTimers A = some ct → ct.freed = false) →
      ∃ left, self.handleLeave true d1 (some A) = some left ∧
        A ∉ left.members ∧
        left.sent = self.sent ++
          [({ time := self.now
              header := IGMPClient.buildReport [IGMPClient.mkRecord CHANGE_TO_INCLUDE_MODE A]
              records := [IGMPClient.mkRecord CHANGE_TO_INCLUDE_MODE A] } : SentReport)]) := by
  have hjoin_old : ∀ (c : IGMPClient) (A d : Nat) (al : Bool), A ∈ c.members →
      c.handleJoin al d (some A) = some c := by
    intro c A d al h
    simp [IGMPClient.handleJoin, addAddress, h]
  refine ⟨by decide, by decide, hjoin_old, ?_, fun self A d h => handleJoin_new self d A h,
    fun self A d h => handleLeave_member self d A h, ?_, ?_⟩
  · intro self A d alloc h
    simp [IGMPClient.handleLeave, removeAddress, h]
  · intro self A d1 d2 alloc hnew hlive
    rw [handleJoin_new self d1 A hnew]
    obtain ⟨joined, hj, hsent, hmem, _⟩ :=
      scheduleStateChangeMessage_effect { self with members := self.members ++ [A] } d1
        CHANGE_TO_EXCLUDE_MODE A hlive
    have hin : A ∈ joined.members := by rw [hmem]; simp
    exact ⟨joined, hj, hin, hsent, hjoin_old joined A d2 alloc hin⟩
  · intro self A d1 hmem hlive
    rw [handleLeave_member self d1 A hmem]
    obtain ⟨left, hl, hsent, hm, _⟩ :=
      scheduleStateChangeMessage_effect
        { self with members := self.members.filter (fun a => a ≠ A) } d1
        CHANGE_TO_INCLUDE_MODE A hlive
    refine ⟨left, hl, ?_, hsent⟩
    rw [hm]
    simp [List.mem_filter]

theorem C6_join_leave_abort_on_deleted_timer_witness :
    ∃ joined, sampleClient.handleJoin true 200 (some sampleGroup) = some joined ∧
      sampleGroup ∈ joined.members ∧ joined.sent.length = 1 ∧
      joined.handleJoin true 300 (some sampleGroup) = some joined := by
  obtain ⟨joined, hj, hin, hsent, hagain⟩ :=
    C6_join_leave_abort_on_deleted_timer.2.2.2.2.2.2.1 sampleClient sampleGroup 200 300 true
      (by decide) (by intro ct h; cases h)
  refine ⟨joined, hj, hin, ?_, hagain⟩
  rw [hsent]
  rfl

/-! ### Router lemmas -/

/-- A record whose address is not multicast or is `224.0.0.1` leaves the router as it is. -/
theorem processRecord_skip (interface : Nat) (self : IGMPRouter) (record : GroupRecord)
    (h : is_multicast record.multicastAddress = false ∨ record.multicastAddress = ALL_SYSTEMS) :
    IGMPRouter.processRecord interface self record = self := by
  unfold IGMPRouter.processRecord
  rcases h with h | h <;> simp [h]

/-- C9: a record whose address is `224.0.0.1` or is not a multicast address is skipped by
`processReport`, whatever its type.  Its loop iteration returns the router state unchanged (no
group entry created, no flag or timer touched, nothing sent), and the report is processed
exactly as if the record were not in it, so the records before and after it are processed as
usual. -/
theorem C9_invalid_record_skipped (self : IGMPRouter) (interface : Nat)
    (before after : List GroupRecord) (record : GroupRecord)
    (h : is_multicast record.multicastAddress = false ∨ record.multicastAddress = ALL_SYSTEMS) :
    (∀ state : IGMPRouter, IGMPRouter.processRecord interface state record = state) ∧
      self.processReport (before ++ record :: after) interface =
        self.processReport (before ++ after) interface := by
  refine ⟨fun state => processRecord_skip interface state record h, ?_⟩
  unfold IGMPRouter.processReport
  simp only [List.foldl_append, List.foldl_cons, processRecord_skip interface _ record h]

theorem C9_invalid_record_skipped_witness :
    sampleRouter.processReport
        ([sampleRecord MODE_IS_EXCLUDE] ++
          ({ recordType := MODE_IS_EXCLUDE, auxDataLen := 0, numSources := 0,
             multicastAddress := ALL_SYSTEMS } : GroupRecord) ::
          [sampleRecord CHANGE_TO_INCLUDE_MODE]) 1 =
      sampleRouter.processReport
        ([sampleRecord MODE_IS_EXCLUDE] ++ [sampleRecord CHANGE_TO_INCLUDE_MODE]) 1 :=
  (C9_invalid_record_skipped sampleRouter 1 [sampleRecord MODE_IS_EXCLUDE]
    [sampleRecord CHANGE_TO_INCLUDE_MODE]
    { recordType := MODE_IS_EXCLUDE, auxDataLen := 0, numSources := 0,
      multicastAddress := ALL_SYSTEMS } (Or.inr rfl)).2

/-- C10: for every accepted General Query (alert option present, type `QUERY`, checksum
verified, group address 0) with computed delay `d`: if the general-report timer was scheduled
with remaining time `r < d` it is left untouched, otherwise it is scheduled to fire after
`d`.  So afterwards the one general timer is scheduled, with remaining time `min r d` when it
was already scheduled and `d` when it was not; no group timer, retransmission timer or
membership is created or changed and nothing is transmitted. -/
theorem C10_general_query_schedules_report (self : IGMPClient) (p : Packet) (d : Nat)
    (ha : hasRouterAlert p = true) (ht : (queryAt p.data 24).type = QUERY)
    (hc : click_in_cksum (readBytes p.data 24 12) = 0)
    (hg : (queryAt p.data 24).groupAddress = 0) :
    (self.generalTimer.scheduled = true → self.generalTimer.expiry - self.now < (d : Int) →
      (self.push p d).generalTimer = self.generalTimer) ∧
    (¬ (self.generalTimer.scheduled = true ∧ self.generalTimer.expiry - self.now < (d : Int)) →
      (self.push p d).generalTimer = { scheduled := true, expiry := self.now + (d : Int) }) ∧
    (self.push p d).generalTimer.scheduled = true ∧
    (self.push p d).generalTimer.expiry - (self.push p d).now =
      (if self.generalTimer.scheduled = true
        then min (self.generalTimer.expiry - self.now) (d : Int) else (d : Int)) ∧
    (self.push p d).groupTimers = self.groupTimers ∧
    (self.push p d).changeTimers = self.changeTimers ∧
    (self.push p d).members = self.members ∧
    (self.push p d).sent = self.sent ∧
    (self.push p d).now = self.now := by
  by_cases hcond : self.generalTimer.scheduled = true ∧
      self.generalTimer.expiry - self.now < (d : Int)
  · have hpush : self.push p d =
        { self with qrv := if (queryAt p.data 24).resv_s_qrv &&& 0x7 ≠ 0
            then (queryAt p.data 24).resv_s_qrv &&& 0x7 else 2 } := by
      unfold IGMPClient.push
      simp [ha, ht, hc, hcond.1, hcond.2]
    rw [hpush]
    refine ⟨fun _ _ => rfl, fun h => absurd hcond h, hcond.1, ?_, rfl, rfl, rfl, rfl, rfl⟩
    simp only [hcond.1, if_true]
    rw [min_eq_left (le_of_lt hcond.2)]
  · have hpush : self.push p d =
        { self with
          qrv := if (queryAt p.data 24).resv_s_qrv &&& 0x7 ≠ 0
            then (queryAt p.data 24).resv_s_qrv &&& 0x7 else 2
          generalTimer := { scheduled := true, expiry := self.now + (d : Int) } } := by
      unfold IGMPClient.push
      have hcond2 : ¬ (self.generalTimer.scheduled = true ∧
          self.generalTimer.expiry - self.now < (d : Int)) := hcond
      simp [ha, ht, hc, hg, Timer.schedule_after_msec]
      intro h1 h2
      exact absurd ⟨h1, h2⟩ hcond
    rw [hpush]
    refine ⟨fun h1 h2 => absurd ⟨h1, h2⟩ hcond, fun _ => rfl, rfl, ?_, rfl, rfl, rfl, rfl,
      rfl⟩
    simp only [add_sub_cancel_left]
    by_cases hs : self.generalTimer.scheduled = true
    · have hge : (d : Int) ≤ self.generalTimer.expiry - self.now := by
        by_contra hlt
        exact hcond ⟨hs, lt_of_not_le hlt⟩
      simp only [hs, if_true]
      rw [min_eq_right hge]
    · simp [hs]

theorem C10_general_query_schedules_report_witness :
    (sampleClient.push sampleGeneralQueryPacket 700).generalTimer =
      { scheduled := true, expiry := 700 } :=
  (C10_general_query_schedules_report sampleClient sampleGeneralQueryPacket 700
    (by decide) (by decide) (by decide) (by decide)).2.1 (by decide)

/-! ### Router tables and timers -/

theorem groups_setGroup (self : IGMPRouter) (i a : Nat) (g : Option GroupData) (j b : Nat) :
    (self.setGroup i a g).groups j b = if j = i ∧ b = a then g else self.groups j b := by
  unfold IGMPRouter.setGroup IGMPRouter.groups setKey
  by_cases hj : j = i
  · by_cases hb : b = a
    · simp [hj, hb]
    · subst hj
      simp [hb]
  · simp [hj]

theorem groups_updateTimer (self : IGMPRouter) (id : Nat) (f : Timer → Timer) :
    (self.updateTimer id f).groups = self.groups := by
  unfold IGMPRouter.updateTimer
  split <;> rfl

theorem now_updateTimer (self : IGMPRouter) (id : Nat) (f : Timer → Timer) :
    (self.updateTimer id f).now = self.now ∧
      (self.updateTimer id f).groupMembershipInterval = self.groupMembershipInterval ∧
      (self.updateTimer id f).timers.length = self.timers.length := by
  unfold IGMPRouter.updateTimer
  split <;> simp

theorem timers_updateTimer (self : IGMPRouter) (id : Nat) (f : Timer → Timer) (k : Nat) :
    (self.updateTimer id f).timers[k]? =
      (self.timers[k]?).map (fun t => if k = id then { t with timer := f t.timer } else t) := by
  unfold IGMPRouter.updateTimer
  split
  · rename_i t ht
    by_cases hk : k = id
    · subst hk
      simp [List.getElem?_set, ht]
      by_contra hlen
      have := List.getElem?_eq_none (Nat.le_of_not_lt hlen)
      rw [this] at ht
      cases ht
    · have hk2 : id ≠ k := fun h => hk h.symm
      simp only [List.getElem?_set_ne hk2, hk, if_false]
      cases self.timers[k]? <;> rfl
  · rename_i ht
    by_cases hk : k = id
    · subst hk
      simp [ht]
    · simp only [hk, if_false]
      cases self.timers[k]? <;> rfl

theorem timers_allocTimer (self : IGMPRouter) (t t0 : RouterTimer) (k : Nat)
    (h : self.timers[k]? = some t0) : (self.allocTimer t).timers[k]? = some t0 := by
  have hk : k < self.timers.length := by
    by_contra hge
    rw [List.getElem?_eq_none (by omega)] at h
    cases h
  show (self.timers ++ [t])[k]? = some t0
  rw [List.getElem?_append_left hk, h]

theorem groups_allocTimer (self : IGMPRouter) (t : RouterTimer) :
    (self.allocTimer t).groups = self.groups := rfl

theorem timers_allocTimer_new (self : IGMPRouter) (t : RouterTimer) :
    (self.allocTimer t).timers[self.timers.length]? = some t := by
  show (self.timers ++ [t])[self.timers.length]? = some t
  exact List.getElem?_concat_length _ _

theorem WF_allocTimer (self : IGMPRouter) (t : RouterTimer) (h : self.WF) :
    (self.allocTimer t).WF := by
  intro i a g hg
  obtain ⟨⟨t1, ht1, hc1⟩, h2⟩ := h i a g hg
  refine ⟨⟨t1, timers_allocTimer self t t1 _ ht1, hc1⟩, ?_⟩
  intro id hid
  obtain ⟨t2, n, f, ht2, hc2⟩ := h2 id hid
  exact ⟨t2, n, f, timers_allocTimer self t t2 _ ht2, hc2⟩

theorem WF_updateTimer (self : IGMPRouter) (id : Nat) (f : Timer → Timer) (h : self.WF) :
    (self.updateTimer id f).WF := by
  intro i a g hg
  rw [groups_updateTimer] at hg
  obtain ⟨⟨t1, ht1, hc1⟩, h2⟩ := h i a g hg
  refine ⟨⟨_, by rw [timers_updateTimer, ht1]; rfl, ?_⟩, ?_⟩
  · by_cases hk : g.groupTimer = id <;> simp [hk, hc1]
  · intro id2 hid
    obtain ⟨t2, n, fl, ht2, hc2⟩ := h2 id2 hid
    refine ⟨_, n, fl, by rw [timers_updateTimer, ht2]; rfl, ?_⟩
    by_cases hk : id2 = id <;> simp [hk, hc2]

theorem WF_setGroup (self : IGMPRouter) (i a : Nat) (g : GroupData) (h : self.WF)
    (h1 : ∃ t, self.timers[g.groupTimer]? = some t ∧ t.callback = Callback.groupExpire i a)
    (h2 : ∀ id, g.sendTimer = some id → ∃ t n first, self.timers[id]? = some t ∧
      t.callback = Callback.handleSpecificResend i a n first) :
    (self.setGroup i a (some g)).WF := by
  intro j b g' hg'
  rw [groups_setGroup] at hg'
  by_cases hjb : j = i ∧ b = a
  · rw [if_pos hjb] at hg'
    cases hg'
    obtain ⟨rfl, rfl⟩ := hjb
    exact ⟨h1, h2⟩
  · rw [if_neg hjb] at hg'
    exact h j b g' hg'

/-! ### The loop of `processReport` -/

theorem createGroup_old (self : IGMPRouter) (i a : Nat) (g : GroupData)
    (hg : self.groups i a = some g) : self.createGroup i a = self := by
  simp [IGMPRouter.createGroup, hg]

theorem createGroup_new (self : IGMPRouter) (i a : Nat) (hg : self.groups i a = none) :
    self.createGroup i a =
      IGMPRouter.setGroup
        (self.allocTimer
          { timer := Timer.fresh.schedule_after_msec self.now (mul100 self.groupMembershipInterval)
            callback := Callback.groupExpire i a })
        i a (some { groupTimer := self.timers.length, sendTimer := none, isExclude := false }) := by
  simp [IGMPRouter.createGroup, hg]

theorem updateGroup_none (self : IGMPRouter) (i : Nat) (r : GroupRecord)
    (hg : self.groups i r.multicastAddress = none) : self.updateGroup i r = self := by
  simp [IGMPRouter.updateGroup, hg]

theorem updateGroup_exclude (self : IGMPRouter) (i : Nat) (r : GroupRecord) (g : GroupData)
    (hg : self.groups i r.multicastAddress = some g)
    (ht : r.recordType = MODE_IS_EXCLUDE ∨ r.recordType = CHANGE_TO_EXCLUDE_MODE) :
    self.updateGroup i r =
      (self.setGroup i r.multicastAddress (some { g with isExclude := true })).updateTimer
        g.groupTimer
        (fun t => t.schedule_after_msec self.now (mul100 self.groupMembershipInterval)) := by
  simp only [IGMPRouter.updateGroup, hg, ht, if_true]
  rfl

theorem updateGroup_idle (self : IGMPRouter) (i : Nat) (r : GroupRecord) (g : GroupData)
    (hg : self.groups i r.multicastAddress = some g)
    (ht : ¬ (r.recordType = MODE_IS_EXCLUDE ∨ r.recordType = CHANGE_TO_EXCLUDE_MODE))
    (he : g.isExclude = false) : self.updateGroup i r = self := by
  simp [IGMPRouter.updateGroup, hg, ht, he]

theorem updateGroup_probe_first (self : IGMPRouter) (i : Nat) (r : GroupRecord) (g : GroupData)
    (hg : self.groups i r.multicastAddress = some g)
    (ht : ¬ (r.recordType = MODE_IS_EXCLUDE ∨ r.recordType = CHANGE_TO_EXCLUDE_MODE))
    (he : g.isExclude = true) (hs : g.sendTimer = none) :
    self.updateGroup i r =
      IGMPRouter.setGroup
        (self.allocTimer
          { timer := Timer.fresh.schedule_now self.now
            callback := Callback.handleSpecificResend i r.multicastAddress
              self.lastMemberQueryCount true })
        i r.multicastAddress (some { g with sendTimer := some self.timers.length }) := by
  simp [IGMPRouter.updateGroup, hg, ht, he, hs]

theorem updateGroup_probe_again (self : IGMPRouter) (i : Nat) (r : GroupRecord) (g : GroupData)
    (old : Nat) (hg : self.groups i r.multicastAddress = some g)
    (ht : ¬ (r.recordType = MODE_IS_EXCLUDE ∨ r.recordType = CHANGE_TO_EXCLUDE_MODE))
    (he : g.isExclude = true) (hs : g.sendTimer = some old) :
    self.updateGroup i r =
      IGMPRouter.setGroup
        ((self.updateTimer old Timer.clear).allocTimer
          { timer := Timer.fresh.schedule_now (self.updateTimer old Timer.clear).now
            callback := Callback.handleSpecificResend i r.multicastAddress
              (self.updateTimer old Timer.clear).lastMemberQueryCount true })
        i r.multicastAddress
        (some { g with sendTimer := some (self.updateTimer old Timer.clear).timers.length }) := by
  simp [IGMPRouter.updateGroup, hg, ht, he, hs]

/-- The five ways the branch on the record type can go. -/
theorem updateGroup_cases (self : IGMPRouter) (i : Nat) (r : GroupRecord) :
    (self.groups i r.multicastAddress = none) ∨
    (∃ g, self.groups i r.multicastAddress = some g ∧
      ((r.recordType = MODE_IS_EXCLUDE ∨ r.recordType = CHANGE_TO_EXCLUDE_MODE) ∨
       (¬ (r.recordType = MODE_IS_EXCLUDE ∨ r.recordType = CHANGE_TO_EXCLUDE_MODE) ∧
          g.isExclude = false) ∨
       (¬ (r.recordType = MODE_IS_EXCLUDE ∨ r.recordType = CHANGE_TO_EXCLUDE_MODE) ∧
          g.isExclude = true ∧ g.sendTimer = none) ∨
       (¬ (r.recordType = MODE_IS_EXCLUDE ∨ r.recordType = CHANGE_TO_EXCLUDE_MODE) ∧
          g.isExclude = true ∧ ∃ old, g.sendTimer = some old))) := by
  cases hg : self.groups i r.multicastAddress with
  | none => exact Or.inl rfl
  | some g =>
    refine Or.inr ⟨g, rfl, ?_⟩
    by_cases ht : r.recordType = MODE_IS_EXCLUDE ∨ r.recordType = CHANGE_TO_EXCLUDE_MODE
    · exact Or.inl ht
    · cases he : g.isExclude with
      | false => exact Or.inr (Or.inl ⟨ht, rfl⟩)
      | true =>
        cases hs : g.sendTimer with
        | none => exact Or.inr (Or.inr (Or.inl ⟨ht, rfl, rfl⟩))
        | some old => exact Or.inr (Or.inr (Or.inr ⟨ht, rfl, old, rfl⟩))

theorem createGroup_WF (self : IGMPRouter) (i a : Nat) (h : self.WF) :
    (self.createGroup i a).WF := by
  cases hg : self.groups i a with
  | some g => rw [createGroup_old self i a g hg]; exact h
  | none =>
    rw [createGroup_new self i a hg]
    exact WF_setGroup _ i a _ (WF_allocTimer self _ h)
      ⟨_, timers_allocTimer_new self _, rfl⟩ (fun id hid => by cases hid)

theorem createGroup_some (self : IGMPRouter) (i a : Nat) :
    ∃ g, (self.createGroup i a).groups i a = some g := by
  cases hg : self.groups i a with
  | some g => rw [createGroup_old self i a g hg]; exact ⟨g, hg⟩
  | none =>
    rw [createGroup_new self i a hg]
    exact ⟨_, by rw [groups_setGroup, if_pos ⟨rfl, rfl⟩]⟩

theorem createGroup_now (self : IGMPRouter) (i a : Nat) :
    (self.createGroup i a).now = self.now ∧
      (self.createGroup i a).groupMembershipInterval = self.groupMembershipInterval := by
  cases hg : self.groups i a with
  | some g => rw [createGroup_old self i a g hg]; exact ⟨rfl, rfl⟩
  | none => rw [createGroup_new self i a hg]; exact ⟨rfl, rfl⟩

theorem createGroup_confirmed (self : IGMPRouter) (i a j b : Nat)
    (hc : self.confirmedListener j b) : (self.createGroup i a).confirmedListener j b := by
  cases hg : self.groups i a with
  | some g => rw [createGroup_old self i a g hg]; exact hc
  | none =>
    rw [createGroup_new self i a hg]
    obtain ⟨g, t, h1, h2, h3, h4⟩ := hc
    have hne : ¬ (j = i ∧ b = a) := by
      rintro ⟨rfl, rfl⟩
      rw [hg] at h1
      cases h1
    refine ⟨g, t, ?_, h2, timers_allocTimer self _ t _ h3, h4⟩
    rw [groups_setGroup, if_neg hne]
    exact h1

theorem updateGroup_WF (self : IGMPRouter) (i : Nat) (r : GroupRecord) (h : self.WF) :
    (self.updateGroup i r).WF := by
  rcases updateGroup_cases self i r with hg | ⟨g, hg, ht | ⟨ht, he⟩ | ⟨ht, he, hs⟩ |
    ⟨ht, he, old, hs⟩⟩
  · rw [updateGroup_none self i r hg]; exact h
  · obtain ⟨hg1, hg2⟩ := h i r.multicastAddress g hg
    rw [updateGroup_exclude self i r g hg ht]
    exact WF_updateTimer _ _ _ (WF_setGroup self i _ _ h hg1 hg2)
  · rw [updateGroup_idle self i r g hg ht he]; exact h
  · obtain ⟨⟨t, htm, hc⟩, _⟩ := h i r.multicastAddress g hg
    rw [updateGroup_probe_first self i r g hg ht he hs]
    refine WF_setGroup _ i _ _ (WF_allocTimer self _ h)
      ⟨t, timers_allocTimer self _ t _ htm, hc⟩ ?_
    intro id hid
    cases hid
    exact ⟨_, _, _, timers_allocTimer_new self _, rfl⟩
  · rw [updateGroup_probe_again self i r g old hg ht he hs]
    have hwf := WF_updateTimer self old Timer.clear h
    have hg' : (self.updateTimer old Timer.clear).groups i r.multicastAddress = some g := by
      rw [groups_updateTimer]; exact hg
    obtain ⟨⟨t, htm, hc⟩, _⟩ := hwf i r.multicastAddress g hg'
    refine WF_setGroup _ i _ _ (WF_allocTimer _ _ hwf)
      ⟨t, timers_allocTimer _ _ t _ htm, hc⟩ ?_
    intro id hid
    cases hid
    exact ⟨_, _, _, timers_allocTimer_new _ _, rfl⟩

theorem updateGroup_now (self : IGMPRouter) (i : Nat) (r : GroupRecord) :
    (self.updateGroup i r).now = self.now ∧
      (self.updateGroup i r).groupMembershipInterval = self.groupMembershipInterval := by
  rcases updateGroup_cases self i r with hg | ⟨g, hg, ht | ⟨ht, he⟩ | ⟨ht, he, hs⟩ |
    ⟨ht, he, old, hs⟩⟩
  · rw [updateGroup_none self i r hg]; exact ⟨rfl, rfl⟩
  · rw [updateGroup_exclude self i r g hg ht]
    exact ⟨(now_updateTimer _ _ _).1, (now_updateTimer _ _ _).2.1⟩
  · rw [updateGroup_idle self i r g hg ht he]; exact ⟨rfl, rfl⟩
  · rw [updateGroup_probe_first self i r g hg ht he hs]; exact ⟨rfl, rfl⟩
  · rw [updateGroup_probe_again self i r g old hg ht he hs]
    exact ⟨(now_updateTimer self old Timer.clear).1,
      (now_updateTimer self old Timer.clear).2.1⟩

/-- An EXCLUDE-type record on an existing entry makes it a confirmed listener. -/
theorem updateGroup_establish (self : IGMPRouter) (i : Nat) (r : GroupRecord) (g : GroupData)
    (h : self.WF) (hg : self.groups i r.multicastAddress = some g)
    (ht : r.recordType = MODE_IS_EXCLUDE ∨ r.recordType = CHANGE_TO_EXCLUDE_MODE) :
    (self.updateGroup i r).confirmedListener i r.multicastAddress := by
  obtain ⟨⟨t0, ht0, _⟩, _⟩ := h i r.multicastAddress g hg
  rw [updateGroup_exclude self i r g hg ht]
  refine ⟨{ g with isExclude := true },
    ⟨t0.timer.schedule_after_msec self.now (mul100 self.groupMembershipInterval), t0.callback⟩,
    ?_, rfl, ?_, ?_⟩
  · rw [groups_updateTimer, groups_setGroup, if_pos ⟨rfl, rfl⟩]
  · rw [timers_updateTimer]
    show (self.timers[g.groupTimer]?).map _ = _
    rw [ht0]
    simp
  · rw [(now_updateTimer _ _ _).1, (now_updateTimer _ _ _).2.1]
    rfl

/-- The branch on the record type keeps every confirmed listener confirmed. -/
theorem updateGroup_confirmed (self : IGMPRouter) (i : Nat) (r : GroupRecord) (j b : Nat)
    (h : self.WF) (hc : self.confirmedListener j b) :
    (self.updateGroup i r).confirmedListener j b := by
  rcases updateGroup_cases self i r with hg | ⟨g, hg, ht | ⟨ht, he⟩ | ⟨ht, he, hs⟩ |
    ⟨ht, he, old, hs⟩⟩
  · rw [updateGroup_none self i r hg]; exact hc
  · by_cases hjb : j = i ∧ b = r.multicastAddress
    · obtain ⟨rfl, rfl⟩ := hjb
      exact updateGroup_establish self j r g h hg ht
    · obtain ⟨gb, tb, h1, h2, h3, h4⟩ := hc
      rw [updateGroup_exclude self i r g hg ht]
      refine ⟨gb, if gb.groupTimer = g.groupTimer then
          ⟨tb.timer.schedule_after_msec self.now (mul100 self.groupMembershipInterval),
            tb.callback⟩ else tb, ?_, h2, ?_, ?_⟩
      · rw [groups_updateTimer, groups_setGroup, if_neg hjb]; exact h1
      · rw [timers_updateTimer]
        show (self.timers[gb.groupTimer]?).map _ = _
        rw [h3]
        rfl
      · rw [(now_updateTimer _ _ _).1, (now_updateTimer _ _ _).2.1]
        by_cases hk : gb.groupTimer = g.groupTimer
        · rw [if_pos hk]; rfl
        · rw [if_neg hk]; exact h4
  · rw [updateGroup_idle self i r g hg ht he]; exact hc
  · obtain ⟨gb, tb, h1, h2, h3, h4⟩ := hc
    rw [updateGroup_probe_first self i r g hg ht he hs]
    by_cases hjb : j = i ∧ b = r.multicastAddress
    · obtain ⟨rfl, rfl⟩ := hjb
      rw [hg] at h1
      cases h1
      exact ⟨{ g with sendTimer := some self.timers.length }, tb,
        by rw [groups_setGroup, if_pos ⟨rfl, rfl⟩], h2, timers_allocTimer self _ tb _ h3, h4⟩
    · exact ⟨gb, tb, by rw [groups_setGroup, if_neg hjb, groups_allocTimer]; exact h1, h2,
        timers_allocTimer self _ tb _ h3, h4⟩
  · obtain ⟨gb, tb, h1, h2, h3, h4⟩ := hc
    rw [updateGroup_probe_again self i r g old hg ht he hs]
    have hold : gb.groupTimer ≠ old := by
      intro heq
      obtain ⟨⟨t1, ht1, hc1⟩, _⟩ := h j b gb h1
      obtain ⟨_, hsend⟩ := h i r.multicastAddress g hg
      obtain ⟨t2, n, f, ht2, hc2⟩ := hsend old hs
      rw [heq, ht2] at ht1
      cases ht1
      rw [hc1] at hc2
      cases hc2
    have htm : (self.updateTimer old Timer.clear).timers[gb.groupTimer]? = some tb := by
      rw [timers_updateTimer, h3]
      simp [hold]
    have hnow : (self.updateTimer old Timer.clear).now = self.now :=
      (now_updateTimer self old Timer.clear).1
    have hgmi : (self.updateTimer old Timer.clear).groupMembershipInterval =
        self.groupMembershipInterval := (now_updateTimer self old Timer.clear).2.1
    have h4' : tb.timer = { scheduled := true, expiry := (self.updateTimer old Timer.clear).now +
        (mul100 (self.updateTimer old Timer.clear).groupMembershipInterval : Nat) } := by
      rw [hnow, hgmi]; exact h4
    by_cases hjb : j = i ∧ b = r.multicastAddress
    · obtain ⟨rfl, rfl⟩ := hjb
      rw [hg] at h1
      cases h1
      exact ⟨{ g with sendTimer := some (self.updateTimer old Timer.clear).timers.length }, tb,
        by rw [groups_setGroup, if_pos ⟨rfl, rfl⟩], h2, timers_allocTimer _ _ tb _ htm, h4'⟩
    · exact ⟨gb, tb,
        by rw [groups_setGroup, if_neg hjb, groups_allocTimer, groups_updateTimer]; exact h1, h2,
        timers_allocTimer _ _ tb _ htm, h4'⟩

theorem processRecord_valid (i : Nat) (self : IGMPRouter) (r : GroupRecord)
    (hm : is_multicast r.multicastAddress = true) (hne : r.multicastAddress ≠ ALL_SYSTEMS) :
    IGMPRouter.processRecord i self r =
      (self.createGroup i r.multicastAddress).updateGroup i r := by
  simp [IGMPRouter.processRecord, hm, hne]

theorem processRecord_WF (i : Nat) (self : IGMPRouter) (r : GroupRecord) (h : self.WF) :
    (IGMPRouter.processRecord i self r).WF := by
  unfold IGMPRouter.processRecord
  simp only []
  split
  · exact h
  · exact updateGroup_WF _ i r (createGroup_WF self i _ h)

theorem processRecord_confirmed (i : Nat) (self : IGMPRouter) (r : GroupRecord) (j b : Nat)
    (h : self.WF) (hc : self.confirmedListener j b) :
    (IGMPRouter.processRecord i self r).confirmedListener j b := by
  unfold IGMPRouter.processRecord
  simp only []
  split
  · exact hc
  · exact updateGroup_confirmed _ i r j b (createGroup_WF self i _ h)
      (createGroup_confirmed self i _ j b hc)

theorem foldl_processRecord_confirmed (i j b : Nat) (records : List GroupRecord) :
    ∀ self : IGMPRouter, self.WF → self.confirmedListener j b →
      (records.foldl (IGMPRouter.processRecord i) self).WF ∧
        (records.foldl (IGMPRouter.processRecord i) self).confirmedListener j b := by
  induction records with
  | nil => intro self h hc; exact ⟨h, hc⟩
  | cons r rs ih =>
    intro self h hc
    exact ih _ (processRecord_WF i self r h) (processRecord_confirmed i self r j b h hc)

theorem foldl_processRecord_WF (i : Nat) (records : List GroupRecord) :
    ∀ self : IGMPRouter, self.WF → (records.foldl (IGMPRouter.processRecord i) self).WF := by
  induction records with
  | nil => intro self h; exact h
  | cons r rs ih => intro self h; exact ih _ (processRecord_WF i self r h)

theorem foldl_processRecord_now (i : Nat) (records : List GroupRecord) :
    ∀ self : IGMPRouter,
      (records.foldl (IGMPRouter.processRecord i) self).now = self.now ∧
      (records.foldl (IGMPRouter.processRecord i) self).groupMembershipInterval =
        self.groupMembershipInterval := by
  induction records with
  | nil => intro self; exact ⟨rfl, rfl⟩
  | cons r rs ih =>
    intro self
    have hstep : (IGMPRouter.processRecord i self r).now = self.now ∧
        (IGMPRouter.processRecord i self r).groupMembershipInterval =
          self.groupMembershipInterval := by
      unfold IGMPRouter.processRecord
      simp only []
      split
      · exact ⟨rfl, rfl⟩
      · exact ⟨(updateGroup_now _ i r).1.trans (createGroup_now self i _).1,
          (updateGroup_now _ i r).2.trans (createGroup_now self i _).2⟩
    exact ⟨(ih _).1.trans hstep.1, (ih _).2.trans hstep.2⟩

/-- `processReport` is the loop over the records, started on a state that differs from the
given one at most by an empty table for the interface. -/
theorem processReport_loop (self : IGMPRouter) (records : List GroupRecord) (i : Nat) :
    ∃ self1 : IGMPRouter,
      self.processReport records i = records.foldl (IGMPRouter.processRecord i) self1 ∧
      self1.groups = self.groups ∧ self1.timers = self.timers ∧ self1.now = self.now ∧
      self1.groupMembershipInterval = self.groupMembershipInterval ∧
      self1.sent = self.sent := by
  unfold IGMPRouter.processReport
  cases hi : self.interfaces i with
  | some g => exact ⟨self, rfl, rfl, rfl, rfl, rfl, rfl⟩
  | none =>
    refine ⟨_, rfl, ?_, rfl, rfl, rfl, rfl⟩
    funext j
    unfold IGMPRouter.groups setKey
    by_cases hj : j = i
    · subst hj
      simp [hi]
    · simp [hj]

theorem WF_of_eq (self self1 : IGMPRouter) (hg : self1.groups = self.groups)
    (ht : self1.timers = self.timers) (h : self.WF) : self1.WF := by
  intro i a g hga
  rw [hg] at hga
  rw [ht]
  exact h i a g hga

/-- C8: for every interface, every prior (pointer-sound) table state and every record of a
report whose address is a valid multicast address other than `224.0.0.1` and whose type is
`IS_EXCLUDE` or `CHANGE_TO_EXCLUDE`: after `processReport` the table of the interface has an
entry for that address with `isExclude = true` whose expiry timer is scheduled
`groupMembershipInterval` (tenths of a second, `* 100` ms) from now, whatever the other
records of the report are. -/
theorem C8_exclude_record_confirms_listener (self : IGMPRouter) (interface : Nat)
    (before after : List GroupRecord) (record : GroupRecord) (hwf : self.WF)
    (hm : is_multicast record.multicastAddress = true)
    (hne : record.multicastAddress ≠ ALL_SYSTEMS)
    (ht : record.recordType = MODE_IS_EXCLUDE ∨ record.recordType = CHANGE_TO_EXCLUDE_MODE) :
    ∃ group,
      (self.processReport (before ++ record :: after) interface).groups interface
        record.multicastAddress = some group ∧
      group.isExclude = true ∧
      (self.processReport (before ++ record :: after) interface).timerAt group.groupTimer =
        { scheduled := true
          expiry := self.now + (mul100 self.groupMembershipInterval : Nat) } ∧
      (self.processReport (before ++ record :: after) interface).now = self.now := by
  obtain ⟨self1, hloop, hg1, ht1, hnow1, hgmi1, _⟩ :=
    processReport_loop self (before ++ record :: after) interface
  rw [hloop, List.foldl_append, List.foldl_cons]
  have hwf1 : self1.WF := WF_of_eq self self1 hg1 ht1 hwf
  have hwf2 := foldl_processRecord_WF interface before self1 hwf1
  obtain ⟨hnow2, hgmi2⟩ := foldl_processRecord_now interface before self1
  generalize before.foldl (IGMPRouter.processRecord interface) self1 = self2
    at hwf2 hnow2 hgmi2
  have hwf3 := createGroup_WF self2 interface record.multicastAddress hwf2
  obtain ⟨g3, hg3⟩ := createGroup_some self2 interface record.multicastAddress
  have hconf := updateGroup_establish _ interface record g3 hwf3 hg3 ht
  rw [← processRecord_valid interface self2 record hm hne] at hconf
  have hwf4 := processRecord_WF interface self2 record hwf2
  have hnow4 := (foldl_processRecord_now interface [record] self2)
  simp only [List.foldl_cons, List.foldl_nil] at hnow4
  generalize IGMPRouter.processRecord interface self2 record = self4
    at hconf hwf4 hnow4
  obtain ⟨_, hfinal⟩ :=
    foldl_processRecord_confirmed interface interface record.multicastAddress after self4
      hwf4 hconf
  obtain ⟨hnow5, hgmi5⟩ := foldl_processRecord_now interface after self4
  generalize after.foldl (IGMPRouter.processRecord interface) self4 = self5
    at hfinal hnow5 hgmi5
  obtain ⟨g, t, h1, h2, h3, h4⟩ := hfinal
  have hnow : self5.now = self.now := by
    rw [hnow5, hnow4.1, hnow2, hnow1]
  have hgmi : self5.groupMembershipInterval = self.groupMembershipInterval := by
    rw [hgmi5, hnow4.2, hgmi2, hgmi1]
  refine ⟨g, h1, h2, ?_, hnow⟩
  unfold IGMPRouter.timerAt
  rw [h3]
  simp only []
  rw [h4, hnow, hgmi]

/-- The router that has just started has no table entry, so its pointers are sound. -/
theorem sampleRouter_WF : sampleRouter.WF := by
  intro i a g hg
  simp [IGMPRouter.groups, sampleRouter] at hg

theorem C8_exclude_record_confirms_listener_witness :
    ∃ group,
      (sampleRouter.processReport
        ([sampleRecord CHANGE_TO_INCLUDE_MODE] ++ sampleRecord MODE_IS_EXCLUDE ::
          [sampleRecord MODE_IS_INCLUDE]) 1).groups 1 sampleGroup = some group ∧
      group.isExclude = true ∧
      (sampleRouter.processReport
        ([sampleRecord CHANGE_TO_INCLUDE_MODE] ++ sampleRecord MODE_IS_EXCLUDE ::
          [sampleRecord MODE_IS_INCLUDE]) 1).timerAt group.groupTimer =
        { scheduled := true, expiry := 260000 } := by
  obtain ⟨group, h1, h2, h3, _⟩ :=
    C8_exclude_record_confirms_listener sampleRouter 1 [sampleRecord CHANGE_TO_INCLUDE_MODE]
      [sampleRecord MODE_IS_INCLUDE] (sampleRecord MODE_IS_EXCLUDE) sampleRouter_WF
      (by decide) (by decide) (Or.inl rfl)
  exact ⟨group, h1, h2, by rw [h3]; rfl⟩

/-- C7 (the code departs from the claim): the probe sequence that `processReport` starts for a
group with `isExclude = true` on a `CHANGE_TO_INCLUDE` record has its counter initialised to
`lastMemberQueryCount = n` and its first firing immediate, but `handleSpecificResend`
decrements the counter before it tests it, so the sequence transmits `n - 1` Group-Specific
Queries, not `n`: none for `n = 1` (one firing), one for `n = 2` (two firings), and two,
`lastMemberQueryInterval` (1000 ms) apart, for `n = 3` (three firings); the timer is then no
longer scheduled. -/
theorem C7_probe_transmits_one_less :
    (probingRouter 2).groups 1 sampleGroup = some ⟨0, some 1, true⟩ ∧
    (probingRouter 2).timers[1]? =
      some ⟨⟨true, 5000⟩, Callback.handleSpecificResend 1 sampleGroup 2 true⟩ ∧
    (IGMPRouter.runTimer 1 10 (probingRouter 1) 0).map
      (fun r => (r.1.sent.map (fun q => (q.time, q.port, q.msg.groupAddress)), r.2,
        (r.1.timerAt 1).scheduled)) = some ([], 1, false) ∧
    (IGMPRouter.runTimer 1 10 (probingRouter 2) 0).map
      (fun r => (r.1.sent.map (fun q => (q.time, q.port, q.msg.groupAddress)), r.2,
        (r.1.timerAt 1).scheduled)) = some ([(5000, 1, sampleGroup)], 2, false) ∧
    (IGMPRouter.runTimer 1 10 (probingRouter 3) 0).map
      (fun r => (r.1.sent.map (fun q => (q.time, q.port, q.msg.groupAddress)), r.2,
        (r.1.timerAt 1).scheduled)) =
      some ([(5000, 1, sampleGroup), (6000, 1, sampleGroup)], 3, false) := by
  refine ⟨by decide, by decide, by decide, by decide, by decide⟩

/-! ### Pointer soundness is an invariant of the router -/

theorem groups_updateCallback (self : IGMPRouter) (id : Nat) (c : Callback) :
    (self.updateCallback id c).groups = self.groups := by
  unfold IGMPRouter.updateCallback
  split <;> rfl

theorem timers_updateCallback (self : IGMPRouter) (id : Nat) (c : Callback) (k : Nat) :
    (self.updateCallback id c).timers[k]? =
      (self.timers[k]?).map (fun t => if k = id then { t with callback := c } else t) := by
  unfold IGMPRouter.updateCallback
  split
  · rename_i t ht
    by_cases hk : k = id
    · subst hk
      simp [List.getElem?_set, ht]
      by_contra hlen
      have := List.getElem?_eq_none (Nat.le_of_not_lt hlen)
      rw [this] at ht
      cases ht
    · have hk2 : id ≠ k := fun h => hk h.symm
      simp only [List.getElem?_set_ne hk2, hk, if_false]
      cases self.timers[k]? <;> rfl
  · rename_i ht
    by_cases hk : k = id
    · subst hk
      simp [ht]
    · simp only [hk, if_false]
      cases self.timers[k]? <;> rfl

/-- Rewriting the counter and the `first` flag of a probe timer keeps the pointers sound. -/
theorem WF_updateCallback_probe (self : IGMPRouter) (id i a n n1 : Nat) (f f1 : Bool)
    (t : RouterTimer) (ht : self.timers[id]? = some t)
    (hc : t.callback = Callback.handleSpecificResend i a n f) (h : self.WF) :
    (self.updateCallback id (Callback.handleSpecificResend i a n1 f1)).WF := by
  intro j b g hg
  rw [groups_updateCallback] at hg
  obtain ⟨⟨t1, ht1, hc1⟩, h2⟩ := h j b g hg
  refine ⟨⟨_, by rw [timers_updateCallback, ht1]; rfl, ?_⟩, ?_⟩
  · by_cases hk : g.groupTimer = id
    · rw [hk, ht] at ht1
      cases ht1
      rw [hc] at hc1
      cases hc1
    · simp [hk, hc1]
  · intro id2 hid
    obtain ⟨t2, m, fl, ht2, hc2⟩ := h2 id2 hid
    by_cases hk : id2 = id
    · rw [hk, ht] at ht2
      cases ht2
      rw [hc] at hc2
      cases hc2
      exact ⟨_, n1, f1, by rw [timers_updateCallback, hk, ht]; rfl, by simp⟩
    · exact ⟨_, m, fl, by rw [timers_updateCallback, ht2]; rfl, by simp [hk, hc2]⟩

/-- Rewriting the counter of the general-query timer keeps the pointers sound. -/
theorem WF_updateCallback_general (self : IGMPRouter) (id count c1 : Nat) (t : RouterTimer)
    (ht : self.timers[id]? = some t) (hc : t.callback = Callback.handleGeneralResend count)
    (h : self.WF) : (self.updateCallback id (Callback.handleGeneralResend c1)).WF := by
  intro j b g hg
  rw [groups_updateCallback] at hg
  obtain ⟨⟨t1, ht1, hc1⟩, h2⟩ := h j b g hg
  refine ⟨⟨_, by rw [timers_updateCallback, ht1]; rfl, ?_⟩, ?_⟩
  · by_cases hk : g.groupTimer = id
    · rw [hk, ht] at ht1
      cases ht1
      rw [hc] at hc1
      cases hc1
    · simp [hk, hc1]
  · intro id2 hid
    obtain ⟨t2, m, fl, ht2, hc2⟩ := h2 id2 hid
    by_cases hk : id2 = id
    · rw [hk, ht] at ht2
      cases ht2
      rw [hc] at hc2
      cases hc2
    · exact ⟨_, m, fl, by rw [timers_updateCallback, ht2]; rfl, by simp [hk, hc2]⟩

theorem WF_groupExpire (self : IGMPRouter) (i a : Nat) (h : self.WF) :
    (self.groupExpire i a).WF := by
  intro j b g hg
  unfold IGMPRouter.groupExpire at hg
  rw [groups_setGroup] at hg
  by_cases hjb : j = i ∧ b = a
  · rw [if_pos hjb] at hg
    cases hg
  · rw [if_neg hjb] at hg
    exact h j b g hg

/-- Sending a Group-Specific Query changes nothing but the transmitted queries. -/
theorem sendGroupSpecificQuery_frame (self next : IGMPRouter) (i a : Nat)
    (h : self.sendGroupSpecificQuery i a = some next) :
    next = { self with sent := next.sent } := by
  unfold IGMPRouter.sendGroupSpecificQuery at h
  cases hi : self.interfaces i with
  | none =>
    rw [hi] at h
    cases h
    rfl
  | some network =>
    rw [hi] at h
    simp only [] at h
    cases hn : network a with
    | none =>
      rw [hn] at h
      cases h
      rfl
    | some group =>
      rw [hn] at h
      simp only [] at h
      split at h
      · cases h
      · cases h
        rfl

/-- Sending the General Queries changes nothing but the transmitted queries. -/
theorem sendGeneralQueries_frame (self next : IGMPRouter)
    (h : self.sendGeneralQueries = some next) : next = { self with sent := next.sent } := by
  unfold IGMPRouter.sendGeneralQueries at h
  split at h
  · cases h
  · cases h
    rfl

theorem WF_of_sent (self : IGMPRouter) (sent : List SentQuery) (h : self.WF) :
    IGMPRouter.WF { self with sent := sent } := h

theorem WF_processReport (self : IGMPRouter) (records : List GroupRecord) (i : Nat)
    (h : self.WF) : (self.processReport records i).WF := by
  obtain ⟨self1, hloop, hg1, ht1, _⟩ := processReport_loop self records i
  rw [hloop]
  exact foldl_processRecord_WF i records self1 (WF_of_eq self self1 hg1 ht1 h)

theorem WF_push (self : IGMPRouter) (input : Int) (packet : Packet) (h : self.WF) :
    (self.push input packet).WF := by
  unfold IGMPRouter.push
  simp only []
  split
  · exact h
  · split
    · exact h
    · split
      · exact h
      · split
        · exact h
        · exact WF_processReport _ _ _ h

theorem WF_handleSpecificResend (self next : IGMPRouter) (id : Nat) (h : self.WF)
    (hn : self.handleSpecificResend id = some next) : next.WF := by
  unfold IGMPRouter.handleSpecificResend at hn
  split at hn
  · rename_i tm i a n f ht
    simp only [] at hn
    have hwf1 := WF_updateCallback_probe self id i a n (sub32 n 1) f f _ ht rfl h
    have ht1 : (self.updateCallback id
        (Callback.handleSpecificResend i a (sub32 n 1) f)).timers[id]? =
        some ⟨tm, Callback.handleSpecificResend i a (sub32 n 1) f⟩ := by
      rw [timers_updateCallback, ht]
      simp
    generalize self.updateCallback id (Callback.handleSpecificResend i a (sub32 n 1) f) = self1
      at hn hwf1 ht1
    split at hn
    · cases hn
      exact hwf1
    · split at hn
      · cases hn
      · rename_i self2 hsend
        have hframe := sendGroupSpecificQuery_frame self1 self2 i a hsend
        have hwf2 : self2.WF := by
          rw [hframe]
          exact WF_of_sent self1 _ hwf1
        have ht2 : self2.timers[id]? =
            some ⟨tm, Callback.handleSpecificResend i a (sub32 n 1) f⟩ := by
          rw [hframe]
          exact ht1
        have hwf3 := WF_updateTimer self2 id
          (fun t => t.schedule_after_msec self2.now (mul100 self2.lastMemberQueryInterval)) hwf2
        have ht3 : ∃ tm3, (self2.updateTimer id
            (fun t => t.schedule_after_msec self2.now
              (mul100 self2.lastMemberQueryInterval))).timers[id]? =
            some ⟨tm3, Callback.handleSpecificResend i a (sub32 n 1) f⟩ := by
          refine ⟨tm.schedule_after_msec self2.now (mul100 self2.lastMemberQueryInterval), ?_⟩
          rw [timers_updateTimer, ht2]
          simp
        generalize self2.updateTimer id
          (fun t => t.schedule_after_msec self2.now (mul100 self2.lastMemberQueryInterval)) =
          self3 at hn hwf3 ht3
        obtain ⟨tm3, ht3⟩ := ht3
        split at hn
        · split at hn
          · cases hn
            exact hwf3
          · split at hn
            · cases hn
              exact hwf3
            · rename_i network hnet group hgroup
              cases hn
              have hwf4 := WF_updateTimer self3 group.groupTimer
                (fun t => t.schedule_after_msec self3.now (mul100 self3.lastMemberQueryTime))
                hwf3
              have ht4 : ∃ tm4, (self3.updateTimer group.groupTimer
                  (fun t => t.schedule_after_msec self3.now
                    (mul100 self3.lastMemberQueryTime))).timers[id]? =
                  some ⟨tm4, Callback.handleSpecificResend i a (sub32 n 1) f⟩ := by
                by_cases hk : id = group.groupTimer
                · refine ⟨tm3.schedule_after_msec self3.now (mul100 self3.lastMemberQueryTime),
                    ?_⟩
                  rw [timers_updateTimer, ht3]
                  simp [hk]
                · refine ⟨tm3, ?_⟩
                  rw [timers_updateTimer, ht3]
                  simp [hk]
              obtain ⟨tm4, ht4⟩ := ht4
              exact WF_updateCallback_probe _ id i a (sub32 n 1) (sub32 n 1) f false _ ht4 rfl
                hwf4
        · cases hn
          exact hwf3
  · cases hn
    exact h

theorem WF_handleGeneralResend (self next : IGMPRouter) (id : Nat) (h : self.WF)
    (hn : self.handleGeneralResend id = some next) : next.WF := by
  unfold IGMPRouter.handleGeneralResend at hn
  split at hn
  · rename_i tm count ht
    split at hn
    · cases hn
    · rename_i self1 hsend
      have hframe := sendGeneralQueries_frame self self1 hsend
      have hwf1 : self1.WF := by
        rw [hframe]
        exact WF_of_sent self _ h
      have ht1 : self1.timers[id]? = some ⟨tm, Callback.handleGeneralResend count⟩ := by
        rw [hframe]
        exact ht
      split at hn
      · cases hn
        exact WF_updateTimer _ _ _
          (WF_updateCallback_general self1 id count (count - 1) _ ht1 rfl hwf1)
      · cases hn
        exact WF_updateTimer _ _ _ hwf1
  · cases hn
    exact h

/-- Pointer soundness survives every timer firing. -/
theorem WF_fireTimer (self next : IGMPRouter) (id : Nat) (h : self.WF)
    (hn : self.fireTimer id = some next) : next.WF := by
  unfold IGMPRouter.fireTimer at hn
  split at hn
  · cases hn
  · rename_i t ht
    split at hn
    · have hwf0 : IGMPRouter.WF { self with now := max self.now t.timer.expiry } := h
      have hwf1 := WF_updateTimer _ id Timer.clear hwf0
      split at hn
      · cases hn
        exact WF_groupExpire _ _ _ hwf1
      · exact WF_handleSpecificResend _ next id hwf1 hn
      · exact WF_handleGeneralResend _ next id hwf1 hn
    · cases hn

/-! ### Query handling of the client -/

/-- An accepted query that finds a general report pending sooner than its delay only sets
`qrv`. -/
theorem push_busy (self : IGMPClient) (p : Packet) (d : Nat)
    (ha : hasRouterAlert p = true) (ht : (queryAt p.data 24).type = QUERY)
    (hc : click_in_cksum (readBytes p.data 24 12) = 0)
    (hs : self.generalTimer.scheduled = true)
    (hr : self.generalTimer.expiry - self.now < (d : Int)) :
    self.push p d =
      { self with qrv := if (queryAt p.data 24).resv_s_qrv &&& 0x7 ≠ 0
          then (queryAt p.data 24).resv_s_qrv &&& 0x7 else 2 } := by
  unfold IGMPClient.push
  simp [ha, ht, hc, hs, hr]

/-- An accepted Group-Specific Query for a group without report timer, no general report
pending sooner: the timer is created. -/
theorem push_group_new (self : IGMPClient) (p : Packet) (d : Nat)
    (ha : hasRouterAlert p = true) (ht : (queryAt p.data 24).type = QUERY)
    (hc : click_in_cksum (readBytes p.data 24 12) = 0)
    (hg : (queryAt p.data 24).groupAddress ≠ 0)
    (hfree : ¬ (self.generalTimer.scheduled = true ∧
      self.generalTimer.expiry - self.now < (d : Int)))
    (hnone : self.groupTimers (queryAt p.data 24).groupAddress = none) :
    self.push p d =
      { self with
        qrv := if (queryAt p.data 24).resv_s_qrv &&& 0x7 ≠ 0
          then (queryAt p.data 24).resv_s_qrv &&& 0x7 else 2
        groupTimers := setKey self.groupTimers (queryAt p.data 24).groupAddress
          (some { scheduled := true, expiry := self.now + (d : Int) }) } := by
  unfold IGMPClient.push
  simp [ha, ht, hc, hg, hnone, Timer.schedule_after_msec]
  intro h1 h2
  exact absurd ⟨h1, h2⟩ hfree

/-- An accepted Group-Specific Query for a group whose report timer is due later than the
delay, no general report pending sooner: the timer is rescheduled. -/
theorem push_group_sooner (self : IGMPClient) (p : Packet) (d : Nat) (t : Timer)
    (ha : hasRouterAlert p = true) (ht : (queryAt p.data 24).type = QUERY)
    (hc : click_in_cksum (readBytes p.data 24 12) = 0)
    (hg : (queryAt p.data 24).groupAddress ≠ 0)
    (hfree : ¬ (self.generalTimer.scheduled = true ∧
      self.generalTimer.expiry - self.now < (d : Int)))
    (hsome : self.groupTimers (queryAt p.data 24).groupAddress = some t)
    (hlate : t.expiry - self.now > (d : Int)) :
    self.push p d =
      { self with
        qrv := if (queryAt p.data 24).resv_s_qrv &&& 0x7 ≠ 0
          then (queryAt p.data 24).resv_s_qrv &&& 0x7 else 2
        groupTimers := setKey self.groupTimers (queryAt p.data 24).groupAddress
          (some { scheduled := true, expiry := self.now + (d : Int) }) } := by
  unfold IGMPClient.push
  simp [ha, ht, hc, hg, hsome, hlate, Timer.schedule_after_msec]
  intro h1 h2
  exact absurd ⟨h1, h2⟩ hfree

/-- An accepted Group-Specific Query for a group whose report timer is due no later than the
delay, no general report pending sooner: only `qrv` is set. -/
theorem push_group_keep (self : IGMPClient) (p : Packet) (d : Nat) (t : Timer)
    (ha : hasRouterAlert p = true) (ht : (queryAt p.data 24).type = QUERY)
    (hc : click_in_cksum (readBytes p.data 24 12) = 0)
    (hg : (queryAt p.data 24).groupAddress ≠ 0)
    (hsome : self.groupTimers (queryAt p.data 24).groupAddress = some t)
    (hearly : ¬ t.expiry - self.now > (d : Int)) :
    self.push p d =
      { self with qrv := if (queryAt p.data 24).resv_s_qrv &&& 0x7 ≠ 0
          then (queryAt p.data 24).resv_s_qrv &&& 0x7 else 2 } := by
  unfold IGMPClient.push
  simp [ha, ht, hc, hg, hsome, hearly]

/-- C11 (as stated, refuted): the sample client with a general report pending in 100 ms
accepts a Group-Specific Query for `sampleGroup` with delay 500 ms and creates no report timer
for the group. -/
theorem C11_counterexample :
    hasRouterAlert sampleGroupQueryPacket = true ∧
    (queryAt sampleGroupQueryPacket.data 24).type = QUERY ∧
    click_in_cksum (readBytes sampleGroupQueryPacket.data 24 12) = 0 ∧
    (queryAt sampleGroupQueryPacket.data 24).groupAddress = sampleGroup ∧
    busyClient.groupTimers sampleGroup = none ∧
    (busyClient.push sampleGroupQueryPacket 500).groupTimers sampleGroup = none := by
  refine ⟨by decide, by decide, by decide, by decide, by decide, by decide⟩

/-- C11 (amended): for every client state and every accepted Group-Specific Query for group
`G` (group address not 0) with computed delay `d`: when the general-report timer is scheduled
with remaining time below `d`, no timer is created or changed; otherwise, if no report timer
exists for `G` one is created and scheduled to fire after `d`, if one exists with remaining
time `r > d` it is rescheduled to `d`, and else it is left as it is, so that afterwards the
report timer of `G` has remaining time `min r d` (`d` if none existed).  In every case the
report timers of other groups, the general timer, the retransmission timers, the membership
and the transmitted reports are unchanged. -/
theorem C11_group_query_schedules_report (self : IGMPClient) (p : Packet) (d : Nat)
    (ha : hasRouterAlert p = true) (ht : (queryAt p.data 24).type = QUERY)
    (hc : click_in_cksum (readBytes p.data 24 12) = 0)
    (hg : (queryAt p.data 24).groupAddress ≠ 0) :
    (self.generalTimer.scheduled = true ∧ self.generalTimer.expiry - self.now < (d : Int) →
      (self.push p d).groupTimers = self.groupTimers) ∧
    (¬ (self.generalTimer.scheduled = true ∧ self.generalTimer.expiry - self.now < (d : Int)) →
      (self.groupTimers (queryAt p.data 24).groupAddress = none →
        (self.push p d).groupTimers (queryAt p.data 24).groupAddress =
          some { scheduled := true, expiry := self.now + (d : Int) }) ∧
      (∀ t, self.groupTimers (queryAt p.data 24).groupAddress = some t →
        t.expiry - self.now > (d : Int) →
        (self.push p d).groupTimers (queryAt p.data 24).groupAddress =
          some { scheduled := true, expiry := self.now + (d : Int) }) ∧
      (∀ t, self.groupTimers (queryAt p.data 24).groupAddress = some t →
        ¬ t.expiry - self.now > (d : Int) →
        (self.push p d).groupTimers (queryAt p.data 24).groupAddress = some t) ∧
      (∃ t1, (self.push p d).groupTimers (queryAt p.data 24).groupAddress = some t1 ∧
        t1.expiry - (self.push p d).now =
          (match self.groupTimers (queryAt p.data 24).groupAddress with
            | none => (d : Int)
            | some t => min (t.expiry - self.now) (d : Int)))) ∧
    (∀ B, B ≠ (queryAt p.data 24).groupAddress →
      (self.push p d).groupTimers B = self.groupTimers B) ∧
    (self.push p d).generalTimer = self.generalTimer ∧
    (self.push p d).changeTimers = self.changeTimers ∧
    (self.push p d).members = self.members ∧
    (self.push p d).sent = self.sent ∧
    (self.push p d).now = self.now := by
  by_cases hbusy : self.generalTimer.scheduled = true ∧
      self.generalTimer.expiry - self.now < (d : Int)
  · rw [push_busy self p d ha ht hc hbusy.1 hbusy.2]
    exact ⟨fun _ => rfl, fun h => absurd hbusy h, fun _ _ => rfl, rfl, rfl, rfl, rfl, rfl⟩
  · rcases Option.eq_none_or_eq_some (self.groupTimers (queryAt p.data 24).groupAddress) with
      hG | ⟨t, hG⟩
    · rw [push_group_new self p d ha ht hc hg hbusy hG]
      refine ⟨fun h => absurd h hbusy, fun _ => ⟨fun _ => setKey_same _ _ _, ?_, ?_, ?_⟩,
        fun B hB => setKey_other _ _ _ _ hB, rfl, rfl, rfl, rfl, rfl⟩
      · intro t h
        rw [hG] at h
        cases h
      · intro t h
        rw [hG] at h
        cases h
      · refine ⟨_, setKey_same _ _ _, ?_⟩
        rw [hG]
        simp
    · by_cases hlate : t.expiry - self.now > (d : Int)
      · rw [push_group_sooner self p d t ha ht hc hg hbusy hG hlate]
        refine ⟨fun h => absurd h hbusy, fun _ => ⟨fun _ => setKey_same _ _ _, ?_, ?_, ?_⟩,
          fun B hB => setKey_other _ _ _ _ hB, rfl, rfl, rfl, rfl, rfl⟩
        · intro t2 _ _
          exact setKey_same _ _ _
        · intro t2 h2 hn
          rw [hG] at h2
          cases h2
          exact absurd hlate hn
        · refine ⟨_, setKey_same _ _ _, ?_⟩
          rw [hG]
          simp only [add_sub_cancel_left]
          rw [min_eq_right (le_of_lt hlate)]
      · rw [push_group_keep self p d t ha ht hc hg hG hlate]
        refine ⟨fun h => absurd h hbusy, fun _ => ⟨fun h => ?_, ?_, ?_, ?_⟩,
          fun B _ => rfl, rfl, rfl, rfl, rfl, rfl⟩
        · rw [hG] at h
          cases h
        · intro t2 h2 hl
          rw [hG] at h2
          cases h2
          exact absurd hl hlate
        · intro t2 h2 _
          exact h2
        · refine ⟨t, hG, ?_⟩
          rw [hG]
          simp only []
          rw [min_eq_left (le_of_not_lt hlate)]

theorem C11_group_query_schedules_report_witness :
    (sampleClient.push sampleGroupQueryPacket 700).groupTimers sampleGroup =
      some { scheduled := true, expiry := 700 } :=
  ((C11_group_query_schedules_report sampleClient sampleGroupQueryPacket 700
    (by decide) (by decide) (by decide) (by decide)).2.1 (by decide)).1 (by decide)

/-- An accepted General Query with no general report pending sooner schedules the general
timer. -/
theorem push_general_free (self : IGMPClient) (p : Packet) (d : Nat)
    (ha : hasRouterAlert p = true) (ht : (queryAt p.data 24).type = QUERY)
    (hc : click_in_cksum (readBytes p.data 24 12) = 0)
    (hg : (queryAt p.data 24).groupAddress = 0)
    (hfree : ¬ (self.generalTimer.scheduled = true ∧
      self.generalTimer.expiry - self.now < (d : Int))) :
    self.push p d =
      { self with
        qrv := if (queryAt p.data 24).resv_s_qrv &&& 0x7 ≠ 0
          then (queryAt p.data 24).resv_s_qrv &&& 0x7 else 2
        generalTimer := { scheduled := true, expiry := self.now + (d : Int) } } := by
  unfold IGMPClient.push
  simp [ha, ht, hc, hg, Timer.schedule_after_msec]
  intro h1 h2
  exact absurd ⟨h1, h2⟩ hfree

/-- Whatever branch an accepted query takes, `qrv` is set from the low three bits of its flags
byte. -/
theorem push_accepted_qrv (self : IGMPClient) (p : Packet) (d : Nat)
    (ha : hasRouterAlert p = true) (ht : (queryAt p.data 24).type = QUERY)
    (hc : click_in_cksum (readBytes p.data 24 12) = 0) :
    (self.push p d).qrv =
      (if (queryAt p.data 24).resv_s_qrv &&& 0x7 ≠ 0
        then (queryAt p.data 24).resv_s_qrv &&& 0x7 else 2) := by
  by_cases hbusy : self.generalTimer.scheduled = true ∧
      self.generalTimer.expiry - self.now < (d : Int)
  · rw [push_busy self p d ha ht hc hbusy.1 hbusy.2]
  · by_cases hg : (queryAt p.data 24).groupAddress = 0
    · rw [push_general_free self p d ha ht hc hg hbusy]
    · rcases Option.eq_none_or_eq_some (self.groupTimers (queryAt p.data 24).groupAddress)
        with hG | ⟨t, hG⟩
      · rw [push_group_new self p d ha ht hc hg hbusy hG]
      · by_cases hlate : t.expiry - self.now > (d : Int)
        · rw [push_group_sooner self p d t ha ht hc hg hbusy hG hlate]
        · rw [push_group_keep self p d t ha ht hc hg hG hlate]

/-- C12: for every accepted Query with flags byte `b` (`resv_s_qrv`), whatever its group
address and delay, the client's `qrv` afterwards equals `b & 7` when that is non-zero and 2
when it is zero; `b & 7 = b mod 8` does not depend on the reserved and S bits, and `qrv` is in
1..7. -/
theorem C12_qrv_from_query (self : IGMPClient) (p : Packet) (d : Nat)
    (ha : hasRouterAlert p = true) (ht : (queryAt p.data 24).type = QUERY)
    (hc : click_in_cksum (readBytes p.data 24 12) = 0) :
    (self.push p d).qrv =
      (if (queryAt p.data 24).resv_s_qrv &&& 0x7 ≠ 0
        then (queryAt p.data 24).resv_s_qrv &&& 0x7 else 2) ∧
    (queryAt p.data 24).resv_s_qrv &&& 0x7 = (queryAt p.data 24).resv_s_qrv % 8 ∧
    1 ≤ (self.push p d).qrv ∧ (self.push p d).qrv ≤ 7 := by
  have hmod : (queryAt p.data 24).resv_s_qrv &&& 0x7 = (queryAt p.data 24).resv_s_qrv % 8 :=
    Nat.and_pow_two_sub_one_eq_mod _ 3
  have hq := push_accepted_qrv self p d ha ht hc
  refine ⟨hq, hmod, ?_, ?_⟩
  · rw [hq, hmod]
    split <;> omega
  · rw [hq, hmod]
    split <;> omega

theorem C12_qrv_from_query_witness :
    (sampleClient.push sampleGroupQueryPacket 700).qrv = 2 := by
  have h := (C12_qrv_from_query sampleClient sampleGroupQueryPacket 700
    (by decide) (by decide) (by decide)).1
  rw [h]
  decide

/-- C13: a frame that fails validation has no side effects.  When the Router-Alert test
fails, or the checksum the handler computes is not 0, or the type tag is not the expected one
(`REPORT` for the router, `QUERY` for the client, each read where the handler reads it), the
push handler returns the element state unchanged: tables, timers, `qrv`, clock and transmitted
messages are all as before. -/
theorem C13_invalid_frame_dropped (router : IGMPRouter) (client : IGMPClient) (input : Int)
    (packet : Packet) (delay : Nat) :
    ((hasRouterAlert packet = false ∨
        click_in_cksum (readBytes packet.data packet.ip_header_length
          (8 + (reportAt packet.data packet.ip_header_length).NumGroupRecords * 8)) ≠ 0 ∨
        (reportAt packet.data packet.ip_header_length).type ≠ REPORT) →
      router.push input packet = router) ∧
    ((hasRouterAlert packet = false ∨
        click_in_cksum (readBytes packet.data 24 12) ≠ 0 ∨
        (queryAt packet.data 24).type ≠ QUERY) →
      client.push packet delay = client) := by
  constructor
  · intro h
    unfold IGMPRouter.push
    rcases h with h | h | h <;> simp [h]
  · intro h
    unfold IGMPClient.push
    rcases h with h | h | h <;> simp [h]

theorem C13_invalid_frame_dropped_witness :
    sampleRouter.push 1 sampleGroupQueryPacket = sampleRouter ∧
      sampleClient.push { sampleGroupQueryPacket with ip_header_length := 20 } 700 =
        sampleClient :=
  ⟨(C13_invalid_frame_dropped sampleRouter sampleClient 1 sampleGroupQueryPacket 700).1
      (Or.inr (Or.inr (by decide))),
    (C13_invalid_frame_dropped sampleRouter sampleClient 1
      { sampleGroupQueryPacket with ip_header_length := 20 } 700).2 (Or.inl (by decide))⟩

/-! ### Report timers of the client -/

/-- C14: when the general-report timer fires, the timer is left unscheduled and the membership
(like every other timer and `qrv`) is unchanged; if the membership set is empty nothing is
transmitted; otherwise (the packet being allocated) exactly one Report is transmitted, which
carries one record per joined address, in order, none repeated or omitted: as many records as
joined addresses (the 16-bit count field holds that number modulo `2^16`), each of type
`IS_EXCLUDE` (2) with zero source count and zero auxiliary length. -/
theorem C14_general_report_fires (self : IGMPClient) (alloc : Bool) :
    (self.handleGeneralReport alloc).generalTimer.scheduled = false ∧
    (self.handleGeneralReport alloc).members = self.members ∧
    (self.handleGeneralReport alloc).groupTimers = self.groupTimers ∧
    (self.handleGeneralReport alloc).changeTimers = self.changeTimers ∧
    (self.handleGeneralReport alloc).qrv = self.qrv ∧
    (self.members = [] → (self.handleGeneralReport alloc).sent = self.sent) ∧
    (self.members ≠ [] →
      (self.handleGeneralReport true).sent = self.sent ++
        [({ time := self.now
            header := IGMPClient.buildReport
              (self.members.map (fun a => IGMPClient.mkRecord MODE_IS_EXCLUDE a))
            records := self.members.map (fun a => IGMPClient.mkRecord MODE_IS_EXCLUDE a) } :
          SentReport)]) ∧
    (self.members.map (fun a => IGMPClient.mkRecord MODE_IS_EXCLUDE a)).length =
      self.members.length ∧
    (self.members.map (fun a => IGMPClient.mkRecord MODE_IS_EXCLUDE a)).map
      (fun r => r.multicastAddress) = self.members.map (fun a => a % 4294967296) ∧
    (∀ r ∈ self.members.map (fun a => IGMPClient.mkRecord MODE_IS_EXCLUDE a),
      r.recordType = 2 ∧ r.numSources = 0 ∧ r.auxDataLen = 0) ∧
    (IGMPClient.buildReport
      (self.members.map (fun a => IGMPClient.mkRecord MODE_IS_EXCLUDE a))).type = REPORT ∧
    (IGMPClient.buildReport
      (self.members.map (fun a => IGMPClient.mkRecord MODE_IS_EXCLUDE a))).NumGroupRecords =
        self.members.length % 65536 := by
  have hframe : (self.handleGeneralReport alloc).generalTimer.scheduled = false ∧
      (self.handleGeneralReport alloc).members = self.members ∧
      (self.handleGeneralReport alloc).groupTimers = self.groupTimers ∧
      (self.handleGeneralReport alloc).changeTimers = self.changeTimers ∧
      (self.handleGeneralReport alloc).qrv = self.qrv := by
    unfold IGMPClient.handleGeneralReport
    simp only []
    split
    · exact ⟨rfl, rfl, rfl, rfl, rfl⟩
    · split <;> exact ⟨rfl, rfl, rfl, rfl, rfl⟩
  obtain ⟨h1, h2, h3, h4, h5⟩ := hframe
  refine ⟨h1, h2, h3, h4, h5, ?_, ?_, by simp, ?_, ?_, rfl, ?_⟩
  · intro h
    simp [IGMPClient.handleGeneralReport, h]
  · intro h
    have he : self.members.isEmpty = false := by
      cases hm : self.members with
      | nil => exact absurd hm h
      | cons a l => rfl
    simp [IGMPClient.handleGeneralReport, he]
  · simp [IGMPClient.mkRecord]
  · intro r hr
    simp only [List.mem_map] at hr
    obtain ⟨a, _, rfl⟩ := hr
    exact ⟨rfl, rfl, rfl⟩
  · simp [IGMPClient.buildReport]

theorem C14_general_report_fires_witness :
    (joinedClient.handleGeneralReport true).sent.map (fun m => m.records) =
      [[{ recordType := 2, auxDataLen := 0, numSources := 0, multicastAddress := sampleGroup },
        { recordType := 2, auxDataLen := 0, numSources := 0,
          multicastAddress := otherGroup }]] := by
  rw [(C14_general_report_fires joinedClient true).2.2.2.2.2.2.1 (by decide)]
  decide

/-- C15: when the report timer of group address `A` fires, the entry of `A` is removed from the
group-timer map in every case, the timers of other groups, the general timer, the
retransmission timers and the membership are unchanged; nothing is transmitted if `A` is not
a member or `A = 224.0.0.1`; otherwise (the packet being allocated) exactly one Report is
transmitted, with exactly one record, of type `IS_EXCLUDE` for address `A` without sources. -/
theorem C15_group_report_fires (self : IGMPClient) (alloc : Bool) (A : Nat) :
    (self.handleGroupReport alloc A).groupTimers A = none ∧
    (∀ B, B ≠ A → (self.handleGroupReport alloc A).groupTimers B = self.groupTimers B) ∧
    (self.handleGroupReport alloc A).members = self.members ∧
    (self.handleGroupReport alloc A).generalTimer = self.generalTimer ∧
    (self.handleGroupReport alloc A).changeTimers = self.changeTimers ∧
    (A ∉ self.members ∨ A = ALL_SYSTEMS →
      (self.handleGroupReport alloc A).sent = self.sent) ∧
    (A ∈ self.members → A ≠ ALL_SYSTEMS →
      (self.handleGroupReport true A).sent = self.sent ++
        [({ time := self.now
            header := IGMPClient.buildReport [IGMPClient.mkRecord MODE_IS_EXCLUDE A]
            records := [IGMPClient.mkRecord MODE_IS_EXCLUDE A] } : SentReport)]) ∧
    IGMPClient.mkRecord MODE_IS_EXCLUDE A =
      { recordType := 2, auxDataLen := 0, numSources := 0,
        multicastAddress := A % 4294967296 } ∧
    (IGMPClient.buildReport [IGMPClient.mkRecord MODE_IS_EXCLUDE A]).NumGroupRecords = 1 := by
  have hframe : ∀ al : Bool,
      (self.handleGroupReport al A).groupTimers = setKey self.groupTimers A none ∧
      (self.handleGroupReport al A).members = self.members ∧
      (self.handleGroupReport al A).generalTimer = self.generalTimer ∧
      (self.handleGroupReport al A).changeTimers = self.changeTimers := by
    intro al
    unfold IGMPClient.handleGroupReport
    simp only []
    split
    · exact ⟨rfl, rfl, rfl, rfl⟩
    · split <;> exact ⟨rfl, rfl, rfl, rfl⟩
  obtain ⟨h1, h2, h3, h4⟩ := hframe alloc
  refine ⟨by rw [h1]; exact setKey_same _ _ _,
    fun B hB => by rw [h1]; exact setKey_other _ _ _ _ hB, h2, h3, h4, ?_, ?_, rfl, rfl⟩
  · intro h
    unfold IGMPClient.handleGroupReport
    rcases h with h | h <;> simp [h]
  · intro hm hne
    simp [IGMPClient.handleGroupReport, hm, hne]

theorem C15_group_report_fires_witness :
    (joinedClient.handleGroupReport true sampleGroup).sent.map (fun m => m.records) =
      [[{ recordType := 2, auxDataLen := 0, numSources := 0,
          multicastAddress := sampleGroup }]] ∧
    (joinedClient.handleGroupReport true ALL_SYSTEMS).sent = [] := by
  have h := C15_group_report_fires joinedClient true
  refine ⟨?_, ?_⟩
  · rw [(h sampleGroup).2.2.2.2.2.2.1 (by decide) (by decide)]
    decide
  · rw [(h ALL_SYSTEMS).2.2.2.2.2.1 (Or.inr rfl)]
    rfl

/-! ### Group expiry and refresh in the router -/

theorem sent_updateTimer (self : IGMPRouter) (id : Nat) (f : Timer → Timer) :
    (self.updateTimer id f).sent = self.sent := by
  unfold IGMPRouter.updateTimer
  split <;> rfl

/-- C16: `groupExpire` for `(interface, address)` leaves no entry for that address in the
table of the interface, whatever the entry was (flag true or false), and changes no other
entry of that table or of any other interface; the same holds when the scheduler fires a
scheduled timer whose callback is `groupExpire` for `(interface, address)`, which also
transmits nothing. -/
theorem C16_group_expiry_deletes_entry (self : IGMPRouter) (id interface address : Nat)
    (t : RouterTimer) (ht : self.timers[id]? = some t) (hs : t.timer.scheduled = true)
    (hc : t.callback = Callback.groupExpire interface address) :
    ((self.groupExpire interface address).groups interface address = none ∧
      ∀ j b, ¬ (j = interface ∧ b = address) →
        (self.groupExpire interface address).groups j b = self.groups j b) ∧
    ∃ next, self.fireTimer id = some next ∧
      next.groups interface address = none ∧
      (∀ j b, ¬ (j = interface ∧ b = address) → next.groups j b = self.groups j b) ∧
      next.sent = self.sent := by
  have hexp : ∀ r : IGMPRouter,
      (r.groupExpire interface address).groups interface address = none ∧
      ∀ j b, ¬ (j = interface ∧ b = address) →
        (r.groupExpire interface address).groups j b = r.groups j b := by
    intro r
    unfold IGMPRouter.groupExpire
    refine ⟨by rw [groups_setGroup, if_pos ⟨rfl, rfl⟩], fun j b hjb => ?_⟩
    rw [groups_setGroup, if_neg hjb]
  refine ⟨hexp self, ?_⟩
  have hfire : self.fireTimer id = some
      (({ self with now := max self.now t.timer.expiry }.updateTimer id Timer.clear).groupExpire
        interface address) := by
    unfold IGMPRouter.fireTimer
    rw [ht]
    simp only [hs, if_true, hc]
  refine ⟨_, hfire, (hexp _).1, fun j b hjb => ?_, ?_⟩
  · rw [(hexp _).2 j b hjb, groups_updateTimer]
    rfl
  · unfold IGMPRouter.groupExpire IGMPRouter.setGroup
    exact sent_updateTimer _ _ _

theorem C16_group_expiry_deletes_entry_witness :
    ∃ next, (probingRouter 2).fireTimer 0 = some next ∧
      next.groups 1 sampleGroup = none :=
  have h := (C16_group_expiry_deletes_entry (probingRouter 2) 0 1 sampleGroup
    ⟨⟨true, 260000⟩, Callback.groupExpire 1 sampleGroup⟩ (by decide) rfl rfl).2
  match h with
  | ⟨next, h1, h2, _⟩ => ⟨next, h1, h2⟩

/-- C17 (as stated, refuted): the sample group is probing (flag true, send timer 1 scheduled,
one query sent); after an `IS_EXCLUDE` record for it the entry still has its send timer and
that timer is still scheduled, and the probe sequence then sends a further Group-Specific
Query (at 6000 ms, suppress flag set). -/
theorem C17_counterexample :
    (IGMPRouter.fireTimer (probingRouter 3) 1).map
      (fun r => (r.groups 1 sampleGroup, r.timerAt 1, r.sent.length)) =
      some (some ⟨0, some 1, true⟩, ⟨true, 6000⟩, 1) ∧
    refreshedProbe.map
      (fun r => (r.groups 1 sampleGroup, r.timerAt 0, r.timerAt 1, r.sent.length)) =
      some (some ⟨0, some 1, true⟩, ⟨true, 265500⟩, ⟨true, 6000⟩, 1) ∧
    (refreshedProbe.bind (fun r => IGMPRouter.runTimer 1 10 r 0)).map
      (fun x => x.1.sent.map (fun q => (q.time, q.port, q.msg.groupAddress, q.msg.resv_s_qrv))) =
      some [(5000, 1, sampleGroup, 10), (6000, 1, sampleGroup, 10)] := by
  refine ⟨by decide, by decide, by decide⟩

theorem timerAt_of_get (self : IGMPRouter) (id : Nat) (t : RouterTimer)
    (h : self.timers[id]? = some t) : self.timerAt id = t.timer := by
  unfold IGMPRouter.timerAt
  rw [h]

/-- The probing sample router has sound pointers. -/
theorem probingRouter_WF (n : Nat) : (probingRouter n).WF := by
  have h0 : IGMPRouter.WF { sampleRouter with lastMemberQueryCount := n } := sampleRouter_WF
  have h1 := WF_processReport _ [sampleRecord MODE_IS_EXCLUDE] 1 h0
  have h2 : IGMPRouter.WF
      { IGMPRouter.processReport { sampleRouter with lastMemberQueryCount := n }
          [sampleRecord MODE_IS_EXCLUDE] 1 with now := 5000 } := h1
  exact WF_processReport _ [sampleRecord CHANGE_TO_INCLUDE_MODE] 1 h2

/-- Processing a one-record report for an existing entry is the branch on the record type. -/
theorem processReport_single (self : IGMPRouter) (i : Nat) (r : GroupRecord) (g : GroupData)
    (hm : is_multicast r.multicastAddress = true) (hne : r.multicastAddress ≠ ALL_SYSTEMS)
    (hg : self.groups i r.multicastAddress = some g) :
    self.processReport [r] i = self.updateGroup i r := by
  have hi : ∃ tbl, self.interfaces i = some tbl := by
    cases h : self.interfaces i with
    | some tbl => exact ⟨tbl, rfl⟩
    | none =>
      unfold IGMPRouter.groups at hg
      rw [h] at hg
      cases hg
  obtain ⟨tbl, hi⟩ := hi
  unfold IGMPRouter.processReport
  rw [hi]
  simp only [List.foldl_cons, List.foldl_nil]
  rw [processRecord_valid i self r hm hne, createGroup_old self i _ g hg]

/-- C17 (amended): for a group in the probing state (flag true, a send timer set), processing
a record of type `IS_EXCLUDE` or `CHANGE_TO_EXCLUDE` for it leaves the flag true and resets
the expiry timer to `groupMembershipInterval`; the send timer is not cancelled: the entry
keeps it and the timer object (schedule, counter, flag of the first firing) is untouched, so
the running probe sequence goes on.  Nothing is transmitted by the processing itself. -/
theorem C17_exclude_record_keeps_probe (self : IGMPRouter) (interface id : Nat)
    (record : GroupRecord) (group : GroupData) (hwf : self.WF)
    (hm : is_multicast record.multicastAddress = true)
    (hne : record.multicastAddress ≠ ALL_SYSTEMS)
    (ht : record.recordType = MODE_IS_EXCLUDE ∨ record.recordType = CHANGE_TO_EXCLUDE_MODE)
    (hg : self.groups interface record.multicastAddress = some group)
    (he : group.isExclude = true) (hs : group.sendTimer = some id) :
    (self.processReport [record] interface).groups interface record.multicastAddress =
      some group ∧
    (self.processReport [record] interface).timerAt group.groupTimer =
      { scheduled := true, expiry := self.now + (mul100 self.groupMembershipInterval : Nat) } ∧
    (self.processReport [record] interface).timers[id]? = self.timers[id]? ∧
    (self.processReport [record] interface).sent = self.sent ∧
    (self.processReport [record] interface).now = self.now := by
  obtain ⟨⟨t0, ht0, hc0⟩, hsend⟩ := hwf interface record.multicastAddress group hg
  obtain ⟨t1, n, f, ht1, hc1⟩ := hsend id hs
  have hid : id ≠ group.groupTimer := by
    intro heq
    rw [heq, ht0] at ht1
    cases ht1
    rw [hc0] at hc1
    cases hc1
  have hsame : ({ group with isExclude := true } : GroupData) = group := by
    cases group
    simp only [GroupData.mk.injEq, true_and]
    exact he.symm
  rw [processReport_single self interface record group hm hne hg,
    updateGroup_exclude self interface record group hg ht, hsame]
  refine ⟨?_, ?_, ?_, ?_, ?_⟩
  · rw [groups_updateTimer, groups_setGroup, if_pos ⟨rfl, rfl⟩]
  · refine timerAt_of_get _ _
      ⟨t0.timer.schedule_after_msec self.now (mul100 self.groupMembershipInterval),
        t0.callback⟩ ?_
    rw [timers_updateTimer]
    show (self.timers[group.groupTimer]?).map _ = _
    rw [ht0]
    simp
  · rw [timers_updateTimer]
    show (self.timers[id]?).map _ = _
    rw [ht1]
    simp [hid]
  · rw [sent_updateTimer]
    rfl
  · rw [(now_updateTimer _ _ _).1]
    rfl

theorem C17_exclude_record_keeps_probe_witness :
    ((probingRouter 2).processReport [sampleRecord MODE_IS_EXCLUDE] 1).timers[1]? =
      some ⟨⟨true, 5000⟩, Callback.handleSpecificResend 1 sampleGroup 2 true⟩ := by
  rw [(C17_exclude_record_keeps_probe (probingRouter 2) 1 1 (sampleRecord MODE_IS_EXCLUDE)
    ⟨0, some 1, true⟩ (probingRouter_WF 2) (by decide) (by decide) (Or.inl rfl) (by decide)
    rfl rfl).2.2.1]
  decide

/-- C18 (the code departs from the claim): `groupExpire` erases the entry without cancelling
its send timer.  In `overdueProbe` the expiry timer of the group (timer 0) is due when a
`CHANGE_TO_INCLUDE` report starts a probe (timer 1); the expiry timer fires first and deletes
the entry, and the probe timer is still scheduled.  After a new `IS_EXCLUDE` report has
re-created the entry (expiry timer 2, due at 520001 ms), the old probe timer fires, sends a
Group-Specific Query for the group and shortens the expiry of the new entry to 262001 ms. -/
theorem C18_expired_entry_leaves_probe_scheduled :
    (overdueProbe.groups 1 sampleGroup, overdueProbe.timerAt 0, overdueProbe.timerAt 1) =
      (some ⟨0, some 1, true⟩, ⟨true, 260000⟩, ⟨true, 260001⟩) ∧
    expiredProbe.map (fun r => (r.groups 1 sampleGroup, r.timerAt 1, r.sent.length)) =
      some (none, ⟨true, 260001⟩, 0) ∧
    recreatedGroup.map (fun r => (r.groups 1 sampleGroup, r.timerAt 1, r.timerAt 2)) =
      some (some ⟨2, none, true⟩, ⟨true, 260001⟩, ⟨true, 520001⟩) ∧
    (recreatedGroup.bind (fun r => IGMPRouter.fireTimer r 1)).map
      (fun r => (r.groups 1 sampleGroup, r.timerAt 2,
        r.sent.map (fun q => (q.time, q.port, q.msg.groupAddress)))) =
      some (some ⟨2, none, true⟩, ⟨true, 262001⟩, [(260001, 1, sampleGroup)]) := by
  refine ⟨by decide, by decide, by decide, by decide⟩

/-- C19 (the code departs from the claim): with `lastMemberQueryCount = 1` the first firing of
the probe sequence decrements the counter to 0 and returns before the block of the first
firing, so the expiry timer of the group (timer 0) stays at 260000 ms instead of being
scheduled `lastMemberQueryTime` (2000 ms) after the firing at 5000 ms.  With
`lastMemberQueryCount = 2` and `3` the first firing does schedule it at 7000 ms, and the second
firing leaves it there. -/
theorem C19_first_firing_skips_shortening :
    ((probingRouter 1).groups 1 sampleGroup, (probingRouter 1).timerAt 0,
        (probingRouter 1).timers[1]?) =
      (some ⟨0, some 1, true⟩, ⟨true, 260000⟩,
        some ⟨⟨true, 5000⟩, Callback.handleSpecificResend 1 sampleGroup 1 true⟩) ∧
    (IGMPRouter.fireTimer (probingRouter 1) 1).map
      (fun r => (r.groups 1 sampleGroup, r.now, r.timerAt 0, r.timerAt 1)) =
      some (some ⟨0, some 1, true⟩, 5000, ⟨true, 260000⟩, ⟨false, 5000⟩) ∧
    (IGMPRouter.fireTimer (probingRouter 2) 1).map (fun r => (r.now, r.timerAt 0)) =
      some (5000, ⟨true, 7000⟩) ∧
    (IGMPRouter.fireTimer (probingRouter 3) 1).map (fun r => (r.now, r.timerAt 0)) =
      some (5000, ⟨true, 7000⟩) ∧
    ((IGMPRouter.fireTimer (probingRouter 3) 1).bind (fun r => IGMPRouter.fireTimer r 1)).map
      (fun r => (r.now, r.timerAt 0)) = some (6000, ⟨true, 7000⟩) := by
  refine ⟨by decide, by decide, by decide, by decide, by decide⟩

/-- The table entry of `(interface, address)`, in terms of the two maps. -/
theorem groups_eq_some (self : IGMPRouter) (i a : Nat) (g : GroupData) :
    self.groups i a = some g ↔
      ∃ network, self.interfaces i = some network ∧ network a = some g := by
  unfold IGMPRouter.groups
  cases h : self.interfaces i with
  | none => simp
  | some network => simp

/-- The flags byte `(s << 3) + min(robustness, 7)` for `s` 0 or 1. -/
theorem flags_byte (s r : Nat) (hs : s ≤ 1) (hr : r ≤ 7) :
    ((s <<< 3) + r) % 256 = 8 * s + r ∧ (8 * s + r) &&& 7 = r ∧
      ((8 * s + r) >>> 3) &&& 1 = s ∧ (8 * s + r) >>> 4 = 0 := by
  interval_cases s <;> interval_cases r <;> decide

/-- C20: for every router configuration and every existing group `(interface, address)`,
`sendGroupSpecificQuery` pushes on the output of the interface one query, which has type
0x11, Max Resp Code `U32toU8(lastMemberQueryInterval)`, group address `address`, QQIC
`U32toU8(queryInterval)`, source count 0 and flags byte `8 * s + min(robustness, 7)`, where
`s = 1` exactly when the remaining expiry time of the group exceeds `lastMemberQueryTime`
(`* 100` ms): the low three bits are the robustness clamped to 7, bit 3 is `s`, and the high
bits are 0.  If the interface or the group does not exist nothing is sent. -/
theorem C20_group_specific_query_fields (self : IGMPRouter) (interface address : Nat) :
    (∀ group, self.groups interface address = some group →
      ∃ (msg : QueryMessage) (maxRespCode qqic s : Nat),
        U32toU8 self.lastMemberQueryInterval = some maxRespCode ∧
        U32toU8 self.queryInterval = some qqic ∧
        s = (if (self.timerAt group.groupTimer).expiry - self.now >
          ((mul100 self.lastMemberQueryTime : Nat) : Int) then 1 else 0) ∧
        self.sendGroupSpecificQuery interface address =
          some { self with
            sent := self.sent ++ [{ time := self.now, port := interface, msg := msg }] } ∧
        msg.type = 0x11 ∧ msg.maxRespCode = maxRespCode ∧
        msg.groupAddress = address % 4294967296 ∧ msg.qqic = qqic ∧ msg.numSources = 0 ∧
        msg.resv_s_qrv = 8 * s + min self.robustness 7 ∧
        msg.resv_s_qrv &&& 7 = min self.robustness 7 ∧
        (msg.resv_s_qrv >>> 3) &&& 1 = s ∧ msg.resv_s_qrv >>> 4 = 0) ∧
    (self.groups interface address = none →
      self.sendGroupSpecificQuery interface address = some self) := by
  constructor
  · intro group hg
    obtain ⟨network, hi, hn⟩ := (groups_eq_some self interface address group).1 hg
    obtain ⟨b1, h1, _⟩ := U32toU8_total self.lastMemberQueryInterval
    obtain ⟨b2, h2, _⟩ := U32toU8_total self.queryInterval
    have hs : (if (self.timerAt group.groupTimer).expiry - self.now >
        ((mul100 self.lastMemberQueryTime : Nat) : Int) then 1 else 0) ≤ 1 := by
      split <;> omega
    generalize hsdef : (if (self.timerAt group.groupTimer).expiry - self.now >
        ((mul100 self.lastMemberQueryTime : Nat) : Int) then 1 else 0) = s at hs
    have hr : min self.robustness 7 ≤ 7 := Nat.min_le_right _ _
    obtain ⟨f1, f2, f3, f4⟩ := flags_byte s (min self.robustness 7) hs hr
    have hq : self.groupSpecificQuery s address = some
        { (⟨QUERY, b1, 0, address % 4294967296, ((s <<< 3) + min self.robustness 7) % 256, b2,
            0⟩ : QueryMessage) with
          checksum := click_in_cksum (readBytes
            (⟨QUERY, b1, 0, address % 4294967296, ((s <<< 3) + min self.robustness 7) % 256,
              b2, 0⟩ : QueryMessage).bytes 0 12) } := by
      simp only [IGMPRouter.groupSpecificQuery, h1, h2]
    refine ⟨{ (⟨QUERY, b1, 0, address % 4294967296, ((s <<< 3) + min self.robustness 7) % 256,
        b2, 0⟩ : QueryMessage) with
        checksum := click_in_cksum (readBytes
          (⟨QUERY, b1, 0, address % 4294967296, ((s <<< 3) + min self.robustness 7) % 256,
            b2, 0⟩ : QueryMessage).bytes 0 12) },
      b1, b2, s, h1, h2, rfl, ?_, rfl, rfl, rfl, rfl, rfl, f1, ?_, ?_, ?_⟩
    · unfold IGMPRouter.sendGroupSpecificQuery
      rw [hi]
      simp only []
      rw [hn]
      simp only []
      rw [hsdef, hq]
    · show (((s <<< 3) + min self.robustness 7) % 256) &&& 7 = min self.robustness 7
      rw [f1]; exact f2
    · show ((((s <<< 3) + min self.robustness 7) % 256) >>> 3) &&& 1 = s
      rw [f1]; exact f3
    · show (((s <<< 3) + min self.robustness 7) % 256) >>> 4 = 0
      rw [f1]; exact f4
  · intro hnone
    unfold IGMPRouter.sendGroupSpecificQuery
    cases hi : self.interfaces interface with
    | none => rfl
    | some network =>
      simp only []
      have hn : network address = none := by
        unfold IGMPRouter.groups at hnone
        rw [hi] at hnone
        exact hnone
      rw [hn]

theorem C20_group_specific_query_fields_witness :
    ∃ msg : QueryMessage,
      (probingRouter 2).sendGroupSpecificQuery 1 sampleGroup =
        some { probingRouter 2 with
          sent := (probingRouter 2).sent ++ [{ time := 5000, port := 1, msg := msg }] } ∧
      msg.type = 17 ∧ msg.groupAddress = sampleGroup ∧ msg.resv_s_qrv = 10 := by
  obtain ⟨msg, b1, b2, s, _, _, hs, hsend, e1, _, e3, _, _, e6, _⟩ :=
    (C20_group_specific_query_fields (probingRouter 2) 1 sampleGroup).1 ⟨0, some 1, true⟩
      (by decide)
  have hs1 : s = 1 := by rw [hs]; decide
  refine ⟨msg, hsend, e1, ?_, ?_⟩
  · rw [e3]; decide
  · rw [e6, hs1]; decide

/-! ### Rounding and canonical bytes of the codec -/

/-- A value on the floating range is at least `2 ^ k` after its bits below the five leading
ones are cleared. -/
theorem truncated_ge_pow (x k : Nat) (hk4 : 4 ≤ k) (hlo : 2 ^ k ≤ x) :
    2 ^ k ≤ x / 2 ^ (k - 4) * 2 ^ (k - 4) := by
  have hpos : 0 < 2 ^ (k - 4) := Nat.pos_pow_of_pos _ (by decide)
  have h2 : 2 ^ k = 16 * 2 ^ (k - 4) := by
    have : k = 4 + (k - 4) := by omega
    conv_lhs => rw [this, pow_add]
    norm_num
  have hm16 : 16 ≤ x / 2 ^ (k - 4) := by
    rw [Nat.le_div_iff_mul_le hpos]
    omega
  rw [h2]
  exact Nat.mul_le_mul_right _ hm16

/-- C24: rounding direction of the encoder.  For every `x` with `128 ≤ x ≤ 31744`, with `k` the
index of the highest set bit of `x` (`7 ≤ k ≤ 14`), the encoder returns a byte `b` whose
decoding is `x` with the bits below its five leading bits cleared; so it is at most `x`, the
difference is below `2 ^ (k - 4)`, and it is the largest value at most `x` that any byte
decodes to. -/
theorem C24_encoder_rounds_down (x : Nat) (h128 : 128 ≤ x) (hx : x ≤ 31744) :
    ∃ k b, 7 ≤ k ∧ k ≤ 14 ∧ 2 ^ k ≤ x ∧ x < 2 ^ (k + 1) ∧ U32toU8 x = some b ∧ b < 256 ∧
      U8toU32 b = (x >>> (k - 4)) <<< (k - 4) ∧
      U8toU32 b = x - x % 2 ^ (k - 4) ∧
      U8toU32 b ≤ x ∧ x - U8toU32 b < 2 ^ (k - 4) ∧
      (∀ c, c < 256 → U8toU32 c ≤ x → U8toU32 c ≤ U8toU32 b) := by
  obtain ⟨k, b, hk7, hk14, hlo, hhi, henc, hb256, _, hdec⟩ := U32toU8_mid x h128 hx
  have hpos : 0 < 2 ^ (k - 4) := Nat.pos_pow_of_pos _ (by decide)
  have hdm := Nat.div_add_mod x (2 ^ (k - 4))
  have hmod := Nat.mod_lt x hpos
  have hcomm : x / 2 ^ (k - 4) * 2 ^ (k - 4) = 2 ^ (k - 4) * (x / 2 ^ (k - 4)) :=
    Nat.mul_comm _ _
  refine ⟨k, b, hk7, hk14, hlo, hhi, henc, hb256, ?_, ?_, ?_, ?_, ?_⟩
  · rw [hdec, Nat.shiftLeft_eq, Nat.shiftRight_eq_div_pow]
  · rw [hdec]; omega
  · rw [hdec]; omega
  · rw [hdec]; omega
  · intro c hc256 hcx
    rw [hdec]
    have hge := truncated_ge_pow x k (by omega) hlo
    by_cases hc128 : c < 128
    · have hcc : U8toU32 c = c := by simp [U8toU32, hc128]
      have h7 : 2 ^ 7 ≤ 2 ^ k := Nat.pow_le_pow_right (by decide) hk7
      rw [hcc]
      norm_num at h7
      omega
    · have hv128 : 128 ≤ U8toU32 c := by
        rw [U8toU32_high c (by omega) hc256]
        have h3 : 2 ^ 3 ≤ 2 ^ ((c - 128) / 16 + 3) :=
          Nat.pow_le_pow_right (by decide) (by omega)
        have h16 : 16 * 2 ^ 3 ≤ (16 + c % 16) * 2 ^ ((c - 128) / 16 + 3) :=
          Nat.mul_le_mul (by omega) h3
        norm_num at h16
        omega
      obtain ⟨j, hj7, _, hjlo, hjhi⟩ := exists_top_index (U8toU32 c) hv128 (by omega)
      have hrep := representable_div_mul (U8toU32 c) j c hj7 hjlo hjhi (by omega) hc256 rfl
      rcases Nat.lt_trichotomy j k with hjk | hjk | hjk
      · have : 2 ^ (j + 1) ≤ 2 ^ k := Nat.pow_le_pow_right (by decide) (by omega)
        omega
      · subst hjk
        rw [← hrep]
        exact Nat.mul_le_mul_right _ (Nat.div_le_div_right hcx)
      · have : 2 ^ (k + 1) ≤ 2 ^ j := Nat.pow_le_pow_right (by decide) (by omega)
        omega

theorem C24_encoder_rounds_down_witness :
    ∃ k b, 7 ≤ k ∧ k ≤ 14 ∧ 2 ^ k ≤ 1000 ∧ 1000 < 2 ^ (k + 1) ∧ U32toU8 1000 = some b ∧
      b < 256 ∧ U8toU32 b = (1000 >>> (k - 4)) <<< (k - 4) ∧
      U8toU32 b = 1000 - 1000 % 2 ^ (k - 4) ∧
      U8toU32 b ≤ 1000 ∧ 1000 - U8toU32 b < 2 ^ (k - 4) ∧
      (∀ c, c < 256 → U8toU32 c ≤ 1000 → U8toU32 c ≤ U8toU32 b) :=
  C24_encoder_rounds_down 1000 (by decide) (by decide)

/-- C25: every byte is its own canonical encoding.  For every byte `b` in `0..255`,
`U32toU8 (U8toU32 b) = b`; hence `U8toU32` is injective on bytes, and `U32toU8`, whose results
are always bytes, reaches every one of the 256 byte values. -/
theorem C25_bytes_are_canonical :
    (∀ b, b < 256 → U32toU8 (U8toU32 b) = some b) ∧
    (∀ b c, b < 256 → c < 256 → U8toU32 b = U8toU32 c → b = c) ∧
    (∀ b, b < 256 → ∃ x, x < 4294967296 ∧ U32toU8 x = some b) ∧
    (∀ x, ∃ b, U32toU8 x = some b ∧ b < 256) := by
  have hleft : ∀ b, b < 256 → U32toU8 (U8toU32 b) = some b := by
    intro b hb
    interval_cases b <;> rfl
  have hbound : ∀ b, b < 256 → U8toU32 b < 4294967296 := by
    intro b hb
    interval_cases b <;> decide
  refine ⟨hleft, ?_, ?_, U32toU8_total⟩
  · intro b c hb hc h
    have h1 := hleft b hb
    rw [h, hleft c hc] at h1
    exact (Option.some.inj h1).symm
  · intro b hb
    exact ⟨U8toU32 b, hbound b hb, hleft b hb⟩

theorem C25_bytes_are_canonical_witness :
    U32toU8 (U8toU32 200) = some 200 ∧ U8toU32 200 = 3072 ∧
      (U8toU32 200 = U8toU32 200 → 200 = 200) :=
  ⟨C25_bytes_are_canonical.1 200 (by decide), by rfl,
    C25_bytes_are_canonical.2.1 200 200 (by decide) (by decide)⟩

/-! ### Include records on idle groups -/

/-- Creating the entry of one group leaves every existing entry as it is. -/
theorem createGroup_keeps (self : IGMPRouter) (i a j b : Nat) (g : GroupData)
    (h : self.groups j b = some g) : (self.createGroup i a).groups j b = some g := by
  rcases Option.eq_none_or_eq_some (self.groups i a) with hg | ⟨g0, hg⟩
  · rw [createGroup_new self i a hg, groups_setGroup]
    have hne : ¬ (j = i ∧ b = a) := by
      rintro ⟨rfl, rfl⟩
      rw [hg] at h
      cases h
    rw [if_neg hne, groups_allocTimer]
    exact h
  · rw [createGroup_old self i a g0 hg]
    exact h

/-- The branch on the record type never takes the flag of an entry from true to false. -/
theorem updateGroup_keeps_exclude (self : IGMPRouter) (i : Nat) (r : GroupRecord) (j b : Nat)
    (g : GroupData) (h : self.groups j b = some g) (he : g.isExclude = true) :
    ∃ g1, (self.updateGroup i r).groups j b = some g1 ∧ g1.isExclude = true := by
  rcases updateGroup_cases self i r with hn | ⟨g0, hg, hcase⟩
  · rw [updateGroup_none self i r hn]
    exact ⟨g, h, he⟩
  · by_cases hjb : j = i ∧ b = r.multicastAddress
    · obtain ⟨rfl, rfl⟩ := hjb
      rw [hg] at h
      cases h
      rcases hcase with ht | ⟨ht, he0⟩ | ⟨ht, he0, hs⟩ | ⟨ht, he0, old, hs⟩
      · rw [updateGroup_exclude self j r g hg ht, groups_updateTimer, groups_setGroup,
          if_pos ⟨rfl, rfl⟩]
        exact ⟨_, rfl, rfl⟩
      · rw [updateGroup_idle self j r g hg ht he0]
        exact ⟨g, hg, he⟩
      · rw [updateGroup_probe_first self j r g hg ht he0 hs, groups_setGroup,
          if_pos ⟨rfl, rfl⟩]
        exact ⟨_, rfl, he⟩
      · rw [updateGroup_probe_again self j r g old hg ht he0 hs, groups_setGroup,
          if_pos ⟨rfl, rfl⟩]
        exact ⟨_, rfl, he⟩
    · rcases hcase with ht | ⟨ht, he0⟩ | ⟨ht, he0, hs⟩ | ⟨ht, he0, old, hs⟩
      · rw [updateGroup_exclude self i r g0 hg ht, groups_updateTimer, groups_setGroup,
          if_neg hjb]
        exact ⟨g, h, he⟩
      · rw [updateGroup_idle self i r g0 hg ht he0]
        exact ⟨g, h, he⟩
      · rw [updateGroup_probe_first self i r g0 hg ht he0 hs, groups_setGroup, if_neg hjb,
          groups_allocTimer]
        exact ⟨g, h, he⟩
      · rw [updateGroup_probe_again self i r g0 old hg ht he0 hs, groups_setGroup, if_neg hjb,
          groups_allocTimer, groups_updateTimer]
        exact ⟨g, h, he⟩

/-- The loop of `processReport` never takes the flag of an entry from true to false. -/
theorem foldl_processRecord_keeps_exclude (i j b : Nat) (records : List GroupRecord) :
    ∀ (self : IGMPRouter) (g : GroupData), self.groups j b = some g → g.isExclude = true →
      ∃ g1, (records.foldl (IGMPRouter.processRecord i) self).groups j b = some g1 ∧
        g1.isExclude = true := by
  induction records with
  | nil => intro self g h he; exact ⟨g, h, he⟩
  | cons r rs ih =>
    intro self g h he
    have hstep : ∃ g1, (IGMPRouter.processRecord i self r).groups j b = some g1 ∧
        g1.isExclude = true := by
      unfold IGMPRouter.processRecord
      simp only []
      split
      · exact ⟨g, h, he⟩
      · exact updateGroup_keeps_exclude _ i r j b g (createGroup_keeps self i _ j b g h) he
    obtain ⟨g1, h1, he1⟩ := hstep
    exact ih _ g1 h1 he1

/-- C23: for every record of type `IS_INCLUDE` or `CHANGE_TO_INCLUDE` with a multicast address
other than `224.0.0.1`: when the group is absent, `processReport` creates the entry with flag
false and no send timer, allocating only its expiry timer, scheduled
`groupMembershipInterval` from now, and leaves every other entry alone; when the group exists
with flag false, `processReport` changes nothing at all (entry, expiry timer and every other
timer stay as they are).  In both cases no probe timer is started and no query is sent.  And
for any report at all, an entry whose flag is true still exists with flag true afterwards. -/
theorem C23_include_record_on_idle_group (self : IGMPRouter) (interface : Nat)
    (record : GroupRecord)
    (htype : record.recordType = MODE_IS_INCLUDE ∨ record.recordType = CHANGE_TO_INCLUDE_MODE)
    (hmc : is_multicast record.multicastAddress = true)
    (hne : record.multicastAddress ≠ ALL_SYSTEMS) :
    (self.groups interface record.multicastAddress = none →
      (self.processReport [record] interface).groups interface record.multicastAddress =
        some { groupTimer := self.timers.length, sendTimer := none, isExclude := false } ∧
      (self.processReport [record] interface).timers = self.timers ++
        [{ timer :=
            { scheduled := true
              expiry := self.now + ((mul100 self.groupMembershipInterval : Nat) : Int) }
           callback := Callback.groupExpire interface record.multicastAddress }] ∧
      (self.processReport [record] interface).sent = self.sent ∧
      (self.processReport [record] interface).now = self.now ∧
      (∀ j b, ¬ (j = interface ∧ b = record.multicastAddress) →
        (self.processReport [record] interface).groups j b = self.groups j b)) ∧
    (∀ g, self.groups interface record.multicastAddress = some g → g.isExclude = false →
      self.processReport [record] interface = self) ∧
    (∀ (records : List GroupRecord) (i j b : Nat) (g : GroupData),
      self.groups j b = some g → g.isExclude = true →
      ∃ g1, (self.processReport records i).groups j b = some g1 ∧ g1.isExclude = true) := by
  have hnot : ¬ (record.recordType = MODE_IS_EXCLUDE ∨
      record.recordType = CHANGE_TO_EXCLUDE_MODE) := by
    rcases htype with h | h <;> rw [h] <;> decide
  refine ⟨?_, ?_, ?_⟩
  · intro habs
    obtain ⟨self1, hloop, hg1, ht1, hn1, hgmi1, hs1⟩ :=
      processReport_loop self [record] interface
    have habs1 : self1.groups interface record.multicastAddress = none := by
      rw [hg1]; exact habs
    have hcreated : (self1.createGroup interface record.multicastAddress).groups interface
        record.multicastAddress =
          some { groupTimer := self1.timers.length, sendTimer := none, isExclude := false } := by
      rw [createGroup_new self1 _ _ habs1, groups_setGroup, if_pos ⟨rfl, rfl⟩]
    have hres : self.processReport [record] interface =
        IGMPRouter.setGroup
          (self1.allocTimer
            { timer :=
                Timer.fresh.schedule_after_msec self1.now (mul100 self1.groupMembershipInterval)
              callback := Callback.groupExpire interface record.multicastAddress })
          interface record.multicastAddress
          (some { groupTimer := self1.timers.length, sendTimer := none, isExclude := false }) := by
      rw [hloop]
      simp only [List.foldl_cons, List.foldl_nil]
      rw [processRecord_valid interface self1 record hmc hne,
        updateGroup_idle _ interface record _ hcreated hnot rfl,
        createGroup_new self1 _ _ habs1]
    rw [hres]
    refine ⟨?_, ?_, hs1, hn1, ?_⟩
    · rw [groups_setGroup, if_pos ⟨rfl, rfl⟩, ht1]
    · show self1.timers ++ _ = _
      rw [ht1, hn1, hgmi1]
      rfl
    · intro j b hjb
      rw [groups_setGroup, if_neg hjb, groups_allocTimer, hg1]
  · intro g hg he
    rw [processReport_single self interface record g hmc hne hg]
    exact updateGroup_idle self interface record g hg hnot he
  · intro records i j b g hg he
    obtain ⟨self1, hloop, hg1, _⟩ := processReport_loop self records i
    rw [hloop]
    exact foldl_processRecord_keeps_exclude i j b records self1 g (by rw [hg1]; exact hg) he

theorem C23_include_record_on_idle_group_witness :
    (sampleRouter.processReport [sampleRecord MODE_IS_INCLUDE] 1).groups 1 sampleGroup =
        some { groupTimer := 0, sendTimer := none, isExclude := false } ∧
      (sampleRouter.processReport [sampleRecord MODE_IS_INCLUDE] 1).timers =
        [{ timer := { scheduled := true, expiry := 260000 }
           callback := Callback.groupExpire 1 sampleGroup }] ∧
      (sampleRouter.processReport [sampleRecord MODE_IS_INCLUDE] 1).sent = [] ∧
      ((sampleRouter.processReport [sampleRecord MODE_IS_INCLUDE] 1).processReport
        [sampleRecord CHANGE_TO_INCLUDE_MODE] 1 =
          sampleRouter.processReport [sampleRecord MODE_IS_INCLUDE] 1) := by
  have h := C23_include_record_on_idle_group sampleRouter 1 (sampleRecord MODE_IS_INCLUDE)
    (Or.inl rfl) (by decide) (by decide)
  have h1 := h.1 (by rfl)
  have h2 := C23_include_record_on_idle_group
    (sampleRouter.processReport [sampleRecord MODE_IS_INCLUDE] 1) 1
    (sampleRecord CHANGE_TO_INCLUDE_MODE) (Or.inr rfl) (by decide) (by decide)
  exact ⟨h1.1, h1.2.1, h1.2.2.1, h2.2.1 _ h1.1 rfl⟩

/-! ### Cadence of the general queries -/

theorem updateTimer_some (self : IGMPRouter) (id : Nat) (f : Timer → Timer) (t : RouterTimer)
    (h : self.timers[id]? = some t) :
    self.updateTimer id f =
      { self with timers := self.timers.set id { t with timer := f t.timer } } := by
  unfold IGMPRouter.updateTimer
  rw [h]

theorem updateCallback_some (self : IGMPRouter) (id : Nat) (c : Callback) (t : RouterTimer)
    (h : self.timers[id]? = some t) :
    self.updateCallback id c =
      { self with timers := self.timers.set id { t with callback := c } } := by
  unfold IGMPRouter.updateCallback
  rw [h]

theorem getElem?_set_self_of_some (l : List RouterTimer) (id : Nat) (t a : RouterTimer)
    (h : l[id]? = some t) : (l.set id a)[id]? = some a := by
  have hlt : id < l.length := by
    by_contra hge
    rw [List.getElem?_eq_none (by omega)] at h
    cases h
  simp [List.getElem?_set, hlt]

/-- The general query carries group address 0. -/
theorem generalQuery_groupAddress (self : IGMPRouter) (msg : QueryMessage)
    (h : self.generalQuery = some msg) : msg.groupAddress = 0 := by
  unfold IGMPRouter.generalQuery at h
  split at h
  · cases h
    rfl
  · cases h

theorem sendGeneralQueries_some (self : IGMPRouter) (msg : QueryMessage)
    (h : self.generalQuery = some msg) :
    self.sendGeneralQueries = some
      { self with
        sent := self.sent ++ (List.range self.noutputs).map
          (fun i => ({ time := self.now, port := i, msg := msg } : SentQuery)) } := by
  unfold IGMPRouter.sendGeneralQueries
  rw [h]

/-- The callback of the general-query timer, as one update of the state. -/
theorem handleGeneralResend_eq (self : IGMPRouter) (id c : Nat) (t : Timer)
    (msg : QueryMessage)
    (h : self.timers[id]? = some { timer := t, callback := Callback.handleGeneralResend c })
    (hmsg : self.generalQuery = some msg) :
    self.handleGeneralResend id = some
      { self with
        sent := self.sent ++ (List.range self.noutputs).map
          (fun i => ({ time := self.now, port := i, msg := msg } : SentQuery))
        timers := self.timers.set id
          { timer :=
              { scheduled := true
                expiry := self.now +
                  ((mul100 (if 0 < c then self.startupQueryInterval
                    else self.queryInterval) : Nat) : Int) }
            callback := Callback.handleGeneralResend (c - 1) } } := by
  unfold IGMPRouter.handleGeneralResend
  rw [h]
  simp only []
  rw [sendGeneralQueries_some self msg hmsg]
  simp only []
  by_cases hc : 0 < c
  · rw [if_pos hc, if_pos hc]
    have h1 : ({ self with
        sent := self.sent ++ (List.range self.noutputs).map
          (fun i => ({ time := self.now, port := i, msg := msg } : SentQuery)) } :
        IGMPRouter).timers[id]? =
          some { timer := t, callback := Callback.handleGeneralResend c } := h
    rw [updateCallback_some _ id _ _ h1]
    have h2 := getElem?_set_self_of_some self.timers id _
      { timer := t, callback := Callback.handleGeneralResend (c - 1) } h
    rw [updateTimer_some _ id _ _ h2]
    simp [List.set_set, Timer.schedule_after_msec]
  · rw [if_neg hc, if_neg hc]
    have h1 : ({ self with
        sent := self.sent ++ (List.range self.noutputs).map
          (fun i => ({ time := self.now, port := i, msg := msg } : SentQuery)) } :
        IGMPRouter).timers[id]? =
          some { timer := t, callback := Callback.handleGeneralResend c } := h
    rw [updateTimer_some _ id _ _ h1]
    have hc0 : c - 1 = c := by omega
    simp [Timer.schedule_after_msec, hc0]

/-- One firing of the scheduled general-query timer: the clock is at the expiry, one General
Query has gone to every output, the timer is scheduled again, after `startupQueryInterval` when
the counter was positive and after `queryInterval` otherwise, and the counter is one less
unless it was 0. -/
theorem fireTimer_general (self : IGMPRouter) (id c : Nat) (t : Timer)
    (h : self.timers[id]? = some { timer := t, callback := Callback.handleGeneralResend c })
    (hs : t.scheduled = true) :
    ∃ msg next, self.generalQuery = some msg ∧ msg.groupAddress = 0 ∧
      self.fireTimer id = some next ∧
      next.now = max self.now t.expiry ∧
      next.sent = self.sent ++ (List.range self.noutputs).map
        (fun i => ({ time := max self.now t.expiry, port := i, msg := msg } : SentQuery)) ∧
      next.timers[id]? = some
        { timer :=
            { scheduled := true
              expiry := max self.now t.expiry +
                ((mul100 (if 0 < c then self.startupQueryInterval
                  else self.queryInterval) : Nat) : Int) }
          callback := Callback.handleGeneralResend (c - 1) } ∧
      next.startupQueryInterval = self.startupQueryInterval ∧
      next.queryInterval = self.queryInterval ∧ next.noutputs = self.noutputs ∧
      next.generalQuery = self.generalQuery := by
  obtain ⟨msg, hmsg, _⟩ := generalQuery_verifies self
  have h0 : ({ self with now := max self.now t.expiry } : IGMPRouter).timers[id]? =
      some { timer := t, callback := Callback.handleGeneralResend c } := h
  have h1 := getElem?_set_self_of_some self.timers id _
    { timer := t.clear, callback := Callback.handleGeneralResend c } h
  have hq : IGMPRouter.generalQuery
      { self with
        now := max self.now t.expiry
        timers := self.timers.set id
          { timer := t.clear, callback := Callback.handleGeneralResend c } } = some msg := hmsg
  have hfire : self.fireTimer id = some
      { self with
        now := max self.now t.expiry
        sent := self.sent ++ (List.range self.noutputs).map
          (fun i => ({ time := max self.now t.expiry, port := i, msg := msg } : SentQuery))
        timers := self.timers.set id
          { timer :=
              { scheduled := true
                expiry := max self.now t.expiry +
                  ((mul100 (if 0 < c then self.startupQueryInterval
                    else self.queryInterval) : Nat) : Int) }
            callback := Callback.handleGeneralResend (c - 1) } } := by
    unfold IGMPRouter.fireTimer
    rw [h]
    simp only [hs, if_true]
    rw [updateTimer_some _ id _ _ h0]
    rw [handleGeneralResend_eq _ id c t.clear msg h1 hq]
    simp [List.set_set]
  exact ⟨msg, _, hmsg, generalQuery_groupAddress self msg hmsg, hfire, rfl, rfl,
    getElem?_set_self_of_some self.timers id _ _ h, rfl, rfl, rfl, rfl⟩

/-- Firing the general-query timer `k` times in a row: the timer is scheduled again after each
firing, the counter has gone down by `k` (stopping at 0), and the configuration is as
before. -/
theorem runTimer_general (id : Nat) :
    ∀ (k n : Nat) (self : IGMPRouter) (fired : Nat) (t : Timer),
      self.timers[id]? = some { timer := t, callback := Callback.handleGeneralResend n } →
      t.scheduled = true →
      ∃ r t1, IGMPRouter.runTimer id k self fired = some (r, fired + k) ∧
        r.timers[id]? = some { timer := t1, callback := Callback.handleGeneralResend (n - k) } ∧
        t1.scheduled = true ∧
        r.startupQueryInterval = self.startupQueryInterval ∧
        r.queryInterval = self.queryInterval ∧ r.noutputs = self.noutputs ∧
        r.generalQuery = self.generalQuery ∧
        r.sent.length = self.sent.length + k * self.noutputs := by
  intro k
  induction k with
  | zero =>
    intro n self fired t h hs
    exact ⟨self, t, rfl, h, hs, rfl, rfl, rfl, rfl, by simp⟩
  | succ k ih =>
    intro n self fired t h hs
    obtain ⟨msg, next, _, _, hfire, _, hsent, h1, hsi0, hqi0, hno0, hgq0⟩ :=
      fireTimer_general self id n t h hs
    obtain ⟨r, t1, hrun, hr, hs1, hsi, hqi, hno, hgq, hlen⟩ :=
      ih (n - 1) next (fired + 1) _ h1 rfl
    refine ⟨r, t1, ?_, ?_, hs1, hsi.trans hsi0, hqi.trans hqi0, hno.trans hno0,
      hgq.trans hgq0, ?_⟩
    · rw [IGMPRouter.runTimer, h]
      simp only [hs, if_true]
      rw [hfire]
      simp only []
      rw [hrun]
      congr 2
      omega
    · rw [hr]
      have hk : n - 1 - k = n - (k + 1) := by omega
      rw [hk]
    · rw [hlen, hsent, hno0]
      simp only [List.length_append, List.length_map, List.length_range]
      rw [Nat.succ_mul]
      omega

/-- C21: cadence of the general queries.  Starting from a general-query timer that is scheduled
with burst counter `n` (as `configure` leaves it, with `n = startupQueryCount`), the timer can
be fired any number of times in a row; after `k` firings the counter is `n - k` stopped at 0,
and the next firing, the `(k + 1)`-th, transmits one General Query (group address 0) on every
output and reschedules the timer after `startupQueryInterval` when `k + 1 ≤ n` and after
`queryInterval` when `k + 1 > n`, taking the counter down by one unless it is 0 already. -/
theorem C21_general_query_cadence (self : IGMPRouter) (id n : Nat) (t : Timer)
    (h : self.timers[id]? = some { timer := t, callback := Callback.handleGeneralResend n })
    (hs : t.scheduled = true) (k : Nat) :
    ∃ before after msg t0,
      IGMPRouter.runTimer id k self 0 = some (before, k) ∧
      before.timers[id]? =
        some { timer := t0, callback := Callback.handleGeneralResend (n - k) } ∧
      t0.scheduled = true ∧
      before.fireTimer id = some after ∧
      self.generalQuery = some msg ∧ msg.groupAddress = 0 ∧
      after.now = max before.now t0.expiry ∧
      after.sent = before.sent ++ (List.range self.noutputs).map
        (fun i => ({ time := after.now, port := i, msg := msg } : SentQuery)) ∧
      after.timers[id]? = some
        { timer :=
            { scheduled := true
              expiry := after.now +
                ((mul100 (if k + 1 ≤ n then self.startupQueryInterval
                  else self.queryInterval) : Nat) : Int) }
          callback := Callback.handleGeneralResend (n - (k + 1)) } ∧
      (self.configure.timers[self.timers.length]? =
        some { timer := { scheduled := true, expiry := self.now }
               callback := Callback.handleGeneralResend self.startupQueryCount }) := by
  obtain ⟨before, t0, hrun, hb, hs0, hsi, hqi, hno, hgq, _⟩ :=
    runTimer_general id k n self 0 t h hs
  obtain ⟨msg, after, hmsg, hga, hfire, hnow, hsent, h1, _, _, _, _⟩ :=
    fireTimer_general before id (n - k) t0 hb hs0
  refine ⟨before, after, msg, t0, by rw [hrun, Nat.zero_add], hb, hs0, hfire,
    by rw [← hgq, hmsg], hga, hnow, by rw [hsent, hnow, hno], ?_,
    timers_allocTimer_new self _⟩
  rw [h1, hsi, hqi, hnow]
  have hk : (0 < n - k) = (k + 1 ≤ n) := by
    apply propext
    omega
  simp only [hk]
  rfl

theorem C21_general_query_cadence_witness :
    (∃ before after msg t0,
      IGMPRouter.runTimer 0 2 startedRouter 0 = some (before, 2) ∧
      before.timers[0]? = some { timer := t0, callback := Callback.handleGeneralResend 0 } ∧
      t0.scheduled = true ∧
      before.fireTimer 0 = some after ∧
      startedRouter.generalQuery = some msg ∧ msg.groupAddress = 0 ∧
      after.now = max before.now t0.expiry ∧
      after.sent = before.sent ++ (List.range 2).map
        (fun i => ({ time := after.now, port := i, msg := msg } : SentQuery)) ∧
      after.timers[0]? = some
        { timer := { scheduled := true, expiry := after.now + 125000 }
          callback := Callback.handleGeneralResend 0 } ∧
      (startedRouter.configure.timers[1]? =
        some { timer := { scheduled := true, expiry := 0 }
               callback := Callback.handleGeneralResend 2 })) ∧
    (IGMPRouter.runTimer 0 3 startedRouter 0).map
      (fun p => (p.1.timers, p.1.sent.map (fun q => (q.time, q.port, q.msg.groupAddress)))) =
      some ([{ timer := { scheduled := true, expiry := 187400 }
               callback := Callback.handleGeneralResend 0 }],
        [(0, 0, 0), (0, 1, 0), (31200, 0, 0), (31200, 1, 0), (62400, 0, 0), (62400, 1, 0)]) :=
  ⟨C21_general_query_cadence startedRouter 0 2 { scheduled := true, expiry := 0 } rfl rfl 2,
    by decide⟩

/-! ### A new state change supersedes the pending one -/

/-- A firing of the retransmission timer of one address leaves the timers of every other
address alone. -/
theorem fireChangeTimer_other (self next : IGMPClient) (d A B : Nat)
    (h : self.fireChangeTimer d A = some next) (hB : B ≠ A) :
    next.changeTimers B = self.changeTimers B := by
  unfold IGMPClient.fireChangeTimer at h
  split at h
  · cases h
  · split at h
    · cases h
      simp only [IGMPClient.handleChangeReport, setKey_same]
      split <;> simp [setKey, hB]
    · cases h

theorem runChangeTimer_other (delays : Nat → Nat) (A B : Nat) (hB : B ≠ A) :
    ∀ (fuel : Nat) (self : IGMPClient) (fired : Nat),
      (IGMPClient.runChangeTimer delays A fuel self fired).1.changeTimers B =
        self.changeTimers B := by
  intro fuel
  induction fuel with
  | zero => intro self fired; rfl
  | succ fuel ih =>
    intro self fired
    rw [IGMPClient.runChangeTimer]
    rcases Option.eq_none_or_eq_some (self.fireChangeTimer (delays fired) A) with
      hn | ⟨next, hn⟩
    · rw [hn]
    · rw [hn]
      simp only []
      rw [ih next (fired + 1)]
      exact fireChangeTimer_other self next _ A B hn hB

/-- C22: a new state change supersedes the previous one for the same address.  When
`scheduleStateChangeMessage(type, A)` runs (its packet being allocated) while a retransmission
timer for `A` is in flight, which until then was due to retransmit the old packet, the call
returns, the new report is transmitted once at once and the timers of other addresses are
untouched; with `qrv ≤ 1` the old timer is left cancelled and no firing is possible; with
`qrv ≥ 2` the timer pending for `A` is the new one, carrying the new packet and the counter
`qrv - 1`.  From then on the timer of `A` fires exactly `qrv - 1` times and every transmission
is the new packet (`max qrv 1` in total), after which it is not scheduled; the timers of other
addresses are still untouched.  When the packet cannot be allocated the call changes
nothing. -/
theorem C22_state_change_supersedes (self : IGMPClient) (type A delay fuel : Nat)
    (delays : Nat → Nat) (old : ChangeTimer) (h : self.changeTimers A = some old)
    (hs : old.timer.scheduled = true) (hf : old.freed = false) (hfuel : self.qrv ≤ fuel) :
    (∃ prev, self.fireChangeTimer (delays 0) A = some prev ∧
      prev.sent = self.sent ++
        [({ time := max self.now old.timer.expiry, header := old.header
            records := old.records } : SentReport)]) ∧
    (∃ next, self.scheduleStateChangeMessage true delay type A = some next ∧
      next.sent = self.sent ++
        [({ time := self.now, header := IGMPClient.buildReport [IGMPClient.mkRecord type A]
            records := [IGMPClient.mkRecord type A] } : SentReport)] ∧
      (∀ B, B ≠ A → next.changeTimers B = self.changeTimers B) ∧
      (self.qrv ≤ 1 →
        next.changeTimers A = some { old with timer := old.timer.clear, freed := true } ∧
        ∀ d, next.fireChangeTimer d A = none) ∧
      (2 ≤ self.qrv →
        next.changeTimers A = some
          { timer := { scheduled := true, expiry := self.now + (delay : Int) }
            header := IGMPClient.buildReport [IGMPClient.mkRecord type A]
            records := [IGMPClient.mkRecord type A]
            remaining := ((self.qrv - 1 : Nat) : Int), freed := false }) ∧
      (∃ final,
        IGMPClient.runChangeTimer delays A fuel next 0 = (final, self.qrv - 1) ∧
        final.sent.map (fun m => (m.header, m.records)) =
          self.sent.map (fun m => (m.header, m.records)) ++
            List.replicate (max self.qrv 1)
              (IGMPClient.buildReport [IGMPClient.mkRecord type A],
                [IGMPClient.mkRecord type A]) ∧
        (∀ ct, final.changeTimers A = some ct → ct.timer.scheduled = false) ∧
        (∀ B, B ≠ A → final.changeTimers B = self.changeTimers B))) ∧
    self.scheduleStateChangeMessage false delay type A = some self := by
  obtain ⟨prev, _, hprev, hprevsent, _⟩ := fireChangeTimer_step self (delays 0) A old h hs hf
  have hlive : ∀ ct, self.changeTimers A = some ct → ct.freed = false := by
    intro ct hct
    rw [h] at hct
    cases hct
    exact hf
  obtain ⟨next, hnext, hsent, _, _, hone, hmany, hother⟩ :=
    scheduleStateChangeMessage_effect self delay type A hlive
  have hentry1 : self.qrv ≤ 1 →
      next.changeTimers A = some { old with timer := old.timer.clear, freed := true } := by
    intro hq
    have hn := hnext
    simp only [IGMPClient.scheduleStateChangeMessage, IGMPClient.pushStateChange, h, hq, hf,
      Bool.not_true, Bool.false_eq_true, if_false, if_true, Option.some.injEq] at hn
    rw [← hn]
    simp [setKey_same]
  have hnofire : self.qrv ≤ 1 → ∀ d, next.fireChangeTimer d A = none := by
    intro hq d
    unfold IGMPClient.fireChangeTimer
    rw [hentry1 hq]
    simp [Timer.clear]
  have hfinal_other : ∀ B, B ≠ A →
      (IGMPClient.runChangeTimer delays A fuel next 0).1.changeTimers B =
        self.changeTimers B := by
    intro B hB
    rw [runChangeTimer_other delays A B hB, hother B hB]
  have hnsent : next.sent.map (fun m => (m.header, m.records)) =
      self.sent.map (fun m => (m.header, m.records)) ++
        [(IGMPClient.buildReport [IGMPClient.mkRecord type A],
          [IGMPClient.mkRecord type A])] := by
    rw [hsent]; simp
  refine ⟨⟨prev, hprev, hprevsent⟩,
    ⟨next, hnext, hsent, hother, fun hq => ⟨hentry1 hq, hnofire hq⟩, ?_, ?_⟩,
    by simp [IGMPClient.scheduleStateChangeMessage]⟩
  · intro hq
    exact hmany (by omega)
  · by_cases hq : self.qrv ≤ 1
    · have hrun : IGMPClient.runChangeTimer delays A fuel next 0 = (next, self.qrv - 1) := by
        have h0 : self.qrv - 1 = 0 := by omega
        rw [h0]
        cases fuel with
        | zero => rfl
        | succ f => rw [IGMPClient.runChangeTimer, hnofire hq]
      refine ⟨_, hrun, ?_, hone hq, ?_⟩
      · rw [hnsent]
        have hm : max self.qrv 1 = 1 := by omega
        rw [hm]
        rfl
      · intro B hB
        exact hother B hB
    · have hct := hmany hq
      obtain ⟨final, ct1, hrun, hfsent, hct1, hsched, _, _⟩ :=
        runChangeTimer_counts delays A (self.qrv - 2) fuel next 0 _ (by omega) hct rfl rfl
          (by simp only []; congr 1; omega)
      have hrun1 : IGMPClient.runChangeTimer delays A fuel next 0 = (final, self.qrv - 1) := by
        rw [hrun]; congr 1; omega
      refine ⟨final, hrun1, ?_, ?_, ?_⟩
      · rw [hfsent, hnsent, List.append_assoc]
        congr 1
        have hm : max self.qrv 1 = (self.qrv - 2 + 1) + 1 := by omega
        rw [hm]
        conv_rhs => rw [List.replicate_succ]
        rfl
      · intro ct hc
        rw [hct1] at hc
        cases hc
        exact hsched
      · intro B hB
        have := hfinal_other B hB
        rw [hrun1] at this
        exact this

theorem C22_state_change_supersedes_witness :
    (∃ next,
      pendingJoin.scheduleStateChangeMessage true 300 CHANGE_TO_INCLUDE_MODE sampleGroup =
        some next ∧
      ∃ final,
        IGMPClient.runChangeTimer (fun _ => 500) sampleGroup 10 next 0 = (final, 1) ∧
        final.sent.map (fun m => (m.header, m.records)) =
          pendingJoin.sent.map (fun m => (m.header, m.records)) ++
            List.replicate 2
              (IGMPClient.buildReport [IGMPClient.mkRecord CHANGE_TO_INCLUDE_MODE sampleGroup],
                [IGMPClient.mkRecord CHANGE_TO_INCLUDE_MODE sampleGroup]) ∧
        (∀ ct, final.changeTimers sampleGroup = some ct → ct.timer.scheduled = false) ∧
        (∀ B, B ≠ sampleGroup → final.changeTimers B = pendingJoin.changeTimers B)) ∧
    (pendingJoin.handleLeave true 300 (some sampleGroup)).map
      (fun left =>
        (IGMPClient.runChangeTimer (fun _ => 500) sampleGroup 10 left 0).1.sent.map
          (fun m => (m.time, m.records.map (fun r => r.recordType)))) =
      some [(0, [CHANGE_TO_EXCLUDE_MODE]), (0, [CHANGE_TO_INCLUDE_MODE]),
        (300, [CHANGE_TO_INCLUDE_MODE])] := by
  obtain ⟨next, hnext, _, _, _, _, hrun⟩ :=
    (C22_state_change_supersedes pendingJoin CHANGE_TO_INCLUDE_MODE sampleGroup 300 10
      (fun _ => 500)
      { timer := { scheduled := true, expiry := 200 }
        header := IGMPClient.buildReport [IGMPClient.mkRecord CHANGE_TO_EXCLUDE_MODE sampleGroup]
        records := [IGMPClient.mkRecord CHANGE_TO_EXCLUDE_MODE sampleGroup]
        remaining := 1, freed := false }
      (by rfl) rfl rfl (by decide)).2.1
  exact ⟨⟨next, hnext, hrun⟩, by decide⟩

end IGMP
